import Mathlib

/-!
# Material extractor: geometry, layer classification and feature estimation

A shallow embedding of the JavaScript sources

* `utils/GeometryCalculator.js`
* `utils/SelectionFilter.js`
* `utils/BlockProcessor.js`
* `services/CADProcessor.js`
* `collections/SanitaryObjectsCollections.js`
* `models/SanitaryMaterial.js`, `models/Pipe.js`
* `services/MaterialCalculator.js`
* `services/SelectionSetUtil.js`
* `utils/ValidationUtils.js`, `models/PipeSheet.js`
* `utils/GeometryUtils.js`
* `routes/api.js` (the summary of the export route)

JavaScript values are modelled as follows.

* A string is a list of characters (`JSString`).
* A number is a `JSNumber`: a finite rational value, one of the two infinities, or NaN.
  Every finite double is a rational, and comparison of doubles is exact, so the
  relational operators, `Math.abs`, `Math.min` and `Math.max` are defined on `JSNumber`
  itself.  The two zeros are identified.
* Operations of the host that round or depend on Unicode tables (`+`, `-`, `*`, `/`,
  `Math.sqrt`, `Math.acos`, the number produced by `parseInt`, number-to-string
  conversion, `toUpperCase`, `toLowerCase`) are fields of a `Runtime` record.  Functions
  of the program take the runtime as a parameter; general theorems hold for every
  runtime.  `refRuntime` is the runtime with exact arithmetic and ASCII case mapping; it
  agrees with IEEE doubles whenever all intermediate values are integers below `2^53`
  and all strings are ASCII.
* An absent property (`undefined`) is `none`.
-/

namespace MaterialExtractor

/-! ## JavaScript values -/

/-- A JavaScript string. -/
abbrev JSString := List Char

/-- A JavaScript number: finite (a rational), `Infinity`, `-Infinity` or `NaN`. -/
inductive JSNumber where
  | fin (q : ℚ)
  | posInf
  | negInf
  | nan
  deriving DecidableEq

namespace JSNumber

/-- The relational operator `a > b` on numbers. -/
def gt : JSNumber → JSNumber → Bool
  | nan, _ => false
  | _, nan => false
  | fin a, fin b => decide (b < a)
  | posInf, posInf => false
  | posInf, _ => true
  | fin _, negInf => true
  | _, _ => false

/-- The relational operator `a < b` on numbers. -/
def lt (a b : JSNumber) : Bool := gt b a

/-- The relational operator `a <= b` on numbers (false when either side is NaN). -/
def le : JSNumber → JSNumber → Bool
  | nan, _ => false
  | _, nan => false
  | fin a, fin b => decide (a ≤ b)
  | negInf, _ => true
  | _, posInf => true
  | _, _ => false

/-- Truthiness of a number for `||` and `!`: everything but `0` and `NaN`. -/
def truthy : JSNumber → Bool
  | fin q => decide (q ≠ 0)
  | nan => false
  | _ => true

/-- The function `Math.abs`. -/
def abs : JSNumber → JSNumber
  | fin q => fin |q|
  | posInf => posInf
  | negInf => posInf
  | nan => nan

/-- The function `Math.min` of two numbers: NaN when either is NaN. -/
def min (a b : JSNumber) : JSNumber :=
  match a, b with
  | nan, _ => nan
  | _, nan => nan
  | _, _ => if gt a b then b else a

/-- The function `Math.max` of two numbers: NaN when either is NaN. -/
def max (a b : JSNumber) : JSNumber :=
  match a, b with
  | nan, _ => nan
  | _, nan => nan
  | _, _ => if gt b a then b else a

instance : OfNat JSNumber n := ⟨fin (n : ℚ)⟩

end JSNumber

open JSNumber

/-- Host operations that are not modelled bit by bit. -/
structure Runtime where
  /-- The operator `+` on numbers. -/
  add : JSNumber → JSNumber → JSNumber
  /-- The operator `-` on numbers. -/
  sub : JSNumber → JSNumber → JSNumber
  /-- The operator `*` on numbers. -/
  mul : JSNumber → JSNumber → JSNumber
  /-- The operator `/` on numbers. -/
  div : JSNumber → JSNumber → JSNumber
  /-- The function `Math.acos`. -/
  acos : JSNumber → JSNumber
  /-- The function `Math.sqrt`. -/
  sqrt : JSNumber → JSNumber
  /-- The number `parseInt` produces for a digit string of the given value. -/
  ofNat : Nat → JSNumber
  /-- The conversion of a number to a string, as a template literal applies it. -/
  numberToString : JSNumber → JSString
  /-- The method `String.prototype.toUpperCase`. -/
  toUpperCase : JSString → JSString
  /-- The method `String.prototype.toLowerCase`. -/
  toLowerCase : JSString → JSString

/-- Exact addition on `JSNumber`. -/
def exactAdd : JSNumber → JSNumber → JSNumber
  | fin a, fin b => fin (a + b)
  | nan, _ => nan
  | _, nan => nan
  | posInf, negInf => nan
  | negInf, posInf => nan
  | posInf, _ => posInf
  | _, posInf => posInf
  | negInf, _ => negInf
  | _, negInf => negInf

/-- Exact negation. -/
def exactNeg : JSNumber → JSNumber
  | fin a => fin (-a)
  | posInf => negInf
  | negInf => posInf
  | nan => nan

/-- Exact multiplication; an infinity times zero is NaN. -/
def exactMul : JSNumber → JSNumber → JSNumber
  | fin a, fin b => fin (a * b)
  | nan, _ => nan
  | _, nan => nan
  | fin a, posInf => if a = 0 then nan else if 0 < a then posInf else negInf
  | fin a, negInf => if a = 0 then nan else if 0 < a then negInf else posInf
  | posInf, fin b => if b = 0 then nan else if 0 < b then posInf else negInf
  | negInf, fin b => if b = 0 then nan else if 0 < b then negInf else posInf
  | posInf, posInf => posInf
  | negInf, negInf => posInf
  | posInf, negInf => negInf
  | negInf, posInf => negInf

/-- Exact division; a non-zero number over zero is an infinity of the sign of the
numerator, zero over zero is NaN. -/
def exactDiv : JSNumber → JSNumber → JSNumber
  | fin a, fin b =>
    if b = 0 then (if a = 0 then nan else if 0 < a then posInf else negInf) else fin (a / b)
  | nan, _ => nan
  | _, nan => nan
  | fin _, posInf => fin 0
  | fin _, negInf => fin 0
  | posInf, fin b => if 0 ≤ b then posInf else negInf
  | negInf, fin b => if 0 ≤ b then negInf else posInf
  | posInf, posInf => nan
  | posInf, negInf => nan
  | negInf, posInf => nan
  | negInf, negInf => nan

/-- The constant `Math.PI`, the double nearest to π. -/
def mathPI : JSNumber := fin (884279719003555 / 281474976710656)

/-- The arccosine of the reference runtime, given at the arguments `1`, `0` and `-1` only
(the values `0`, `Math.PI / 2` and `Math.PI`); elsewhere it yields NaN. -/
def refAcos : JSNumber → JSNumber
  | fin q =>
    if q = 1 then fin 0
    else if q = 0 then fin (884279719003555 / 562949953421312)
    else if q = -1 then mathPI
    else nan
  | _ => nan

/-- Square root that is exact on squares of rationals (integer square roots of numerator
and denominator elsewhere). -/
def exactSqrt : JSNumber → JSNumber
  | fin q => if q < 0 then nan else fin ((Nat.sqrt q.num.toNat : ℚ) / (Nat.sqrt q.den : ℚ))
  | posInf => posInf
  | negInf => nan
  | nan => nan

/-- The text of a number in the reference runtime: decimal digits for an integer, the
names of the special values, and numerator `/` denominator for a finite non-integer (the
reference runtime is meant for integer values; the host prints a decimal fraction). -/
def exactNumberToString : JSNumber → JSString
  | fin q =>
    (if q < 0 then "-".toList else []) ++ (Nat.repr q.num.natAbs).toList
      ++ (if q.den = 1 then [] else "/".toList ++ (Nat.repr q.den).toList)
  | posInf => "Infinity".toList
  | negInf => "-Infinity".toList
  | nan => "NaN".toList

/-- The reference runtime: exact arithmetic, ASCII case mapping. -/
def refRuntime : Runtime where
  numberToString := exactNumberToString
  add := exactAdd
  sub := fun a b => exactAdd a (exactNeg b)
  mul := exactMul
  div := exactDiv
  acos := refAcos
  sqrt := exactSqrt
  ofNat := fun n => fin (n : ℚ)
  toUpperCase := fun s => s.map Char.toUpper
  toLowerCase := fun s => s.map Char.toLower

/-- The expression `v || 0` for an optional number `v`. -/
def orZero : Option JSNumber → JSNumber
  | some v => if v.truthy then v else 0
  | none => 0

/-! ## Data model -/

/-- A point `{x, y, z}`; `z` may be absent. -/
structure Point where
  x : JSNumber
  y : JSNumber
  z : Option JSNumber := none
  deriving DecidableEq

/-- A raw drawing entity as delivered by the DXF reader.  The `length` property is the one
some readers attach to polylines; `vertices`, `radius` and the block properties are
present on the entity kinds that have them. -/
structure Entity where
  type : JSString
  layer : Option JSString := none
  vertices : Option (List Point) := none
  length : Option JSNumber := none
  center : Option Point := none
  radius : Option JSNumber := none
  insertionPoint : Option Point := none
  blockName : Option JSString := none
  scale : Option Point := none
  rotation : Option JSNumber := none
  deriving DecidableEq

/-! ## GeometryCalculator -/

namespace GeometryCalculator

/-- `calculateDistance(point1, point2)`. -/
def calculateDistance (rt : Runtime) (point1 point2 : Point) : JSNumber :=
  let dx := rt.sub point2.x point1.x
  let dy := rt.sub point2.y point1.y
  let dz := rt.sub (orZero point2.z) (orZero point1.z)
  rt.sqrt (rt.add (rt.add (rt.mul dx dx) (rt.mul dy dy)) (rt.mul dz dz))

/-- The loop `for (let i = ...; i < vertices.length - 1; i++) totalLength += ...` of
`calculatePolylineLength`, started at index `i` with accumulator `totalLength`. -/
def polylineLengthLoop (rt : Runtime) (vertices : Array Point) (i : Nat)
    (totalLength : JSNumber) : JSNumber :=
  if h : i + 1 < vertices.size then
    polylineLengthLoop rt vertices (i + 1)
      (rt.add totalLength (calculateDistance rt (vertices[i]) (vertices[i + 1])))
  else totalLength
termination_by vertices.size - i

/-- `calculatePolylineLength(polyline)`; the argument is `polyline.vertices`. -/
def calculatePolylineLength (rt : Runtime) (polylineVertices : Option (List Point)) :
    JSNumber :=
  let vertices := (polylineVertices.getD []).toArray
  if vertices.size < 2 then 0
  else polylineLengthLoop rt vertices 0 0

/-- `calculateAngle(p1, p2, p3)`: the angle at `p2`, in degrees. -/
def calculateAngle (rt : Runtime) (p1 p2 p3 : Point) : JSNumber :=
  let v1x := rt.sub p1.x p2.x
  let v1y := rt.sub p1.y p2.y
  let v2x := rt.sub p3.x p2.x
  let v2y := rt.sub p3.y p2.y
  let dot := rt.add (rt.mul v1x v2x) (rt.mul v1y v2y)
  let mag1 := rt.sqrt (rt.add (rt.mul v1x v1x) (rt.mul v1y v1y))
  let mag2 := rt.sqrt (rt.add (rt.mul v2x v2x) (rt.mul v2y v2y))
  let cosAngle := rt.div dot (rt.mul mag1 mag2)
  rt.mul (rt.acos (JSNumber.max (exactNeg 1) (JSNumber.min 1 cosAngle))) (rt.div 180 mathPI)

/-- The loop `for (let i = ...; i < vertices.length - 1; i++)` of `has45DegreeAngle`,
started at index `i`. -/
def has45Loop (rt : Runtime) (vertices : Array Point) (i : Nat) : Bool :=
  if h : 0 < i ∧ i + 1 < vertices.size then
    let angle := calculateAngle rt (vertices[i - 1]) (vertices[i]) (vertices[i + 1])
    if (JSNumber.abs (rt.sub angle 45)).lt 5 then true
    else has45Loop rt vertices (i + 1)
  else false
termination_by vertices.size - i

/-- `has45DegreeAngle(polyline)`; the argument is `polyline.vertices`. -/
def has45DegreeAngle (rt : Runtime) (polylineVertices : Option (List Point)) : Bool :=
  let vertices := (polylineVertices.getD []).toArray
  if vertices.size < 3 then false
  else has45Loop rt vertices 1

/-- The distances between consecutive vertices, in input order: entry `i` is the distance
from vertex `i` to vertex `i + 1`. -/
def segmentDistances (rt : Runtime) (vs : List Point) : List JSNumber :=
  List.zipWith (calculateDistance rt) vs vs.tail

end GeometryCalculator

/-! ## Regular expressions

The fragment of `RegExp` the program uses: a sequence of pieces, each a single-character
atom (a literal, `\d` or `.`) with quantifier one, `+` or `*`; quantifiers are greedy and
backtrack.  A capture group around a piece does not change what is matched. -/

namespace RegExp

/-- A single-character atom. -/
inductive Atom where
  | chr (c : Char)
  | digit
  | any
  deriving DecidableEq

/-- A quantifier. -/
inductive Quant where
  | one
  | plus
  | star
  deriving DecidableEq

/-- An atom with its quantifier. -/
structure Piece where
  atom : Atom
  quant : Quant
  deriving DecidableEq

/-- A pattern: the pieces in sequence. -/
abbrev Pattern := List Piece

/-- Line terminators, which `.` does not match: LF, CR, U+2028, U+2029. -/
def isLineTerminator (c : Char) : Bool :=
  c.toNat == 10 || c.toNat == 13 || c.toNat == 0x2028 || c.toNat == 0x2029

/-- Whether an atom matches one character.  With the `i` flag a literal matches the
characters with the same canonical (upper-case) form; for an ASCII literal these are its
two ASCII case variants. -/
def atomMatches (ignoreCase : Bool) : Atom → Char → Bool
  | .chr c, x => if ignoreCase then x.toUpper == c.toUpper else x == c
  | .digit, x => x.isDigit
  | .any, x => !isLineTerminator x

/-- Greedy repetition of a one-character test `p`, followed by the continuation `k`: take
one more character if that leads to a match, otherwise hand over to `k`. -/
def matchStar (p : Char → Bool) (k : List Char → Option (List Char)) :
    List Char → Option (List Char)
  | [] => k []
  | c :: cs =>
    if p c then
      match matchStar p k cs with
      | some m => some (c :: m)
      | none => k (c :: cs)
    else k (c :: cs)

/-- Match a pattern at the start of the input; the result is the matched text. -/
def matchHere (ignoreCase : Bool) : Pattern → List Char → Option (List Char)
  | [] => fun _ => some []
  | ⟨a, .one⟩ :: r => fun s =>
    match s with
    | [] => none
    | c :: cs => if atomMatches ignoreCase a c then (matchHere ignoreCase r cs).map (c :: ·)
                 else none
  | ⟨a, .star⟩ :: r => fun s => matchStar (atomMatches ignoreCase a) (matchHere ignoreCase r) s
  | ⟨a, .plus⟩ :: r => fun s =>
    match s with
    | [] => none
    | c :: cs =>
      if atomMatches ignoreCase a c then
        (matchStar (atomMatches ignoreCase a) (matchHere ignoreCase r) cs).map (c :: ·)
      else none

/-- The method `RegExp.prototype.exec` without the `g` flag: the match at the leftmost
position that has one (element `[0]` of the result array), or `none` for `null`. -/
def exec (ignoreCase : Bool) (re : Pattern) : List Char → Option (List Char)
  | [] => matchHere ignoreCase re []
  | c :: cs =>
    match matchHere ignoreCase re (c :: cs) with
    | some m => some m
    | none => exec ignoreCase re cs

/-- The method `RegExp.prototype.test`. -/
def test (ignoreCase : Bool) (re : Pattern) (s : List Char) : Bool :=
  (exec ignoreCase re s).isSome

/-- The atom a pattern character denotes: `.` is any character, an ASCII letter or digit,
`-`, `_` and the space denote themselves; other characters are outside the fragment. -/
def compileAtom (c : Char) : Option Atom :=
  if c = '.' then some Atom.any
  else if c.isAlphanum || c = '-' || c = '_' || c = ' ' then some (Atom.chr c)
  else none

/-- The constructor `new RegExp(source, flags)` on the fragment: `none` when the source uses
syntax outside it. -/
def compile : List Char → Option Pattern
  | [] => some []
  | c :: '*' :: rest =>
    match compileAtom c, compile rest with
    | some a, some r => some (⟨a, .star⟩ :: r)
    | _, _ => none
  | c :: '+' :: rest =>
    match compileAtom c, compile rest with
    | some a, some r => some (⟨a, .plus⟩ :: r)
    | _, _ => none
  | c :: rest =>
    match compileAtom c, compile rest with
    | some a, some r => some (⟨a, .one⟩ :: r)
    | _, _ => none

end RegExp

/-- The method `String.prototype.includes`. -/
def includes (s sub : JSString) : Bool := decide (sub <:+: s)

/-- The call `pattern.replace('*', '.*')`: the first `*` becomes `.*`. -/
def replaceStar : JSString → JSString
  | [] => []
  | c :: cs => if c = '*' then '.' :: '*' :: cs else c :: replaceStar cs

/-- The method `Array.prototype.some` for a callback that may fall outside the modelled
fragment: stops at the first `true`. -/
def arraySome {α : Type} (f : α → Option Bool) : List α → Option Bool
  | [] => some false
  | a :: as =>
    match f a with
    | none => none
    | some true => some true
    | some false => arraySome f as

/-- An exception thrown by the host. -/
inductive JSError where
  | typeError
  deriving DecidableEq

/-- The conversion of an optional number to a number: `undefined` becomes `NaN`. -/
def toNumber : Option JSNumber → JSNumber
  | some v => v
  | none => nan

/-! ## SelectionFilter -/

/-- The state of a `SelectionFilter` instance. -/
structure SelectionFilter where
  layerPatterns : List JSString
  entityTypes : List JSString

/-- The four buckets returned by `filterEntitiesByLayer`. -/
structure Filtered where
  polylines : List Entity
  circles : List Entity
  blocks : List Entity
  other : List Entity
  deriving DecidableEq

namespace SelectionFilter

/-- The constructor of `SelectionFilter`. -/
def constructor : SelectionFilter where
  layerPatterns := ["GEB*".toList]
  entityTypes := ["LWPOLYLINE".toList, "POLYLINE".toList, "CIRCLE".toList, "INSERT".toList]

/-- `matchesLayerPattern(layerName)`; `none` when a configured pattern is outside the
modelled regular-expression fragment. -/
def matchesLayerPattern (rt : Runtime) (self : SelectionFilter)
    (layerName : Option JSString) : Option Bool :=
  match layerName with
  | none => some false
  | some [] => some false
  | some name =>
    arraySome (fun pattern =>
      if includes pattern "*".toList then
        (RegExp.compile (replaceStar pattern)).map (fun regex => RegExp.test true regex name)
      else some (decide (rt.toLowerCase name = rt.toLowerCase pattern)))
      self.layerPatterns

/-- `categorizeEntity(entity, categories)`: the categories after the push. -/
def categorizeEntity (entity : Entity) (categories : Filtered) : Filtered :=
  if entity.type = "LWPOLYLINE".toList ∨ entity.type = "POLYLINE".toList then
    { categories with polylines := categories.polylines ++ [entity] }
  else if entity.type = "CIRCLE".toList then
    { categories with circles := categories.circles ++ [entity] }
  else if entity.type = "INSERT".toList then
    { categories with blocks := categories.blocks ++ [entity] }
  else
    { categories with other := categories.other ++ [entity] }

/-- The loop of `filterEntitiesByLayer` over the remaining entities. -/
def filterLoop (rt : Runtime) (self : SelectionFilter) :
    List Entity → Filtered → Option Filtered
  | [], filtered => some filtered
  | entity :: rest, filtered =>
    match matchesLayerPattern rt self entity.layer with
    | none => none
    | some true => filterLoop rt self rest (categorizeEntity entity filtered)
    | some false => filterLoop rt self rest filtered

/-- `filterEntitiesByLayer(entities)`. -/
def filterEntitiesByLayer (rt : Runtime) (self : SelectionFilter) (entities : List Entity) :
    Option Filtered :=
  filterLoop rt self entities ⟨[], [], [], []⟩

/-- The regular expression `/SH-(\d+)/i`. -/
def shaftPattern : RegExp.Pattern :=
  [⟨.chr 'S', .one⟩, ⟨.chr 'H', .one⟩, ⟨.chr '-', .one⟩, ⟨.digit, .plus⟩]

/-- `extractShaftNumber(layerName)`: `match ? match[0] : ''`. -/
def extractShaftNumber (layerName : JSString) : JSString :=
  match RegExp.exec true shaftPattern layerName with
  | some m => m
  | none => []

end SelectionFilter

/-! ## BlockProcessor -/

/-- The state of a `BlockProcessor` instance; `fittingTypes` lists the entries of the
object literal in insertion order, which is the order `Object.entries` yields. -/
structure BlockProcessor where
  blockDefinitions : List (JSString × Entity)
  fittingTypes : List (JSString × JSString)

/-- The object `processBlock` returns for a recognised block. -/
structure BlockFitting where
  type : JSString
  blockName : JSString
  fittingType : JSString
  insertionPoint : Option Point
  scale : Point
  rotation : JSNumber
  layer : Option JSString
  shaftNumber : JSString
  diameter : JSNumber
  articleNo : JSString
  description : JSString
  deriving DecidableEq

/-- The decimal value of a string of digits, as `parseInt` reads it. -/
def digitsValue (ds : List Char) : Nat :=
  ds.foldl (fun n c => 10 * n + (c.toNat - '0'.toNat)) 0

namespace BlockProcessor

/-- The constructor of `BlockProcessor`. -/
def constructor : BlockProcessor where
  blockDefinitions := []
  fittingTypes :=
    [("BEND".toList, "bend".toList),
     ("BRANCH".toList, "branch".toList),
     ("COUPLING".toList, "coupling".toList),
     ("REDUCER".toList, "reducer".toList),
     ("TEE".toList, "tee".toList),
     ("ELBOW".toList, "elbow".toList)]

/-- The loop `for (const [key, value] of Object.entries(this.fittingTypes))` of
`determineFittingType`: the value of the first key the name includes. -/
def firstKeyword (upperName : JSString) : List (JSString × JSString) → Option JSString
  | [] => none
  | (key, value) :: rest =>
    if includes upperName key then some value else firstKeyword upperName rest

/-- `determineFittingType(blockName)`; `none` is `null`. -/
def determineFittingType (rt : Runtime) (self : BlockProcessor) (blockName : JSString) :
    Option JSString :=
  let upperName := rt.toUpperCase blockName
  match firstKeyword upperName self.fittingTypes with
  | some value => some value
  | none =>
    if includes upperName "45".toList || includes upperName "ANGLE".toList then
      some "bend".toList
    else if includes upperName "Y".toList || includes upperName "TEE".toList then
      some "branch".toList
    else if includes upperName "COUPLE".toList || includes upperName "JOINT".toList then
      some "coupling".toList
    else none

/-- The regular expression `/D(\d+)/`. -/
def diameterPattern : RegExp.Pattern := [⟨.chr 'D', .one⟩, ⟨.digit, .plus⟩]

/-- `estimateBlockDiameter(blockName)`.  The capture group of `/D(\d+)/` is the match
without its first character. -/
def estimateBlockDiameter (rt : Runtime) (blockName : JSString) : JSNumber :=
  let upperName := rt.toUpperCase blockName
  match RegExp.exec false diameterPattern upperName with
  | some diameterMatch => rt.ofNat (digitsValue (diameterMatch.drop 1))
  | none =>
    if includes upperName "50".toList || includes upperName "DN50".toList then 50
    else if includes upperName "75".toList || includes upperName "DN75".toList then 75
    else if includes upperName "110".toList || includes upperName "DN110".toList then 110
    else 50

/-- The table `articleMap` of `getArticleNumber`.  A property key is the decimal string of
the number used to index; the keys `'50'`, `'75'`, `'110'` are those of the numbers 50, 75
and 110 and of no other number. -/
def articleMap : List (JSString × List (JSNumber × JSString)) :=
  [("bend".toList,
      [(50, "361.045.16.1".toList), (75, "365.045.16.1".toList), (110, "367.045.16.1".toList)]),
   ("branch".toList,
      [(50, "361.112.16.1".toList), (75, "365.115.16.1".toList), (110, "367.115.16.1".toList)]),
   ("coupling".toList,
      [(50, "361.771.16.1".toList), (75, "365.771.16.1".toList), (110, "367.771.16.1".toList)])]

/-- `getArticleNumber(blockName, fittingType)`. -/
def getArticleNumber (rt : Runtime) (blockName fittingType : JSString) : JSString :=
  let diameter := estimateBlockDiameter rt blockName
  match (articleMap.lookup fittingType).bind (fun row => row.lookup diameter) with
  | some articleNo => articleNo
  | none => []

/-- `getDescription(blockName, fittingType)`. -/
def getDescription (rt : Runtime) (blockName fittingType : JSString) : JSString :=
  let diameter := rt.numberToString (estimateBlockDiameter rt blockName)
  let descriptions : List (JSString × JSString) :=
    [("bend".toList, "bend PE-HD 45G d".toList ++ diameter),
     ("branch".toList, "branch fitting PE-HD 45G d".toList ++ diameter),
     ("coupling".toList, "electrofusion sleeve coupling PE-HD d".toList ++ diameter),
     ("reducer".toList, "reducer PE-HD d".toList ++ diameter),
     ("tee".toList, "tee fitting PE-HD d".toList ++ diameter),
     ("elbow".toList, "elbow PE-HD 90G d".toList ++ diameter)]
  match descriptions.lookup fittingType with
  | some description => description
  | none => fittingType ++ " d".toList ++ diameter

/-- The regular expression `/SH-(\d+)/i` of `BlockProcessor.extractShaftNumber`. -/
def shaftPattern : RegExp.Pattern :=
  [⟨.chr 'S', .one⟩, ⟨.chr 'H', .one⟩, ⟨.chr '-', .one⟩, ⟨.digit, .plus⟩]

/-- `extractShaftNumber(layerName)`; calling `match` on an absent layer throws. -/
def extractShaftNumber (layerName : Option JSString) : Except JSError JSString :=
  match layerName with
  | none => .error .typeError
  | some name =>
    match RegExp.exec true shaftPattern name with
    | some m => .ok m
    | none => .ok []

/-- `processBlock(block)`; `none` is `null`. -/
def processBlock (rt : Runtime) (self : BlockProcessor) (block : Entity) :
    Except JSError (Option BlockFitting) :=
  let blockName := block.blockName.getD []
  match determineFittingType rt self blockName with
  | none => .ok none
  | some [] => .ok none
  | some fittingType =>
    match extractShaftNumber block.layer with
    | .error e => .error e
    | .ok shaftNumber =>
      .ok (some
        { type := "block".toList
          blockName := blockName
          fittingType := fittingType
          insertionPoint := block.insertionPoint
          scale := block.scale.getD ⟨1, 1, some 1⟩
          rotation := orZero block.rotation
          layer := block.layer
          shaftNumber := shaftNumber
          diameter := estimateBlockDiameter rt blockName
          articleNo := getArticleNumber rt blockName fittingType
          description := getDescription rt blockName fittingType })

/-- The loop of `processBlockFittings` over the remaining blocks. -/
def processBlockFittingsLoop (rt : Runtime) (self : BlockProcessor) :
    List Entity → List BlockFitting → Except JSError (List BlockFitting)
  | [], fittings => .ok fittings
  | block :: rest, fittings =>
    match processBlock rt self block with
    | .error e => .error e
    | .ok (some fitting) => processBlockFittingsLoop rt self rest (fittings ++ [fitting])
    | .ok none => processBlockFittingsLoop rt self rest fittings

/-- `processBlockFittings(blocks)`. -/
def processBlockFittings (rt : Runtime) (self : BlockProcessor) (blocks : List Entity) :
    Except JSError (List BlockFitting) :=
  processBlockFittingsLoop rt self blocks []

end BlockProcessor

/-! ## CADProcessor -/

/-- The utility instances a `CADProcessor` holds. -/
structure CADProcessor where
  selectionFilter : SelectionFilter
  blockProcessor : BlockProcessor

/-- The object `processPolylines` builds for a polyline: the properties of the source
entity, with `length`, `has45DegreeAngle`, `diameter` and `shaftNumber` set. -/
structure ProcessedPolyline where
  source : Entity
  length : JSNumber
  has45DegreeAngle : Bool
  diameter : JSNumber
  shaftNumber : JSString
  deriving DecidableEq

namespace CADProcessor

/-- The constructor of `CADProcessor`. -/
def constructor : CADProcessor where
  selectionFilter := SelectionFilter.constructor
  blockProcessor := BlockProcessor.constructor

/-- `estimatePipeDiameter(polyline)`. -/
def estimatePipeDiameter (polyline : Entity) : JSNumber :=
  if (toNumber polyline.length).gt 50 then 110
  else if (toNumber polyline.length).gt 20 then 75
  else 50

/-- `estimateFittingDiameter(circle)`. -/
def estimateFittingDiameter (rt : Runtime) (circle : Entity) : JSNumber :=
  rt.mul (toNumber circle.radius) 2

/-- `determineFittingType(circle)`. -/
def determineFittingType (circle : Entity) : JSString :=
  if (toNumber circle.radius).gt 50 then "elbow".toList
  else if (toNumber circle.radius).gt 25 then "tee".toList
  else "coupling".toList

/-- `isValidFitting(circle)`. -/
def isValidFitting (circle : Entity) : Bool :=
  (toNumber circle.radius).gt 0 && (toNumber circle.radius).lt 1000

/-- The callback of `processPolylines` for one polyline; `extractShaftNumber` throws on an
absent layer. -/
def processPolyline (rt : Runtime) (polyline : Entity) : Except JSError ProcessedPolyline :=
  match polyline.layer with
  | none => .error .typeError
  | some layer =>
    .ok { source := polyline
          length := GeometryCalculator.calculatePolylineLength rt polyline.vertices
          has45DegreeAngle := GeometryCalculator.has45DegreeAngle rt polyline.vertices
          diameter := estimatePipeDiameter polyline
          shaftNumber := SelectionFilter.extractShaftNumber layer }

/-- `processPolylines(polylines)`: `polylines.map(...)`. -/
def processPolylines (rt : Runtime) : List Entity → Except JSError (List ProcessedPolyline)
  | [] => .ok []
  | polyline :: rest =>
    match processPolyline rt polyline with
    | .error e => .error e
    | .ok processed =>
      match processPolylines rt rest with
      | .error e => .error e
      | .ok more => .ok (processed :: more)

end CADProcessor

/-! ## Vocabulary of the statements -/

/-- A shaft token: `SH-` in either letter case followed by one or more decimal digits. -/
def IsShaftToken (m : JSString) : Prop :=
  ∃ s h ds, m = s :: h :: '-' :: ds ∧ (s = 'S' ∨ s = 's') ∧ (h = 'H' ∨ h = 'h')
    ∧ ds ≠ [] ∧ ∀ d ∈ ds, d.isDigit = true

/-- The layer name contains a shaft token somewhere. -/
def ContainsShaftToken (layer : JSString) : Prop :=
  ∃ pre m post, layer = pre ++ m ++ post ∧ IsShaftToken m

/-- The layer name begins with `GEB` in any letter case. -/
def StartsWithGEB (layer : JSString) : Prop :=
  ∃ a b c rest, layer = a :: b :: c :: rest ∧ (a = 'G' ∨ a = 'g') ∧ (b = 'E' ∨ b = 'e')
    ∧ (c = 'B' ∨ c = 'b')

/-- The layer name contains `GEB` in any letter case at some position. -/
def ContainsGEB (layer : JSString) : Prop :=
  ∃ pre a b c rest, layer = pre ++ a :: b :: c :: rest ∧ (a = 'G' ∨ a = 'g')
    ∧ (b = 'E' ∨ b = 'e') ∧ (c = 'B' ∨ c = 'b')

/-- The regular expression `/GEB.*/i`, which the default pattern `'GEB*'` compiles to. -/
def gebPattern : RegExp.Pattern :=
  [⟨.chr 'G', .one⟩, ⟨.chr 'E', .one⟩, ⟨.chr 'B', .one⟩, ⟨.any, .star⟩]

/-- What `matchesLayerPattern` computes with the default pattern list: an absent or empty
layer does not match, any other layer matches when `/GEB.*/i` tests positive. -/
def defaultLayerMatch (layer : Option JSString) : Bool :=
  match layer with
  | none => false
  | some [] => false
  | some name => RegExp.test true gebPattern name

/-- The entity passes the layer filter of the default `SelectionFilter`. -/
def accepted (rt : Runtime) (e : Entity) : Bool :=
  SelectionFilter.matchesLayerPattern rt SelectionFilter.constructor e.layer == some true

/-- The entity type is `LWPOLYLINE` or `POLYLINE`. -/
def isPolylineType (e : Entity) : Bool :=
  e.type == "LWPOLYLINE".toList || e.type == "POLYLINE".toList

/-- The entity type is `CIRCLE`. -/
def isCircleType (e : Entity) : Bool := e.type == "CIRCLE".toList

/-- The entity type is `INSERT`. -/
def isInsertType (e : Entity) : Bool := e.type == "INSERT".toList

/-- The entity type is none of the four named types. -/
def isOtherType (e : Entity) : Bool :=
  !(isPolylineType e) && !(isCircleType e) && !(isInsertType e)

/-- The block insert `VALVE-D50` on layer `LAYER0`. -/
def valveOnLayer0 : Entity :=
  { type := "INSERT".toList, layer := some "LAYER0".toList,
    blockName := some "VALVE-D50".toList }

/-- The raw polyline of the scenario: vertices `(0,0)`, `(30,0)`, `(30,40)` on layer
`GEB-SH-01-PIPE`, with no `length` property. -/
def runOnShaft1 : Entity :=
  { type := "LWPOLYLINE".toList, layer := some "GEB-SH-01-PIPE".toList,
    vertices := some [⟨0, 0, none⟩, ⟨30, 0, none⟩, ⟨30, 40, none⟩] }

/-- The canonical nominal diameters. -/
def canonicalDiameters : List JSNumber := [50, 75, 110]

/-- The upper-cased name `U` has a `D<number>` token: a `D` directly followed by a digit. -/
def HasDToken (U : JSString) : Prop :=
  ∃ pre d rest, U = pre ++ 'D' :: d :: rest ∧ d.isDigit = true

/-- `pre ++ 'D' :: ds ++ post` splits `U` at its first `D<number>` token: `ds` is the whole
run of digits after the leftmost `D` that is directly followed by a digit. -/
def FirstDToken (U pre ds post : JSString) : Prop :=
  U = pre ++ 'D' :: ds ++ post ∧ ds ≠ [] ∧ (∀ d ∈ ds, d.isDigit = true)
    ∧ (∀ c rest, post = c :: rest → c.isDigit = false)
    ∧ (∀ pre' d rest, U = pre' ++ 'D' :: d :: rest → d.isDigit = true →
        pre.length ≤ pre'.length)

/-- The fallback of `estimateBlockDiameter` on the upper-cased name `U`, as the bands
`50`, `75`, `110` and the default 50. -/
def diameterBand (U : JSString) : JSNumber :=
  if includes U "50".toList then 50
  else if includes U "75".toList then 75
  else if includes U "110".toList then 110
  else 50

/-- A circle of radius 10. -/
def smallCircle : Entity := { type := "CIRCLE".toList, radius := some 10 }

/-- A circle of radius 60. -/
def largeCircle : Entity := { type := "CIRCLE".toList, radius := some 60 }

/-- The subtypes the specification names. -/
def specifiedSubtypes : List JSString :=
  ["bend".toList, "branch".toList, "coupling".toList, "reducer".toList,
   "straight-run".toList]

/-- The subtypes the block estimator assigns. -/
def blockSubtypes : List JSString :=
  ["bend".toList, "branch".toList, "coupling".toList, "reducer".toList, "tee".toList,
   "elbow".toList]

/-- The subtypes the circle estimator assigns. -/
def circleSubtypes : List JSString := ["elbow".toList, "tee".toList, "coupling".toList]

/-- The block name yields a subtype: `determineFittingType` is not `null`. -/
def recognised (rt : Runtime) (block : Entity) : Bool :=
  (BlockProcessor.determineFittingType rt BlockProcessor.constructor
    (block.blockName.getD [])).isSome

/-- The fitting `f` was made from the block `b`: it carries the block's name, layer and
insertion point, and its `fittingType` is the subtype the name yields. -/
def FittingOf (rt : Runtime) (f : BlockFitting) (b : Entity) : Prop :=
  f.blockName = b.blockName.getD []
    ∧ BlockProcessor.determineFittingType rt BlockProcessor.constructor (b.blockName.getD [])
        = some f.fittingType
    ∧ f.layer = b.layer ∧ f.insertionPoint = b.insertionPoint

/-- Three block inserts on layer `GEB-SH-01`: a bend, an unrecognised valve, a tee. -/
def sampleBlocks : List Entity :=
  [{ type := "INSERT".toList, layer := some "GEB-SH-01".toList,
     blockName := some "BEND-D50".toList },
   { type := "INSERT".toList, layer := some "GEB-SH-01".toList,
     blockName := some "VALVE-D50".toList },
   { type := "INSERT".toList, layer := some "GEB-SH-01".toList,
     blockName := some "TEE-D75".toList }]

/-- The path `(0,0)`, `(3,0)`, `(3,4)`. -/
def trianglePath : List Point := [⟨0, 0, none⟩, ⟨3, 0, none⟩, ⟨3, 4, none⟩]

/-! ## SanitaryObjectsCollections -/

/-- The method `String.prototype.split` with a one-character separator. -/
def split (sep : Char) : List Char → List JSString
  | [] => [[]]
  | c :: cs =>
    if c = sep then [] :: split sep cs
    else
      match split sep cs with
      | [] => [[c]]
      | p :: ps => (c :: p) :: ps

/-- The method `String.prototype.startsWith`. -/
def startsWith (s searchString : JSString) : Bool := searchString.isPrefixOf s

namespace SanitaryObjectsCollections

/-- `getWashBasinCollection()`. -/
def getWashBasinCollection : List JSString :=
  ["152.682.00.1|PC|sleeve EPDM for d50 50IRHD".toList,
   "152.796.00.1|PC|sleeve EPDM for d50 60IRHD".toList,
   "152.742.11.1|PC|drain assembly for cast iron 1 1/2\x27\x27x40".toList,
   "361.802.92.1|PC|protective cap for pipe end PE-HD d50".toList,
   "361.000.16.0|M|pipe PE-HD d50x3 L5000".toList,
   "361.000.16.0|M|pipe PE-HD d50x3 L5000".toList,
   "361.045.16.1|PC|bend PE-HD 45G d50 L4.5".toList,
   "361.088.16.1|PC|bend PE-HD 88.5G d50 L6".toList,
   "361.112.16.1|PC|Geberit HDPE Y-branch fitting 45°, dia.50/50".toList,
   "361.162.16.1|PC|branch fitting PE-HD 88.5G d50/50".toList,
   "367.560.16.1|PC|reducer PE-HD d110/50 concentric".toList,
   "361.771.16.1|PC|electrofusion sleeve coupling PE-HD d50".toList]

/-- `getUrinalsCollection()`. -/
def getUrinalsCollection : List JSString :=
  ["152.689.00.1|PC|sleeve EPDM for d56 50IRHD".toList,
   "363.000.16.0|M|pipe PE-HD d56x3 L500".toList,
   "363.000.16.0|M|pipe PE-HD d56x3 L500".toList,
   "363.045.16.1|PC|bend PE-HD 45G d56 L4.5".toList,
   "363.088.16.1|PC|bend PE-HD 88.5G d56 L6.5".toList,
   "363.115.16.1|PC|branch fitting PE-HD 45G d56/56".toList,
   "363.165.16.1|PC|branch fitting PE-HD 88.5G d56/56".toList,
   "363.771.16.1|PC|electrofusion sleeve coupling PE-HD d56".toList]

/-- `checkFromCollection(collection, searchText)`. -/
def checkFromCollection (collection : List JSString) (searchText : JSString) : Bool :=
  collection.any (fun item => startsWith item (searchText ++ "|".toList))

/-- `getDescriptionByArticleNumber(articleNo)`. -/
def getDescriptionByArticleNumber (articleNo : JSString) : JSString :=
  let allCollections := getWashBasinCollection ++ getUrinalsCollection
  match allCollections.find? (fun item => startsWith item (articleNo ++ "|".toList)) with
  | some found =>
    if found = [] then []
    else
      let parts := split '|' found
      if 3 ≤ parts.length then parts.getD 2 [] else []
  | none => []

end SanitaryObjectsCollections

/-! ## Pipe -/

/-- The number comparison `a === b`: NaN equals nothing. -/
def JSNumber.strictEq (a b : JSNumber) : Bool :=
  match a, b with
  | nan, _ => false
  | _, nan => false
  | _, _ => decide (a = b)

/-- The properties of a `SanitaryMaterial`. -/
structure SanitaryMaterial where
  shaftNumber : JSString
  articleNo : JSString
  description : JSString
  source : JSString
  type : JSString
  length : JSNumber
  diameter : JSNumber
  unitType : JSString
  quantity : JSNumber
  layer : JSString
  deriving DecidableEq

/-- The properties of a `Pipe`, which extends `SanitaryMaterial`. -/
structure Pipe extends SanitaryMaterial where
  startPoint : Option Point
  endPoint : Option Point
  vertices : List Point
  isConnected : Bool
  connectionType : JSString
  deriving DecidableEq

namespace Pipe

/-- The constructor of `Pipe` (with that of `SanitaryMaterial`). -/
def constructor : Pipe where
  shaftNumber := []
  articleNo := []
  description := []
  source := []
  type := []
  length := 0
  diameter := 0
  unitType := []
  quantity := 0
  layer := []
  startPoint := none
  endPoint := none
  vertices := []
  isConnected := false
  connectionType := []

/-- `Pipe.create(articleNo, description, diameter, length, shaftNumber = '')`; an omitted
last argument is `none`. -/
def create (articleNo description : JSString) (diameter length : JSNumber)
    (shaftNumber : Option JSString) : Pipe :=
  { constructor with
    articleNo := articleNo
    description := description
    diameter := diameter
    length := length
    shaftNumber := shaftNumber.getD []
    unitType := "M".toList
    quantity := length }

end Pipe

/-! ## MaterialCalculator -/

namespace MaterialCalculator

/-- `processPipes(polylines)`. -/
def processPipes (polylines : List ProcessedPolyline) : List Pipe :=
  let pipes50 := polylines.filter (fun p => p.diameter.strictEq 50)
  let pipes75 := polylines.filter (fun p => p.diameter.strictEq 75)
  let pipes110 := polylines.filter (fun p => p.diameter.strictEq 110)
  pipes50.map (fun p => Pipe.create "articleNo50".toList "Pipe 50mm".toList 50 p.length none)
    ++ pipes75.map
        (fun p => Pipe.create "articleNo75".toList "Pipe 75mm".toList 75 p.length none)
    ++ pipes110.map
        (fun p => Pipe.create "articleNo110".toList "Pipe 110mm".toList 110 p.length none)

end MaterialCalculator

/-! ## SelectionSetUtil -/

/-- A plain object used as a dictionary: its own properties in insertion order. -/
abbrev JSObject (β : Type) := List (JSString × β)

/-- The names of the properties every plain object inherits from `Object.prototype`. -/
def objectPrototypeKeys : List JSString :=
  ["constructor".toList, "__defineGetter__".toList, "__defineSetter__".toList,
   "hasOwnProperty".toList, "__lookupGetter__".toList, "__lookupSetter__".toList,
   "isPrototypeOf".toList, "propertyIsEnumerable".toList, "toString".toList,
   "valueOf".toList, "__proto__".toList, "toLocaleString".toList]

/-- The assignment `object[key] = value`: replaces the value of an own property, or adds
the property at the end. -/
def setProp {β : Type} (object : JSObject β) (key : JSString) (value : β) : JSObject β :=
  if (object.lookup key).isSome then
    object.map (fun kv => if kv.1 = key then (key, value) else kv)
  else object ++ [(key, value)]

namespace SelectionSetUtil

/-- The loop of `groupByShaft` over the remaining entities.  For a key inherited from
`Object.prototype` the test `!grouped[shaft]` is false and `push` is not a function. -/
def groupByShaftLoop : List Pipe → JSObject (List Pipe) → Except JSError (JSObject (List Pipe))
  | [], grouped => .ok grouped
  | entity :: rest, grouped =>
    let shaft := if entity.shaftNumber = [] then "UNKNOWN".toList else entity.shaftNumber
    match grouped.lookup shaft with
    | some items => groupByShaftLoop rest (setProp grouped shaft (items ++ [entity]))
    | none =>
      if shaft ∈ objectPrototypeKeys then .error .typeError
      else groupByShaftLoop rest (setProp grouped shaft [entity])

/-- `groupByShaft(entities)`. -/
def groupByShaft (entities : List Pipe) : Except JSError (JSObject (List Pipe)) :=
  groupByShaftLoop entities []

/-- The loop of `calculateQuantitiesByShaft` over the remaining materials; `none` when a
shaft number is the name of a property inherited from `Object.prototype`, for which the
entry is not a number. -/
def calculateQuantitiesLoop (rt : Runtime) :
    List Pipe → JSObject JSNumber → Option (JSObject JSNumber)
  | [], result => some result
  | mat :: rest, result =>
    match result.lookup mat.shaftNumber with
    | some value =>
      let current := if value.truthy then value else 0
      calculateQuantitiesLoop rt rest (setProp result mat.shaftNumber (rt.add current mat.quantity))
    | none =>
      if mat.shaftNumber ∈ objectPrototypeKeys then none
      else
        calculateQuantitiesLoop rt rest
          (setProp result mat.shaftNumber (rt.add 0 mat.quantity))

/-- `calculateQuantitiesByShaft(materials)`. -/
def calculateQuantitiesByShaft (rt : Runtime) (materials : List Pipe) :
    Option (JSObject JSNumber) :=
  calculateQuantitiesLoop rt materials []

end SelectionSetUtil

/-! ## Vocabulary of the catalog and aggregation statements -/

/-- The subtypes that have a row in `articleMap`. -/
def articleSubtypes : List JSString := ["bend".toList, "branch".toList, "coupling".toList]

/-- A tee block insert on layer `GEB-SH-01`. -/
def teeBlock : Entity :=
  { type := "INSERT".toList, layer := some "GEB-SH-01".toList,
    blockName := some "TEE-D50".toList }

/-- A bend block insert on layer `GEB-SH-01`. -/
def bendBlock : Entity :=
  { type := "INSERT".toList, layer := some "GEB-SH-01".toList,
    blockName := some "BEND-D50".toList }

/-- The entry of `articleMap` for a subtype and a diameter, or the empty string. -/
def articleFor (fittingType : JSString) (diameter : JSNumber) : JSString :=
  match (BlockProcessor.articleMap.lookup fittingType).bind (fun row => row.lookup diameter) with
  | some articleNo => articleNo
  | none => []

/-- The fixed text of a description, to which `getDescription` appends the diameter. -/
def subtypeText (fittingType : JSString) : JSString :=
  if fittingType = "bend".toList then "bend PE-HD 45G d".toList
  else if fittingType = "branch".toList then "branch fitting PE-HD 45G d".toList
  else if fittingType = "coupling".toList then "electrofusion sleeve coupling PE-HD d".toList
  else if fittingType = "reducer".toList then "reducer PE-HD d".toList
  else if fittingType = "tee".toList then "tee fitting PE-HD d".toList
  else if fittingType = "elbow".toList then "elbow PE-HD 90G d".toList
  else fittingType ++ " d".toList

/-- The host prints the numbers 50, 75 and 110 as their decimal digits. -/
def PrintsCanonical (rt : Runtime) : Prop :=
  rt.numberToString 50 = "50".toList ∧ rt.numberToString 75 = "75".toList
    ∧ rt.numberToString 110 = "110".toList

/-- The article-number field of a catalog row: the text before its first `|`. -/
def articleNumber (row : JSString) : JSString := row.takeWhile (fun c => c != '|')

/-- The text of a row after its first `|` (empty when there is none). -/
def afterBar (row : JSString) : JSString := (row.dropWhile (fun c => c != '|')).drop 1

/-- The description field of a catalog row: the text between its second `|` and the next
`|` or the end. -/
def descriptionField (row : JSString) : JSString := articleNumber (afterBar (afterBar row))

/-- The whole catalog, in the order `getDescriptionByArticleNumber` searches it. -/
def allCollections : List JSString :=
  SanitaryObjectsCollections.getWashBasinCollection
    ++ SanitaryObjectsCollections.getUrinalsCollection

/-- A processed polyline of length 10 and diameter 50 on layer `GEB-SH-02-PIPE`, shaft
`SH-02`. -/
def runOnShaft2 : ProcessedPolyline :=
  { source :=
      { type := "LWPOLYLINE".toList, layer := some "GEB-SH-02-PIPE".toList,
        vertices := some [⟨0, 0, none⟩, ⟨10, 0, none⟩] }
    length := 10
    has45DegreeAngle := false
    diameter := 50
    shaftNumber := "SH-02".toList }

/-- The placeholder article numbers `processPipes` assigns. -/
def pipeArticlePlaceholders : List JSString :=
  ["articleNo50".toList, "articleNo75".toList, "articleNo110".toList]

/-- The own property names of an object. -/
def keys {β : Type} (object : JSObject β) : List JSString := object.map Prod.fst

/-- The key `groupByShaft` files an entity under: `entity.shaftNumber || 'UNKNOWN'`. -/
def shaftKey (entity : Pipe) : JSString :=
  if entity.shaftNumber = [] then "UNKNOWN".toList else entity.shaftNumber

/-- The input items filed under a key, in input order. -/
def itemsOfShaft (entities : List Pipe) (key : JSString) : List Pipe :=
  entities.filter (fun e => decide (shaftKey e = key))

/-- The rational value of a finite number (0 for the others). -/
def quantityValue : JSNumber → ℚ
  | fin q => q
  | _ => 0

/-- The exact sum of the quantities of the materials with shaft number `key`. -/
def shaftTotal (materials : List Pipe) (key : JSString) : ℚ :=
  ((materials.filter (fun m => decide (m.shaftNumber = key))).map
    (fun m => quantityValue m.quantity)).sum

/-- A pipe item of quantity 10 with article `361.000.16.0` on shaft `SH-02`. -/
def pipeItemA : Pipe :=
  Pipe.create "361.000.16.0".toList "pipe PE-HD d50x3 L5000".toList 50 10
    (some "SH-02".toList)

/-- A pipe item of quantity 4 with article `363.000.16.0` on shaft `SH-02`. -/
def pipeItemB : Pipe :=
  Pipe.create "363.000.16.0".toList "pipe PE-HD d56x3 L500".toList 50 4 (some "SH-02".toList)

/-- What a group becomes when further items arrive: an existing list is extended, a list
is created for the first item, and a key with no item stays absent. -/
def extendGroup (previous : Option (List Pipe)) (items : List Pipe) : Option (List Pipe) :=
  match previous with
  | some earlier => some (earlier ++ items)
  | none => if items = [] then none else some items

/-- The host adds finite numbers exactly. -/
def ExactAdd (rt : Runtime) : Prop := ∀ a b : ℚ, rt.add (fin a) (fin b) = fin (a + b)

/-- Every quantity of the list is a finite number. -/
def FiniteQuantities (materials : List Pipe) : Prop :=
  ∀ m ∈ materials, ∃ q : ℚ, m.quantity = fin q

/-- The materials with shaft number `key`, in input order. -/
def materialsOfShaft (materials : List Pipe) (key : JSString) : List Pipe :=
  materials.filter (fun m => decide (m.shaftNumber = key))

/-- What an entry becomes when further materials arrive: it stays when none has the key,
and otherwise holds the earlier value (0 when absent) plus their quantities. -/
def extendTotal (previous : Option JSNumber) (arrivals : List Pipe) : Option JSNumber :=
  if arrivals = [] then previous
  else some (fin ((match previous with
                    | some v => quantityValue v
                    | none => 0)
                  + (arrivals.map (fun m => quantityValue m.quantity)).sum))

/-! ## GeometryCalculator: points and segments -/

/-- The state of a `GeometryCalculator`: the default tolerance. -/
structure GeometryCalculator where
  tolerance : JSNumber

namespace GeometryCalculator

/-- The constructor of `GeometryCalculator`: `this.tolerance = 0.5`. -/
def constructor : GeometryCalculator where
  tolerance := fin (1 / 2)

/-- `isPointOnLineSegment(point, lineStart, lineEnd, tolerance)`. -/
def isPointOnLineSegment (rt : Runtime) (point lineStart lineEnd : Point)
    (tolerance : JSNumber) : Bool :=
  let A := rt.sub point.x lineStart.x
  let B := rt.sub point.y lineStart.y
  let C := rt.sub lineEnd.x lineStart.x
  let D := rt.sub lineEnd.y lineStart.y
  let dot := rt.add (rt.mul A C) (rt.mul B D)
  let lenSq := rt.add (rt.mul C C) (rt.mul D D)
  if lenSq.strictEq 0 then false
  else
    let param := rt.div dot lenSq
    let xx :=
      if param.lt 0 then lineStart.x
      else if param.gt 1 then lineEnd.x
      else rt.add lineStart.x (rt.mul param C)
    let yy :=
      if param.lt 0 then lineStart.y
      else if param.gt 1 then lineEnd.y
      else rt.add lineStart.y (rt.mul param D)
    let dx := rt.sub point.x xx
    let dy := rt.sub point.y yy
    let distance := rt.sqrt (rt.add (rt.mul dx dx) (rt.mul dy dy))
    distance.le tolerance

/-- The loop `for (let i = ...; i < vertices.length - 1; i++)` of `isPointTouchingPolyline`,
started at index `i`. -/
def touchingLoop (rt : Runtime) (point : Point) (tolerance : JSNumber)
    (vertices : Array Point) (i : Nat) : Bool :=
  if h : i + 1 < vertices.size then
    if isPointOnLineSegment rt point (vertices[i]) (vertices[i + 1]) tolerance then true
    else touchingLoop rt point tolerance vertices (i + 1)
  else false
termination_by vertices.size - i

/-- `isPointTouchingPolyline(polyline, point, tolerance = this.tolerance)`; the first
argument is `polyline.vertices`, an omitted tolerance is `none`. -/
def isPointTouchingPolyline (rt : Runtime) (self : GeometryCalculator)
    (polylineVertices : Option (List Point)) (point : Point) (tolerance : Option JSNumber) :
    Bool :=
  let tolerance := tolerance.getD self.tolerance
  let vertices := (polylineVertices.getD []).toArray
  touchingLoop rt point tolerance vertices 0

/-- `lineSegmentsIntersect(p1, p2, p3, p4)`. -/
def lineSegmentsIntersect (rt : Runtime) (p1 p2 p3 p4 : Point) : Bool :=
  let denominator :=
    rt.sub (rt.mul (rt.sub p4.y p3.y) (rt.sub p2.x p1.x))
      (rt.mul (rt.sub p4.x p3.x) (rt.sub p2.y p1.y))
  if denominator.strictEq 0 then false
  else
    let ua :=
      rt.div
        (rt.sub (rt.mul (rt.sub p4.x p3.x) (rt.sub p1.y p3.y))
          (rt.mul (rt.sub p4.y p3.y) (rt.sub p1.x p3.x)))
        denominator
    let ub :=
      rt.div
        (rt.sub (rt.mul (rt.sub p2.x p1.x) (rt.sub p1.y p3.y))
          (rt.mul (rt.sub p2.y p1.y) (rt.sub p1.x p3.x)))
        denominator
    (0 : JSNumber).le ua && ua.le 1 && (0 : JSNumber).le ub && ub.le 1

end GeometryCalculator

/-! ## PipeSheet -/

/-- Truthiness of an optional string: absent and empty strings are falsy. -/
def stringTruthy : Option JSString → Bool
  | none => false
  | some s => !s.isEmpty

/-- A pipe-sheet configuration object; each property may be absent. -/
structure PipeSheet where
  pipeType : Option JSString
  wcDia110 : Option JSNumber
  washbasinDia50 : Option JSNumber
  mtDia110 : Option JSNumber
  collectorDia110 : Option JSNumber
  deriving DecidableEq

namespace PipeSheet

/-- The constructor of `PipeSheet`. -/
def constructor : PipeSheet where
  pipeType := some "Sunken".toList
  wcDia110 := some 0
  washbasinDia50 := some 0
  mtDia110 := some 0
  collectorDia110 := some 0

/-- The method `isValid()`, as the truthiness of its result. -/
def isValid (self : PipeSheet) : Bool :=
  stringTruthy self.pipeType
    && (toNumber self.wcDia110).gt 0
    && (toNumber self.washbasinDia50).gt 0
    && (toNumber self.mtDia110).gt 0
    && (toNumber self.collectorDia110).gt 0

/-- `PipeSheet.fromObject(obj)`: the properties present on `obj` replace the defaults. -/
def fromObject (obj : PipeSheet) : PipeSheet where
  pipeType := obj.pipeType.orElse (fun _ => constructor.pipeType)
  wcDia110 := obj.wcDia110.orElse (fun _ => constructor.wcDia110)
  washbasinDia50 := obj.washbasinDia50.orElse (fun _ => constructor.washbasinDia50)
  mtDia110 := obj.mtDia110.orElse (fun _ => constructor.mtDia110)
  collectorDia110 := obj.collectorDia110.orElse (fun _ => constructor.collectorDia110)

end PipeSheet

/-! ## ValidationUtils -/

/-- The object `{ isValid, errors }` the validators return. -/
structure ValidationResult where
  isValid : Bool
  errors : List JSString
  deriving DecidableEq

/-- The value of a property expected to hold an array: absent (or another falsy value), an
array of the given length, or an object that has no `length`. -/
inductive ArrayLike where
  | absent
  | array (length : Nat)
  | object
  deriving DecidableEq

/-- The argument of `validateExtractionInput`. -/
structure ExtractionInput where
  pipeSheet : Option PipeSheet
  entities : ArrayLike
  shafts : ArrayLike

namespace ValidationUtils

/-- `validateRequiredSanitaryValues(pipeSheet)`.  A comparison `d <= 0` with an absent `d`
is false. -/
def validateRequiredSanitaryValues (pipeSheet : PipeSheet) : ValidationResult :=
  let errors : List JSString := []
  let errors :=
    if !stringTruthy pipeSheet.pipeType then errors ++ ["Pipe type is required".toList]
    else errors
  let errors :=
    if pipeSheet.pipeType = some "Sunken".toList
        ∨ pipeSheet.pipeType = some "Under Slung".toList then
      let errors :=
        if (toNumber pipeSheet.wcDia110).le 0 then
          errors ++ ["WC Dia 110 must be greater than 0".toList]
        else errors
      let errors :=
        if (toNumber pipeSheet.washbasinDia50).le 0 then
          errors ++ ["Washbasin Dia 50 must be greater than 0".toList]
        else errors
      let errors :=
        if (toNumber pipeSheet.mtDia110).le 0 then
          errors ++ ["MT Dia 110 must be greater than 0".toList]
        else errors
      if (toNumber pipeSheet.collectorDia110).le 0 then
        errors ++ ["Collector Dia 110 must be greater than 0".toList]
      else errors
    else errors ++ ["Invalid pipe type. Must be \x22Sunken\x22 or \x22Under Slung\x22".toList]
  { isValid := decide (errors.length = 0), errors := errors }

/-- The test `!value || value.length === 0`. -/
def absentOrEmpty : ArrayLike → Bool
  | .absent => true
  | .array length => decide (length = 0)
  | .object => false

/-- `validateExtractionInput(data)`. -/
def validateExtractionInput (data : ExtractionInput) : ValidationResult :=
  let errors : List JSString := []
  let errors :=
    match data.pipeSheet with
    | none => errors ++ ["Pipe sheet configuration is required".toList]
    | some pipeSheet => errors ++ (validateRequiredSanitaryValues pipeSheet).errors
  let errors :=
    if absentOrEmpty data.entities then
      errors ++ ["At least one entity is required for processing".toList]
    else errors
  let errors :=
    if absentOrEmpty data.shafts then errors ++ ["At least one shaft is required".toList]
    else errors
  { isValid := decide (errors.length = 0), errors := errors }

end ValidationUtils
/-! ## CADProcessor: filtering for material extraction -/

/-- The object `enrichPipeData` builds: the properties of the polyline, with `pipeType`,
`diameter` and `shaftNumber` set. -/
structure EnrichedPipe where
  source : Entity
  pipeType : JSString
  diameter : JSNumber
  shaftNumber : JSString
  deriving DecidableEq

/-- The object `enrichFittingData` builds: the properties of the circle, with
`fittingType`, `diameter` and `shaftNumber` set. -/
structure EnrichedFitting where
  source : Entity
  fittingType : JSString
  diameter : JSNumber
  shaftNumber : JSString
  deriving DecidableEq

/-- The object `enrichBlockData` builds: the properties of the block, with `blockType` and
`shaftNumber` set. -/
structure EnrichedBlock where
  source : Entity
  blockType : JSString
  shaftNumber : JSString
  deriving DecidableEq

/-- The argument of `filterAndProcessEntities`: the three entity lists. -/
structure EntityLists where
  polylines : List Entity
  circles : List Entity
  blocks : List Entity

/-- The object `filterAndProcessEntities` returns. -/
structure ProcessedEntities where
  polylines : List EnrichedPipe
  circles : List EnrichedFitting
  blocks : List EnrichedBlock
  totalEntities : Nat
  deriving DecidableEq

namespace CADProcessor

/-- `isValidPipe(polyline)`, as the truthiness of its result. -/
def isValidPipe (polyline : Entity) : Bool :=
  match polyline.vertices with
  | none => false
  | some vertices => decide (2 ≤ vertices.length) && (toNumber polyline.length).gt 0

/-- `isValidBlock(block)`, as the truthiness of its result. -/
def isValidBlock (block : Entity) : Bool :=
  stringTruthy block.blockName && block.insertionPoint.isSome

/-- `extractShaftNumber(layerName)`: delegates to the selection filter, whose call of
`match` on an absent layer throws. -/
def extractShaftNumber (layerName : Option JSString) : Except JSError JSString :=
  match layerName with
  | none => .error .typeError
  | some name => .ok (SelectionFilter.extractShaftNumber name)

/-- `determinePipeType(polyline)`; reading `length` of absent vertices throws. -/
def determinePipeType (polyline : Entity) : Except JSError JSString :=
  if (toNumber polyline.length).gt 100 then .ok "main".toList
  else
    match polyline.vertices with
    | none => .error .typeError
    | some vertices =>
      if 2 < vertices.length then .ok "branch".toList else .ok "connection".toList

/-- `determineBlockType(block)`. -/
def determineBlockType (rt : Runtime) (block : Entity) : JSString :=
  let blockName :=
    match block.blockName with
    | some name => rt.toLowerCase name
    | none => []
  if includes blockName "valve".toList then "valve".toList
  else if includes blockName "pump".toList then "pump".toList
  else if includes blockName "tank".toList then "tank".toList
  else "fitting".toList

/-- `enrichPipeData(polyline)`. -/
def enrichPipeData (polyline : Entity) : Except JSError EnrichedPipe :=
  match determinePipeType polyline with
  | .error e => .error e
  | .ok pipeType =>
    match extractShaftNumber polyline.layer with
    | .error e => .error e
    | .ok shaftNumber =>
      .ok { source := polyline
            pipeType := pipeType
            diameter := estimatePipeDiameter polyline
            shaftNumber := shaftNumber }

/-- `enrichFittingData(circle)`. -/
def enrichFittingData (rt : Runtime) (circle : Entity) : Except JSError EnrichedFitting :=
  match extractShaftNumber circle.layer with
  | .error e => .error e
  | .ok shaftNumber =>
    .ok { source := circle
          fittingType := determineFittingType circle
          diameter := estimateFittingDiameter rt circle
          shaftNumber := shaftNumber }

/-- `enrichBlockData(block)`. -/
def enrichBlockData (rt : Runtime) (block : Entity) : Except JSError EnrichedBlock :=
  match extractShaftNumber block.layer with
  | .error e => .error e
  | .ok shaftNumber =>
    .ok { source := block
          blockType := determineBlockType rt block
          shaftNumber := shaftNumber }

/-- The loop `for (const x of xs) { if (valid(x)) out.push(enrich(x)); }`, which
`filterAndProcessEntities` runs for polylines, circles and blocks. -/
def pushValidLoop {α β : Type} (valid : α → Bool) (enrich : α → Except JSError β) :
    List α → List β → Except JSError (List β)
  | [], out => .ok out
  | x :: rest, out =>
    if valid x then
      match enrich x with
      | .error e => .error e
      | .ok y => pushValidLoop valid enrich rest (out ++ [y])
    else pushValidLoop valid enrich rest out

/-- `filterAndProcessEntities(entities)`. -/
def filterAndProcessEntities (rt : Runtime) (entities : EntityLists) :
    Except JSError ProcessedEntities :=
  match pushValidLoop isValidPipe enrichPipeData entities.polylines [] with
  | .error e => .error e
  | .ok polylines =>
    match pushValidLoop isValidFitting (enrichFittingData rt) entities.circles [] with
    | .error e => .error e
    | .ok circles =>
      match pushValidLoop isValidBlock (enrichBlockData rt) entities.blocks [] with
      | .error e => .error e
      | .ok blocks =>
        .ok { polylines := polylines
              circles := circles
              blocks := blocks
              totalEntities := polylines.length + circles.length + blocks.length }

end CADProcessor

/-! ## The export route -/

namespace Api

/-- The summary field `totalQuantity` of the export route:
`processedMaterials.reduce((sum, m) => sum + (m.quantity || 0), 0)`. -/
def totalQuantity (rt : Runtime) (processedMaterials : List Pipe) : JSNumber :=
  processedMaterials.foldl
    (fun sum m => rt.add sum (if m.quantity.truthy then m.quantity else 0)) 0

end Api
/-! ## Vocabulary of the totals, validation and geometry statements -/

/-- The exact sum of the values of a mapping of numbers. -/
def sumOfValues (object : JSObject JSNumber) : ℚ :=
  (object.map (fun kv => quantityValue kv.2)).sum

/-- The exact sum of the quantities of a list of materials. -/
def grandTotal (materials : List Pipe) : ℚ :=
  (materials.map (fun m => quantityValue m.quantity)).sum

/-- A pipe item of quantity 7 with no shaft. -/
def unassignedPipe : Pipe :=
  Pipe.create "361.000.16.0".toList "pipe PE-HD d50x3 L5000".toList 50 7 none

/-- The configuration `{ pipeType: 'Sunken' }`, which has none of the four diameters. -/
def sheetWithoutDiameters : PipeSheet :=
  { pipeType := some "Sunken".toList, wcDia110 := none, washbasinDia50 := none,
    mtDia110 := none, collectorDia110 := none }

/-- A `Sunken` sheet whose four diameters are 0. -/
def zeroSunkenSheet : PipeSheet :=
  { pipeType := some "Sunken".toList, wcDia110 := some 0, washbasinDia50 := some 0,
    mtDia110 := some 0, collectorDia110 := some 0 }

/-- The pipe type is one of the two valid ones. -/
def ValidPipeType (pipeSheet : PipeSheet) : Prop :=
  pipeSheet.pipeType = some "Sunken".toList ∨ pipeSheet.pipeType = some "Under Slung".toList

instance (pipeSheet : PipeSheet) : Decidable (ValidPipeType pipeSheet) := by
  unfold ValidPipeType; infer_instance

/-- The four required diameters with their messages, in the order WC, washbasin, MT,
collector. -/
def requiredDiameters (pipeSheet : PipeSheet) : List (Option JSNumber × JSString) :=
  [(pipeSheet.wcDia110, "WC Dia 110 must be greater than 0".toList),
   (pipeSheet.washbasinDia50, "Washbasin Dia 50 must be greater than 0".toList),
   (pipeSheet.mtDia110, "MT Dia 110 must be greater than 0".toList),
   (pipeSheet.collectorDia110, "Collector Dia 110 must be greater than 0".toList)]

/-- One message per required diameter that is `<= 0`, in order. -/
def diameterErrors (pipeSheet : PipeSheet) : List JSString :=
  ((requiredDiameters pipeSheet).filter (fun d => (toNumber d.1).le 0)).map Prod.snd

/-- The part of the errors that concerns the pipe sheet. -/
def sheetErrors (pipeSheet : Option PipeSheet) : List JSString :=
  match pipeSheet with
  | none => ["Pipe sheet configuration is required".toList]
  | some sheet => (ValidationUtils.validateRequiredSanitaryValues sheet).errors

/-- The value is absent or an empty array. -/
def AbsentOrEmptyArray (value : ArrayLike) : Prop := value = .absent ∨ value = .array 0

instance (value : ArrayLike) : Decidable (AbsentOrEmptyArray value) := by
  unfold AbsentOrEmptyArray; infer_instance

/-- Properties of IEEE arithmetic on which the sign and the symmetry of a distance rest:
a difference of finite numbers is a number and changes sign when its operands are swapped,
a product of a number with itself is not negative and does not change when the sign of the
number changes, and sums and square roots of non-negative numbers are not negative. -/
structure SignLaws (rt : Runtime) : Prop where
  sub_ne_nan : ∀ a b : ℚ, rt.sub (fin a) (fin b) ≠ nan
  sub_anti : ∀ a b : ℚ, rt.sub (fin a) (fin b) = exactNeg (rt.sub (fin b) (fin a))
  mul_self_nonneg : ∀ x, x ≠ nan → (0 : JSNumber).le (rt.mul x x) = true
  mul_neg_neg : ∀ x, rt.mul (exactNeg x) (exactNeg x) = rt.mul x x
  add_nonneg : ∀ x y, (0 : JSNumber).le x = true → (0 : JSNumber).le y = true →
    (0 : JSNumber).le (rt.add x y) = true
  sqrt_nonneg : ∀ x, (0 : JSNumber).le x = true → (0 : JSNumber).le (rt.sqrt x) = true

/-- The coordinates of the point are finite numbers; `z` may be absent. -/
def FinitePoint (p : Point) : Prop :=
  (∃ a : ℚ, p.x = fin a) ∧ (∃ b : ℚ, p.y = fin b) ∧ (p.z = none ∨ ∃ c : ℚ, p.z = some (fin c))

/-- The `z` coordinate of a point, 0 when it is absent. -/
def zCoordinate (p : Point) : JSNumber :=
  match p.z with
  | some z => z
  | none => 0

/-- The square `v * v` of the host. -/
def square (rt : Runtime) (v : JSNumber) : JSNumber := rt.mul v v

/-- The host computes sums, differences and products of finite numbers exactly, and
quotients by a non-zero number too. -/
def ExactArith (rt : Runtime) : Prop :=
  (∀ a b : ℚ, rt.add (fin a) (fin b) = fin (a + b))
    ∧ (∀ a b : ℚ, rt.sub (fin a) (fin b) = fin (a - b))
    ∧ (∀ a b : ℚ, rt.mul (fin a) (fin b) = fin (a * b))
    ∧ (∀ a b : ℚ, b ≠ 0 → rt.div (fin a) (fin b) = fin (a / b))

/-- The rational value of `Math.PI`. -/
def piValue : ℚ := 884279719003555 / 281474976710656

/-- Properties of the host on which the range of an angle rests: exact arithmetic on
finite numbers, a square root that is finite and not negative on non-negative numbers and
vanishes only at 0, an arccosine with values between 0 and `Math.PI` on `[-1, 1]`, and
the propagation of NaN through `0 / 0`, `Math.acos` and `*`. -/
structure AngleLaws (rt : Runtime) : Prop where
  arith : ExactArith rt
  sqrt_fin : ∀ q : ℚ, 0 ≤ q → ∃ s : ℚ, rt.sqrt (fin q) = fin s ∧ 0 ≤ s ∧ (s = 0 ↔ q = 0)
  acos_range : ∀ c : ℚ, -1 ≤ c → c ≤ 1 → ∃ a : ℚ, rt.acos (fin c) = fin a ∧ 0 ≤ a ∧ a ≤ piValue
  zero_div_zero : rt.div (fin 0) (fin 0) = nan
  acos_nan : rt.acos nan = nan
  mul_nan : ∀ x, rt.mul nan x = nan

/-- The cosine `dot / (mag1 * mag2)` that `calculateAngle` computes for the vectors from
`pVertex` to `p1` and to `p3`. -/
def cosineAt (rt : Runtime) (p1 pVertex p3 : Point) : JSNumber :=
  let v1x := rt.sub p1.x pVertex.x
  let v1y := rt.sub p1.y pVertex.y
  let v2x := rt.sub p3.x pVertex.x
  let v2y := rt.sub p3.y pVertex.y
  rt.div (rt.add (rt.mul v1x v2x) (rt.mul v1y v2y))
    (rt.mul (rt.sqrt (rt.add (rt.mul v1x v1x) (rt.mul v1y v1y)))
      (rt.sqrt (rt.add (rt.mul v2x v2x) (rt.mul v2y v2y))))

/-- The clamp `Math.max(-1, Math.min(1, c))`. -/
def clamp (c : JSNumber) : JSNumber := JSNumber.max (exactNeg 1) (JSNumber.min 1 c)

/-- An arccosine that is the chord through the values at `-1`, `0` and `1`: it maps
`[-1, 1]` onto `[0, Math.PI]` and agrees with the arccosine at these three arguments. -/
def chordAcos : JSNumber → JSNumber
  | fin c => if -1 ≤ c ∧ c ≤ 1 then fin ((1 - c) * (piValue / 2)) else nan
  | _ => nan

/-- The reference runtime with the arccosine defined on all of `[-1, 1]`. -/
def chordRuntime : Runtime := { refRuntime with acos := chordAcos }

/-- The denominator `(p4.y - p3.y) * (p2.x - p1.x) - (p4.x - p3.x) * (p2.y - p1.y)` that
`lineSegmentsIntersect` computes. -/
def denominatorAt (rt : Runtime) (p1 p2 p3 p4 : Point) : JSNumber :=
  rt.sub (rt.mul (rt.sub p4.y p3.y) (rt.sub p2.x p1.x))
    (rt.mul (rt.sub p4.x p3.x) (rt.sub p2.y p1.y))

/-- The exact value of the denominator: the cross product of the two direction vectors. -/
def crossProduct (x1 y1 x2 y2 x3 y3 x4 y4 : ℚ) : ℚ :=
  (y4 - y3) * (x2 - x1) - (x4 - x3) * (y2 - y1)

/-- The closed planar segments from `(x1, y1)` to `(x2, y2)` and from `(x3, y3)` to
`(x4, y4)` have a point in common. -/
def SegmentsMeet (x1 y1 x2 y2 x3 y3 x4 y4 : ℚ) : Prop :=
  ∃ ua ub : ℚ, 0 ≤ ua ∧ ua ≤ 1 ∧ 0 ≤ ub ∧ ub ≤ 1
    ∧ x1 + ua * (x2 - x1) = x3 + ub * (x4 - x3)
    ∧ y1 + ua * (y2 - y1) = y3 + ub * (y4 - y3)

/-- The parameter of the foot of the perpendicular from `(px, py)` on the line through
`(sx, sy)` and `(ex, ey)`, clamped to `[0, 1]`: the parameter of the nearest point of the
segment. -/
def nearestParam (px py sx sy ex ey : ℚ) : ℚ :=
  max 0 (min 1 (((px - sx) * (ex - sx) + (py - sy) * (ey - sy))
    / ((ex - sx) * (ex - sx) + (ey - sy) * (ey - sy))))

/-- The square of the planar distance from `(px, py)` to the point of parameter `s` of the
segment from `(sx, sy)` to `(ex, ey)`. -/
def sqDistAt (px py sx sy ex ey s : ℚ) : ℚ :=
  (px - (sx + s * (ex - sx))) * (px - (sx + s * (ex - sx)))
    + (py - (sy + s * (ey - sy))) * (py - (sy + s * (ey - sy)))

/-- The consecutive segments of a vertex list, in order. -/
def segmentsOf (vertices : List Point) : List (Point × Point) := vertices.zip vertices.tail

/-- Entity lists with a valid polyline, a polyline with a single vertex, a polyline of
length 0, a circle and a block, all on layer `GEB-SH-01`. -/
def sampleLists : EntityLists :=
  { polylines :=
      [{ type := "LWPOLYLINE".toList, layer := some "GEB-SH-01".toList,
         vertices := some [⟨0, 0, none⟩, ⟨10, 0, none⟩], length := some 10 },
       { type := "LWPOLYLINE".toList, layer := some "GEB-SH-01".toList,
         vertices := some [⟨0, 0, none⟩], length := some 10 },
       { type := "LWPOLYLINE".toList, layer := some "GEB-SH-01".toList,
         vertices := some [⟨0, 0, none⟩, ⟨0, 0, none⟩], length := some 0 }]
    circles := [{ type := "CIRCLE".toList, layer := some "GEB-SH-01".toList, radius := some 10 }]
    blocks :=
      [{ type := "INSERT".toList, layer := some "GEB-SH-01".toList,
         blockName := some "BEND-D50".toList, insertionPoint := some ⟨1, 1, none⟩ }] }

/-! ## SelectionFilter: shaft numbers of entity lists -/

/-- The UTF-16 code units of a string, which the default comparison of
`Array.prototype.sort` compares. -/
def codeUnits (s : JSString) : List Nat :=
  s.flatMap (fun c =>
    if c.toNat < 65536 then [c.toNat]
    else [55296 + (c.toNat - 65536) / 1024, 56320 + (c.toNat - 65536) % 1024])

/-- The method `Array.prototype.sort` with no comparison function, on an array of strings:
ascending order of the code units.  Strings that compare equal are equal, so the result
does not depend on the sorting algorithm of the host. -/
def arraySort (strings : List JSString) : List JSString :=
  strings.insertionSort (fun a b => codeUnits a ≤ codeUnits b)

/-- The method `Set.prototype.add` on the insertion-ordered elements of a set. -/
def setAdd (elements : List JSString) (value : JSString) : List JSString :=
  if value ∈ elements then elements else elements ++ [value]

namespace SelectionFilter

/-- The call `this.extractShaftNumber(entity.layer)`; calling `match` on an absent layer
throws. -/
def extractShaftNumberOf (entity : Entity) : Except JSError JSString :=
  match entity.layer with
  | none => .error .typeError
  | some layerName => .ok (extractShaftNumber layerName)

/-- The callback of `filterByShaftNumber`, run over the remaining entities by
`Array.prototype.filter`. -/
def filterByShaftNumber : List Entity → JSString → Except JSError (List Entity)
  | [], _ => .ok []
  | entity :: rest, shaftNumber =>
    match extractShaftNumberOf entity with
    | .error e => .error e
    | .ok entityShaft =>
      match filterByShaftNumber rest shaftNumber with
      | .error e => .error e
      | .ok more => .ok (if entityShaft = shaftNumber then entity :: more else more)

/-- The loop of `getUniqueShaftNumbers` over the remaining entities; `shafts` holds the
elements of the set in insertion order. -/
def uniqueShaftsLoop : List Entity → List JSString → Except JSError (List JSString)
  | [], shafts => .ok shafts
  | entity :: rest, shafts =>
    match extractShaftNumberOf entity with
    | .error e => .error e
    | .ok shaft =>
      if shaft ≠ [] then uniqueShaftsLoop rest (setAdd shafts shaft)
      else uniqueShaftsLoop rest shafts

/-- `getUniqueShaftNumbers(entities)`. -/
def getUniqueShaftNumbers (entities : List Entity) : Except JSError (List JSString) :=
  match uniqueShaftsLoop entities [] with
  | .error e => .error e
  | .ok shafts => .ok (arraySort shafts)

end SelectionFilter

/-! ## BlockProcessor: validation -/

namespace BlockProcessor

/-- `validateBlock(block)`.  The call `this.determineFittingType(block.blockName)` invokes
`toUpperCase` on the name, which throws when the name is absent. -/
def validateBlock (rt : Runtime) (self : BlockProcessor) (block : Entity) :
    Except JSError ValidationResult :=
  let errors : List JSString := []
  let errors :=
    if !stringTruthy block.blockName then errors ++ ["Block name is required".toList]
    else errors
  let errors :=
    if !block.insertionPoint.isSome then errors ++ ["Insertion point is required".toList]
    else errors
  let errors :=
    if !stringTruthy block.layer then errors ++ ["Layer is required".toList] else errors
  match block.blockName with
  | none => .error .typeError
  | some blockName =>
    let fittingType := determineFittingType rt self blockName
    let errors :=
      if !stringTruthy fittingType then
        errors ++ ["Unknown fitting type for block: ".toList ++ blockName]
      else errors
    .ok { isValid := decide (errors.length = 0), errors := errors }

end BlockProcessor

/-! ## Loops over the segments of a polyline -/

/-- The loop `for (let i = 0; i < vertices.length - 1; i++)` whose body returns true when
a test of the segment from `vertices[i]` to `vertices[i + 1]` succeeds, followed by
`return false`. -/
def someSegment (test : Point → Point → Bool) : List Point → Bool
  | a :: b :: rest => if test a b then true else someSegment test (b :: rest)
  | _ => false

/-- The loop `for (let i = 0; i < vertices.length - 1; i++)` whose body pushes results for
the segment from `vertices[i]` to `vertices[i + 1]`: all results, in order. -/
def collectSegments {α : Type} (body : Point → Point → List α) : List Point → List α
  | a :: b :: rest => body a b ++ collectSegments body (b :: rest)
  | _ => []

/-! ## GeometryUtils -/

namespace GeometryUtils

/-- `GeometryUtils.calculateDistance(point1, point2)`: the planar distance. -/
def calculateDistance (rt : Runtime) (point1 point2 : Point) : JSNumber :=
  let dx := rt.sub point2.x point1.x
  let dy := rt.sub point2.y point1.y
  rt.sqrt (rt.add (rt.mul dx dx) (rt.mul dy dy))

/-- `GeometryUtils.getPolylineVertices(polyline)`; the argument is `polyline.vertices`. -/
def getPolylineVertices (polylineVertices : Option (List Point)) : List Point :=
  polylineVertices.getD []

/-- The loop of `GeometryUtils.calculatePolylineLength` over the remaining segments. -/
def lengthLoop (rt : Runtime) : List Point → JSNumber → JSNumber
  | a :: b :: rest, totalLength =>
    lengthLoop rt (b :: rest) (rt.add totalLength (calculateDistance rt a b))
  | _, totalLength => totalLength

/-- `GeometryUtils.calculatePolylineLength(polyline)`. -/
def calculatePolylineLength (rt : Runtime) (polylineVertices : Option (List Point)) :
    JSNumber :=
  let vertices := getPolylineVertices polylineVertices
  if vertices.length < 2 then 0 else lengthLoop rt vertices 0

/-- `GeometryUtils.linesIntersect(p1, p2, p3, p4)`: the placeholder `return false`. -/
def linesIntersect (_p1 _p2 _p3 _p4 : Point) : Bool := false

/-- `GeometryUtils.polylinesIntersect(poly1, poly2)`. -/
def polylinesIntersect (poly1 poly2 : Option (List Point)) : Bool :=
  let vertices1 := getPolylineVertices poly1
  let vertices2 := getPolylineVertices poly2
  someSegment (fun a b => someSegment (fun c d => linesIntersect a b c d) vertices2) vertices1

end GeometryUtils

/-! ## GeometryCalculator: intersections of polylines -/

/-- The literal `1e-10`: the double nearest to that decimal. -/
def epsilon : JSNumber := fin (7737125245533627 / 77371252455336267181195264)

namespace GeometryCalculator

/-- `polylinesIntersect(polyline1, polyline2)`; the arguments are the `vertices`. -/
def polylinesIntersect (rt : Runtime) (polyline1 polyline2 : Option (List Point)) : Bool :=
  let vertices1 := polyline1.getD []
  let vertices2 := polyline2.getD []
  someSegment
    (fun a b => someSegment (fun c d => lineSegmentsIntersect rt a b c d) vertices2) vertices1

/-- `calculateLineIntersection(p1, p2, p3, p4)`; `none` is `null`. -/
def calculateLineIntersection (rt : Runtime) (p1 p2 p3 p4 : Point) : Option Point :=
  let denominator :=
    rt.sub (rt.mul (rt.sub p4.y p3.y) (rt.sub p2.x p1.x))
      (rt.mul (rt.sub p4.x p3.x) (rt.sub p2.y p1.y))
  if (JSNumber.abs denominator).lt epsilon then none
  else
    let ua :=
      rt.div
        (rt.sub (rt.mul (rt.sub p4.x p3.x) (rt.sub p1.y p3.y))
          (rt.mul (rt.sub p4.y p3.y) (rt.sub p1.x p3.x)))
        denominator
    if ua.lt 0 || ua.gt 1 then none
    else
      let ub :=
        rt.div
          (rt.sub (rt.mul (rt.sub p2.x p1.x) (rt.sub p1.y p3.y))
            (rt.mul (rt.sub p2.y p1.y) (rt.sub p1.x p3.x)))
          denominator
      if ub.lt 0 || ub.gt 1 then none
      else
        some
          { x := rt.add p1.x (rt.mul ua (rt.sub p2.x p1.x))
            y := rt.add p1.y (rt.mul ua (rt.sub p2.y p1.y))
            z := some (rt.add (orZero p1.z) (rt.mul ua (rt.sub (orZero p2.z) (orZero p1.z)))) }

/-- `findIntersectionPoints(polyline1, polyline2)`; the arguments are the `vertices`. -/
def findIntersectionPoints (rt : Runtime) (polyline1 polyline2 : Option (List Point)) :
    List Point :=
  let vertices1 := polyline1.getD []
  let vertices2 := polyline2.getD []
  collectSegments
    (fun a b =>
      collectSegments
        (fun c d =>
          match calculateLineIntersection rt a b c d with
          | some intersection => [intersection]
          | none => [])
        vertices2)
    vertices1

end GeometryCalculator

/-! ## ValidationUtils: shaft numbers -/

namespace ValidationUtils

/-- The test of the regular expression `/^SH-\d{1,2}$/`: anchored at both ends, it accepts
exactly `SH-` followed by one or two decimal digits. -/
def shaftPatternTest : JSString → Bool
  | [a, b, c, d] => a == 'S' && b == 'H' && c == '-' && d.isDigit
  | [a, b, c, d, e] => a == 'S' && b == 'H' && c == '-' && d.isDigit && e.isDigit
  | _ => false

/-- `validateShaftNumber(shaftNumber)`. -/
def validateShaftNumber (shaftNumber : Option JSString) : Bool :=
  match shaftNumber with
  | none => false
  | some [] => false
  | some value => shaftPatternTest value

end ValidationUtils

/-! ## Pipe: geometry -/

namespace Pipe

/-- `calculateDistance(point1, point2)` of `Pipe`: the planar distance. -/
def calculateDistance (rt : Runtime) (point1 point2 : Point) : JSNumber :=
  let dx := rt.sub point2.x point1.x
  let dy := rt.sub point2.y point1.y
  rt.sqrt (rt.add (rt.mul dx dx) (rt.mul dy dy))

/-- The loop `for (const vertex of this.vertices)` of `calculateLength`: the total and the
current point after the remaining vertices. -/
def lengthLoop (rt : Runtime) : List Point → JSNumber → Point → JSNumber × Point
  | [], totalLength, currentPoint => (totalLength, currentPoint)
  | vertex :: rest, totalLength, currentPoint =>
    lengthLoop rt rest (rt.add totalLength (calculateDistance rt currentPoint vertex)) vertex

/-- `calculateLength()`. -/
def calculateLength (rt : Runtime) (self : Pipe) : Pipe :=
  match self.startPoint, self.endPoint with
  | some startPoint, some endPoint =>
    let state := lengthLoop rt self.vertices 0 startPoint
    { self with length := rt.add state.1 (calculateDistance rt state.2 endPoint) }
  | _, _ => { self with length := 0 }

/-- `setGeometry(startPoint, endPoint, vertices)`. -/
def setGeometry (rt : Runtime) (self : Pipe) (startPoint endPoint : Option Point)
    (vertices : List Point) : Pipe :=
  calculateLength rt
    { self with startPoint := startPoint, endPoint := endPoint, vertices := vertices }

end Pipe
/-! ## Vocabulary of the consistency statements -/

/-- The subtype a name yields, as a function of its upper-cased form `U`: the subtype of
the first keyword, in the order `BEND`, `BRANCH`, `COUPLING`, `REDUCER`, `TEE`, `ELBOW`,
that occurs in `U`; with none of them, `bend` for `45` or `ANGLE`, else `branch` for `Y`,
else `coupling` for `COUPLE` or `JOINT`, else nothing. -/
def subtypeOfName (U : JSString) : Option JSString :=
  if includes U "BEND".toList then some "bend".toList
  else if includes U "BRANCH".toList then some "branch".toList
  else if includes U "COUPLING".toList then some "coupling".toList
  else if includes U "REDUCER".toList then some "reducer".toList
  else if includes U "TEE".toList then some "tee".toList
  else if includes U "ELBOW".toList then some "elbow".toList
  else if includes U "45".toList ∨ includes U "ANGLE".toList then some "bend".toList
  else if includes U "Y".toList then some "branch".toList
  else if includes U "COUPLE".toList ∨ includes U "JOINT".toList then some "coupling".toList
  else none

/-- The shaft number of an entity: `extractShaftNumber` of its layer (the empty string for
an entity without a layer, which the statements exclude). -/
def shaftOf (entity : Entity) : JSString :=
  match entity.layer with
  | some layerName => SelectionFilter.extractShaftNumber layerName
  | none => []

/-- Ascending string order: the order of the code units. -/
def StringLE (a b : JSString) : Prop := codeUnits a ≤ codeUnits b

/-- The entities of the list whose shaft number is `shaftNumber`, in input order. -/
def entitiesOfShaft (entities : List Entity) (shaftNumber : JSString) : List Entity :=
  entities.filter (fun e => decide (shaftOf e = shaftNumber))

/-- Three entities on the layers `GEB-SH-02-PIPE`, `LAYER0` and `GEB-SH-01-PIPE`. -/
def layeredEntities : List Entity :=
  [{ type := "LWPOLYLINE".toList, layer := some "GEB-SH-02-PIPE".toList },
   { type := "CIRCLE".toList, layer := some "LAYER0".toList },
   { type := "INSERT".toList, layer := some "GEB-SH-01-PIPE".toList }]

/-- A block insert with an insertion point and a layer but no `blockName`. -/
def namelessBlock : Entity :=
  { type := "INSERT".toList, layer := some "GEB-SH-01".toList,
    insertionPoint := some ⟨0, 0, none⟩ }

/-- The rational value of the literal `1e-10`. -/
def epsValue : ℚ := 7737125245533627 / 77371252455336267181195264

/-- The exact value of the parameter `ua` of the intersection on the first segment. -/
def paramA (x1 y1 x2 y2 x3 y3 x4 y4 : ℚ) : ℚ :=
  ((x4 - x3) * (y1 - y3) - (y4 - y3) * (x1 - x3)) / crossProduct x1 y1 x2 y2 x3 y3 x4 y4

/-- The exact value of the parameter `ub` of the intersection on the second segment. -/
def paramB (x1 y1 x2 y2 x3 y3 x4 y4 : ℚ) : ℚ :=
  ((x2 - x1) * (y1 - y3) - (y2 - y1) * (x1 - x3)) / crossProduct x1 y1 x2 y2 x3 y3 x4 y4

/-- The `x` and `y` coordinates of the point are finite numbers. -/
def PlanarFinite (p : Point) : Prop := (∃ a : ℚ, p.x = fin a) ∧ (∃ b : ℚ, p.y = fin b)

/-- The segment from `(0, 0)` to `(2, 2)` as a polyline. -/
def risingDiagonal : List Point := [⟨fin 0, fin 0, none⟩, ⟨fin 2, fin 2, none⟩]

/-- The segment from `(0, 2)` to `(2, 0)` as a polyline. -/
def fallingDiagonal : List Point := [⟨fin 0, fin 2, none⟩, ⟨fin 2, fin 0, none⟩]

/-- The number `2^-20`. -/
def tiny : ℚ := 1 / 1048576

/-- The horizontal segment from `(0, 0)` to `(2^-20, 0)` as a polyline. -/
def tinyHorizontal : List Point := [⟨fin 0, fin 0, none⟩, ⟨fin tiny, fin 0, none⟩]

/-- The vertical segment from `(2^-21, -2^-20)` to `(2^-21, 2^-20)` as a polyline; it
crosses `tinyHorizontal` in the middle of both segments. -/
def tinyVertical : List Point :=
  [⟨fin (tiny / 2), fin (-tiny), none⟩, ⟨fin (tiny / 2), fin tiny, none⟩]

/-- Properties of IEEE arithmetic at zero: a finite number minus itself, `0 * 0` and the
square root of 0 are 0, and adding 0 changes nothing. -/
structure ZeroLaws (rt : Runtime) : Prop where
  sub_self : ∀ a : ℚ, rt.sub (fin a) (fin a) = 0
  mul_zero_zero : rt.mul 0 0 = 0
  sqrt_zero : rt.sqrt 0 = 0
  add_zero : ∀ x, rt.add x 0 = x

/-- The last point of a list of points that starts with `first`. -/
def lastPoint (first : Point) (rest : List Point) : Point := (first :: rest).getLast (by simp)

/-- The path `(0,0)`, `(3,0)`, `(3,4)` with finite coordinates written out. -/
def cornerPath : List Point := [⟨fin 0, fin 0, none⟩, ⟨fin 3, fin 0, none⟩, ⟨fin 3, fin 4, none⟩]

/-- The configuration `{ pipeType: 'Under Slung', wcDia110: 110, washbasinDia50: 50,
mtDia110: 110 }`, in which the collector diameter is missing. -/
def sheetWithoutCollector : PipeSheet :=
  { pipeType := some "Under Slung".toList, wcDia110 := some 110, washbasinDia50 := some 50,
    mtDia110 := some 110, collectorDia110 := none }

/-- The configuration with the unknown pipe type `Round` and four positive diameters. -/
def roundSheet : PipeSheet :=
  { pipeType := some "Round".toList, wcDia110 := some 110, washbasinDia50 := some 50,
    mtDia110 := some 110, collectorDia110 := some 110 }

/-! # Theorems -/

/-! ## Numbers -/

theorem ofNat_eq_fin (n : Nat) : (OfNat.ofNat n : JSNumber) = fin (n : ℚ) := rfl

/-- A number that is `<=` a bound is not `>` a bound at least as large. -/
theorem not_gt_of_le (x : JSNumber) (a b : ℚ) (hab : a ≤ b) (h : x.le (fin a) = true) :
    x.gt (fin b) = false := by
  cases x with
  | fin q =>
    simp only [JSNumber.le, decide_eq_true_eq] at h
    simp only [JSNumber.gt, decide_eq_false_iff_not, not_lt]
    exact le_trans h hab
  | posInf => simp [JSNumber.le] at h
  | negInf => simp [JSNumber.gt]
  | nan => simp [JSNumber.gt]

theorem exactAdd_fin (a b : ℚ) : exactAdd (fin a) (fin b) = fin (a + b) := rfl

theorem exactNeg_fin (a : ℚ) : exactNeg (fin a) = fin (-a) := rfl

theorem exactMul_fin (a b : ℚ) : exactMul (fin a) (fin b) = fin (a * b) := rfl

theorem exactDiv_fin (a b : ℚ) (hb : b ≠ 0) : exactDiv (fin a) (fin b) = fin (a / b) := by
  simp only [exactDiv, if_neg hb]

theorem min_fin (a b : ℚ) : JSNumber.min (fin a) (fin b) = fin (if b < a then b else a) := by
  simp only [JSNumber.min, JSNumber.gt]
  by_cases h : b < a <;> simp [h]

theorem max_fin (a b : ℚ) : JSNumber.max (fin a) (fin b) = fin (if a < b then b else a) := by
  simp only [JSNumber.max, JSNumber.gt]
  by_cases h : a < b <;> simp [h]

theorem refSub_fin (a b : ℚ) : refRuntime.sub (fin a) (fin b) = fin (a - b) := by
  show exactAdd (fin a) (exactNeg (fin b)) = _
  rw [exactNeg_fin, exactAdd_fin, sub_eq_add_neg]

theorem refAdd_fin (a b : ℚ) : refRuntime.add (fin a) (fin b) = fin (a + b) := rfl

theorem refMul_fin (a b : ℚ) : refRuntime.mul (fin a) (fin b) = fin (a * b) := rfl

theorem refDiv_fin (a b : ℚ) (hb : b ≠ 0) : refRuntime.div (fin a) (fin b) = fin (a / b) :=
  exactDiv_fin a b hb

theorem refSqrt_eq (a : JSNumber) : refRuntime.sqrt a = exactSqrt a := rfl

/-! ## Polyline length -/

namespace GeometryCalculator

theorem segmentDistances_cons_cons (rt : Runtime) (a b : Point) (t : List Point) :
    segmentDistances rt (a :: b :: t)
      = calculateDistance rt a b :: segmentDistances rt (b :: t) := rfl

theorem polylineLengthLoop_eq (rt : Runtime) (vs : List Point) :
    ∀ (k i : Nat) (acc : JSNumber), vs.length - i = k →
      polylineLengthLoop rt vs.toArray i acc
        = (segmentDistances rt (vs.drop i)).foldl rt.add acc := by
  intro k
  induction k with
  | zero =>
    intro i acc hk
    unfold polylineLengthLoop
    have h1 : ¬ (i + 1 < vs.toArray.size) := by simp; omega
    rw [dif_neg h1]
    have h2 : vs.drop i = [] := by
      apply List.drop_eq_nil_of_le; omega
    simp [h2, segmentDistances]
  | succ k ih =>
    intro i acc hk
    unfold polylineLengthLoop
    by_cases h1 : i + 1 < vs.toArray.size
    · rw [dif_pos h1]
      rw [ih (i + 1) _ (by omega)]
      have hi : i < vs.length := by simp at h1; omega
      have hi1 : i + 1 < vs.length := by simpa using h1
      have e1 : vs.drop i = vs[i] :: vs.drop (i + 1) := by
        exact List.drop_eq_getElem_cons hi
      have e2 : vs.drop (i + 1) = vs[i + 1] :: vs.drop (i + 2) := by
        exact List.drop_eq_getElem_cons hi1
      have e3 : segmentDistances rt (vs.drop i)
          = calculateDistance rt vs[i] vs[i + 1] :: segmentDistances rt (vs.drop (i + 1)) := by
        have e4 : vs.drop i = vs[i] :: vs[i + 1] :: vs.drop (i + 2) := by
          rw [e1]; congr 1
        rw [e4, segmentDistances_cons_cons, ← e2]
      rw [e3]
      simp
    · rw [dif_neg h1]
      have hlen : vs.length = i + 1 := by simp at h1; omega
      have hi : i < vs.length := by omega
      have e1 : vs.drop i = vs[i] :: vs.drop (i + 1) := List.drop_eq_getElem_cons hi
      have e2 : vs.drop (i + 1) = [] := by
        apply List.drop_eq_nil_of_le; omega
      rw [e1, e2]
      simp [segmentDistances]

theorem calculatePolylineLength_eq (rt : Runtime) (vs : List Point) :
    calculatePolylineLength rt (some vs)
      = if vs.length < 2 then 0 else (segmentDistances rt vs).foldl rt.add 0 := by
  unfold calculatePolylineLength
  simp only [Option.getD_some, Array.size_toArray]
  split
  · rfl
  · rw [polylineLengthLoop_eq rt vs vs.length 0 0 (by omega)]
    simp

theorem exactSqrt_sq (n : Nat) : exactSqrt (fin ((n : ℚ) * (n : ℚ))) = fin (n : ℚ) := by
  have h : ((n : ℚ) * (n : ℚ)) = ((n * n : ℕ) : ℚ) := by push_cast; ring
  rw [h]
  simp only [exactSqrt]
  have h0 : ¬ (((n * n : ℕ) : ℚ) < 0) := by
    simp only [not_lt]; exact_mod_cast Nat.zero_le _
  rw [if_neg h0]
  simp only [Rat.num_natCast, Rat.den_natCast, Int.toNat_ofNat, Nat.sqrt_eq, Nat.sqrt_one,
    Nat.cast_one, div_one]

theorem refDistance_planar (x1 y1 x2 y2 : ℚ) :
    calculateDistance refRuntime ⟨fin x1, fin y1, none⟩ ⟨fin x2, fin y2, none⟩
      = exactSqrt (fin ((x2 - x1) * (x2 - x1) + (y2 - y1) * (y2 - y1))) := by
  simp [calculateDistance, refRuntime, orZero, exactAdd, exactMul, exactNeg, ofNat_eq_fin,
    sub_eq_add_neg]

/-- C1: `calculatePolylineLength` returns 0 for absent vertices and for fewer than two
vertices, and otherwise the sum, accumulated from 0 in input order, of the `n - 1`
distances between consecutive vertices; for the path `(0,0)`, `(3,0)`, `(3,4)` it returns
`3 + 4 = 7`, while the distance between the end points is 5. -/
theorem calculatePolylineLength_sums_segments (rt : Runtime) :
    calculatePolylineLength rt none = 0
    ∧ (∀ vs : List Point,
        calculatePolylineLength rt (some vs)
          = if vs.length < 2 then 0 else (segmentDistances rt vs).foldl rt.add 0)
    ∧ (∀ vs : List Point, (segmentDistances rt vs).length = vs.length - 1)
    ∧ (∀ (vs : List Point) (i : Nat) (h : i + 1 < vs.length),
        (segmentDistances rt vs)[i]? = some (calculateDistance rt (vs[i]) (vs[i + 1])))
    ∧ calculatePolylineLength refRuntime (some trianglePath) = 7
    ∧ calculateDistance refRuntime ⟨0, 0, none⟩ ⟨3, 4, none⟩ = 5 := by
  refine ⟨?_, calculatePolylineLength_eq rt, ?_, ?_, ?_, ?_⟩
  · simp [calculatePolylineLength]
  · intro vs
    simp [segmentDistances]
  · intro vs i h
    have h0 : i < vs.length := by omega
    simp [segmentDistances, List.getElem?_zipWith, List.getElem?_eq_getElem h0,
      List.getElem?_eq_getElem h]
  · rw [calculatePolylineLength_eq]
    simp only [trianglePath, segmentDistances, ofNat_eq_fin, List.tail_cons,
      List.zipWith_cons_cons,
      List.zipWith_nil_right, refDistance_planar, List.length_cons, List.length_nil]
    have e3 : exactSqrt (fin (((3 : ℕ) : ℚ) * ((3 : ℕ) : ℚ))) = fin ((3 : ℕ) : ℚ) := exactSqrt_sq 3
    have e4 : exactSqrt (fin (((4 : ℕ) : ℚ) * ((4 : ℕ) : ℚ))) = fin ((4 : ℕ) : ℚ) := exactSqrt_sq 4
    norm_num at e3 e4 ⊢
    rw [e3, e4]
    simp only [refRuntime, exactAdd]
    norm_num
  · simp only [ofNat_eq_fin, refDistance_planar]
    have e5 : exactSqrt (fin (((5 : ℕ) : ℚ) * ((5 : ℕ) : ℚ))) = fin ((5 : ℕ) : ℚ) := exactSqrt_sq 5
    norm_num at e5 ⊢
    exact e5

end GeometryCalculator

/-! ## Characters and regular expressions -/

theorem toUpper_eq_iff (T : Char) (hT : T.toNat < 97 ∨ 122 < T.toNat) (c : Char) :
    c.toUpper = T ↔ c = T ∨ (c.toNat = T.toNat + 32 ∧ 65 ≤ T.toNat ∧ T.toNat ≤ 90) := by
  by_cases h : c.toNat ≥ 97 ∧ c.toNat ≤ 122
  · have hu : c.toUpper = Char.ofNat (c.toNat - 32) := by
      simp only [Char.toUpper, h, and_self, if_true]
    have hn : (Char.ofNat (c.toNat - 32)).toNat = c.toNat - 32 := by
      obtain ⟨h1, h2⟩ := h
      generalize c.toNat = n at h1 h2
      interval_cases n <;> decide
    rw [hu]
    constructor
    · intro e
      right
      have : T.toNat = c.toNat - 32 := by rw [← e, hn]
      omega
    · rintro (e | ⟨e, h1, h2⟩)
      · subst e; omega
      · have : c.toNat - 32 = T.toNat := by omega
        rw [this, Char.ofNat_toNat]
  · have hu : c.toUpper = c := by
      simp only [Char.toUpper]
      rw [if_neg h]
    rw [hu]
    constructor
    · intro e; exact Or.inl e
    · rintro (e | ⟨e, h1, h2⟩)
      · exact e
      · exfalso; apply h; omega

theorem char_eq_of_toNat_eq {c d : Char} (h : c.toNat = d.toNat) : c = d := by
  rw [← Char.ofNat_toNat c, ← Char.ofNat_toNat d, h]

/-- Upper-casing yields the capital letter `T` exactly for `T` and its small letter `t`. -/
theorem toUpper_eq_letter (T t : Char) (h1 : 65 ≤ T.toNat) (h2 : T.toNat ≤ 90)
    (ht : t.toNat = T.toNat + 32) (c : Char) : c.toUpper = T ↔ c = T ∨ c = t := by
  rw [toUpper_eq_iff T (by omega)]
  constructor
  · rintro (e | ⟨e, -, -⟩)
    · exact Or.inl e
    · exact Or.inr (char_eq_of_toNat_eq (by omega))
  · rintro (e | e)
    · exact Or.inl e
    · subst e; exact Or.inr ⟨ht, h1, h2⟩

/-- Upper-casing yields a character that is not a letter only for that character. -/
theorem toUpper_eq_nonletter (T : Char) (hT : T.toNat < 65 ∨ 122 < T.toNat) (c : Char) :
    c.toUpper = T ↔ c = T := by
  rw [toUpper_eq_iff T (by omega)]
  constructor
  · rintro (e | ⟨-, h1, h2⟩)
    · exact e
    · omega
  · intro e; exact Or.inl e

namespace RegExp

theorem matchStar_end (p : Char → Bool) (s : List Char) :
    matchStar p (fun _ => some []) s = some (s.takeWhile p) := by
  induction s with
  | nil => rfl
  | cons c cs ih =>
    simp only [matchStar, ih, List.takeWhile_cons]
    split <;> rfl

theorem matchHere_nil (ic : Bool) (s : List Char) : matchHere ic [] s = some [] := rfl

theorem matchHere_one_cons (ic : Bool) (a : Atom) (r : Pattern) (c : Char) (cs : List Char) :
    matchHere ic (⟨a, .one⟩ :: r) (c :: cs)
      = if atomMatches ic a c then (matchHere ic r cs).map (c :: ·) else none := rfl

theorem matchHere_one_nil (ic : Bool) (a : Atom) (r : Pattern) :
    matchHere ic (⟨a, .one⟩ :: r) [] = none := rfl

theorem matchHere_digits_cons (ic : Bool) (c : Char) (cs : List Char) :
    matchHere ic [⟨.digit, .plus⟩] (c :: cs)
      = if c.isDigit then some (c :: cs.takeWhile Char.isDigit) else none := by
  have hk : matchHere ic [] = fun _ => some [] := rfl
  have hp : atomMatches ic Atom.digit = Char.isDigit := rfl
  show (if atomMatches ic Atom.digit c then
      (matchStar (atomMatches ic Atom.digit) (matchHere ic []) cs).map (c :: ·) else none) = _
  rw [hk, hp, matchStar_end]
  rfl

theorem matchHere_digits_nil (ic : Bool) : matchHere ic [⟨.digit, .plus⟩] [] = none := rfl

/-- A successful search splits the input around the match, which starts at the leftmost
position where the pattern matches. -/
theorem exec_eq_some (ic : Bool) (re : Pattern) (s m : List Char)
    (h : exec ic re s = some m) :
    ∃ pre suf, s = pre ++ suf ∧ matchHere ic re suf = some m
      ∧ ∀ pre' suf', s = pre' ++ suf' → pre'.length < pre.length →
          matchHere ic re suf' = none := by
  induction s with
  | nil =>
    refine ⟨[], [], rfl, h, ?_⟩
    intro pre' suf' _ hlt
    simp at hlt
  | cons c cs ih =>
    simp only [exec] at h
    cases hm : matchHere ic re (c :: cs) with
    | some m' =>
      rw [hm] at h
      refine ⟨[], c :: cs, rfl, by rw [hm, ← h], ?_⟩
      intro pre' suf' _ hlt
      simp at hlt
    | none =>
      rw [hm] at h
      obtain ⟨pre, suf, hs, hmatch, hleft⟩ := ih h
      refine ⟨c :: pre, suf, by rw [hs]; rfl, hmatch, ?_⟩
      intro pre' suf' hs' hlt
      cases pre' with
      | nil =>
        simp only [List.nil_append] at hs'
        rw [← hs']; exact hm
      | cons d pre'' =>
        simp only [List.cons_append, List.cons.injEq] at hs'
        exact hleft pre'' suf' hs'.2 (by simpa using hlt)

/-- A failed search means the pattern matches at no position. -/
theorem exec_eq_none (ic : Bool) (re : Pattern) (s : List Char)
    (h : exec ic re s = none) :
    ∀ pre suf, s = pre ++ suf → matchHere ic re suf = none := by
  induction s with
  | nil =>
    intro pre suf hs
    have h1 : pre = [] ∧ suf = [] := by simpa using hs.symm
    rw [h1.2]; exact h
  | cons c cs ih =>
    simp only [exec] at h
    cases hm : matchHere ic re (c :: cs) with
    | some m' => rw [hm] at h; cases h
    | none =>
      rw [hm] at h
      intro pre suf hs
      cases pre with
      | nil =>
        simp only [List.nil_append] at hs
        rw [← hs]; exact hm
      | cons d pre' =>
        simp only [List.cons_append, List.cons.injEq] at hs
        exact ih h pre' suf hs.2

/-- If the pattern matches somewhere, the search succeeds. -/
theorem exec_isSome_of_match (ic : Bool) (re : Pattern) (pre suf : List Char)
    (h : (matchHere ic re suf).isSome) : (exec ic re (pre ++ suf)).isSome := by
  cases he : exec ic re (pre ++ suf) with
  | some m => rfl
  | none =>
    have := exec_eq_none ic re _ he pre suf rfl
    rw [this] at h
    cases h

end RegExp

/-! ## Shaft identifiers -/

namespace SelectionFilter

theorem shaft_matchHere (t m : List Char) :
    RegExp.matchHere true shaftPattern t = some m ↔
      ∃ s h d rest, t = s :: h :: '-' :: d :: rest ∧ (s = 'S' ∨ s = 's')
        ∧ (h = 'H' ∨ h = 'h') ∧ d.isDigit = true
        ∧ m = s :: h :: '-' :: d :: rest.takeWhile Char.isDigit := by
  have hS := toUpper_eq_letter 'S' 's' (by decide) (by decide) (by decide)
  have hH := toUpper_eq_letter 'H' 'h' (by decide) (by decide) (by decide)
  have hD := toUpper_eq_nonletter '-' (by decide)
  have uS : 'S'.toUpper = 'S' := by decide
  have uH : 'H'.toUpper = 'H' := by decide
  have uD : '-'.toUpper = '-' := by decide
  rcases t with _ | ⟨a, _ | ⟨b, _ | ⟨c, _ | ⟨d, rest⟩⟩⟩⟩
  · simp [shaftPattern, RegExp.matchHere_one_nil]
  · simp [shaftPattern, RegExp.matchHere_one_cons, RegExp.matchHere_one_nil]
  · simp [shaftPattern, RegExp.matchHere_one_cons, RegExp.matchHere_one_nil]
  · simp [shaftPattern, RegExp.matchHere_one_cons, RegExp.matchHere_digits_nil]
  · simp only [shaftPattern, RegExp.matchHere_one_cons, RegExp.matchHere_digits_cons,
      RegExp.atomMatches, if_true, beq_iff_eq, uS, uH, uD, hS, hH, hD]
    constructor
    · intro h
      by_cases h1 : a = 'S' ∨ a = 's'
      · by_cases h2 : b = 'H' ∨ b = 'h'
        · by_cases h3 : c = '-'
          · by_cases h4 : d.isDigit = true
            · simp only [h1, h2, h3, h4, if_true, Option.map_some', Option.some.injEq] at h
              subst h3
              exact ⟨a, b, d, rest, rfl, h1, h2, h4, h.symm⟩
            · simp [h1, h2, h3, h4] at h
          · simp [h1, h2, h3] at h
        · simp [h1, h2] at h
      · simp [h1] at h
    · rintro ⟨s, h, d', rest', e, h1, h2, h4, hm⟩
      simp only [List.cons.injEq] at e
      obtain ⟨rfl, rfl, rfl, rfl, rfl⟩ := e
      simp [h1, h2, h4, hm]

theorem dropWhile_head_not (p : Char → Bool) (l : List Char) (c : Char) (rest : List Char)
    (h : l.dropWhile p = c :: rest) : p c = false := by
  induction l with
  | nil => simp at h
  | cons a as ih =>
    rw [List.dropWhile_cons] at h
    by_cases ha : p a = true
    · rw [if_pos ha] at h; exact ih h
    · rw [if_neg ha] at h
      simp only [List.cons.injEq] at h
      rw [← h.1]; simpa using ha

theorem token_matches (m post : List Char) (h : IsShaftToken m) :
    ∃ m', RegExp.matchHere true shaftPattern (m ++ post) = some m' := by
  obtain ⟨s, h', ds, rfl, hs, hh, hne, hd⟩ := h
  cases ds with
  | nil => exact absurd rfl hne
  | cons d ds' =>
    refine ⟨_, (shaft_matchHere _ _).2 ⟨s, h', d, ds' ++ post, rfl, hs, hh, ?_, rfl⟩⟩
    exact hd d (List.mem_cons_self _ _)

/-- C2: `extractShaftNumber` returns the leftmost shaft token of the layer name, with all
the digits that follow `SH-`, and the empty string when the name contains no token. -/
theorem extractShaftNumber_leftmost_token (layer : JSString) :
    (¬ ContainsShaftToken layer → extractShaftNumber layer = [])
    ∧ (ContainsShaftToken layer →
        ∃ pre post, layer = pre ++ extractShaftNumber layer ++ post
          ∧ IsShaftToken (extractShaftNumber layer)
          ∧ (∀ pre' m' post', layer = pre' ++ m' ++ post' → IsShaftToken m' →
              pre.length ≤ pre'.length)
          ∧ (∀ c rest, post = c :: rest → c.isDigit = false))
    ∧ extractShaftNumber "GEB-SH-03-PIPE".toList = "SH-03".toList
    ∧ extractShaftNumber "LAYER0".toList = [] := by
  refine ⟨?_, ?_, by decide, by decide⟩
  · intro hno
    cases he : RegExp.exec true shaftPattern layer with
    | none => simp [extractShaftNumber, he]
    | some m =>
      exfalso
      apply hno
      obtain ⟨pre, suf, hs, hm, -⟩ := RegExp.exec_eq_some _ _ _ _ he
      obtain ⟨s, h, d, rest, rfl, h1, h2, h4, rfl⟩ := (shaft_matchHere _ _).1 hm
      refine ⟨pre, _, rest.dropWhile Char.isDigit, ?_, s, h, d :: rest.takeWhile Char.isDigit,
        rfl, h1, h2, by simp, ?_⟩
      · rw [hs]
        simp [List.takeWhile_append_dropWhile]
      · intro x hx
        rcases List.mem_cons.1 hx with rfl | hx
        · exact h4
        · exact (List.mem_takeWhile_imp hx)
  · intro hyes
    cases he : RegExp.exec true shaftPattern layer with
    | none =>
      exfalso
      obtain ⟨pre, m, post, hl, htok⟩ := hyes
      obtain ⟨m', hm'⟩ := token_matches m post htok
      have := RegExp.exec_eq_none _ _ _ he pre (m ++ post) (by rw [hl, List.append_assoc])
      rw [this] at hm'
      cases hm'
    | some m =>
      obtain ⟨pre, suf, hs, hm, hleft⟩ := RegExp.exec_eq_some _ _ _ _ he
      obtain ⟨s, h, d, rest, rfl, h1, h2, h4, rfl⟩ := (shaft_matchHere _ _).1 hm
      have hex : extractShaftNumber layer
          = s :: h :: '-' :: d :: rest.takeWhile Char.isDigit := by
        simp [extractShaftNumber, he]
      rw [hex]
      refine ⟨pre, rest.dropWhile Char.isDigit, ?_, ?_, ?_, ?_⟩
      · rw [hs]
        simp [List.takeWhile_append_dropWhile]
      · refine ⟨s, h, d :: rest.takeWhile Char.isDigit, rfl, h1, h2, by simp, ?_⟩
        intro x hx
        rcases List.mem_cons.1 hx with rfl | hx
        · exact h4
        · exact (List.mem_takeWhile_imp hx)
      · intro pre' m' post' hl htok
        by_contra hlt
        obtain ⟨m'', hm''⟩ := token_matches m' post' htok
        have := hleft pre' (m' ++ post') (by rw [hl, List.append_assoc]) (by omega)
        rw [this] at hm''
        cases hm''
      · intro c rest' hpost
        exact dropWhile_head_not _ _ _ _ hpost

end SelectionFilter

/-! ## Layer patterns -/

namespace SelectionFilter

theorem matchesLayerPattern_default (rt : Runtime) (layer : Option JSString) :
    matchesLayerPattern rt constructor layer = some (defaultLayerMatch layer) := by
  have hc : RegExp.compile (replaceStar "GEB*".toList) = some gebPattern := by decide
  have hi : includes "GEB*".toList "*".toList = true := by decide
  rcases layer with _ | _ | ⟨c, cs⟩
  · rfl
  · rfl
  · simp only [matchesLayerPattern, constructor, arraySome, hi, if_true, hc, Option.map_some',
      defaultLayerMatch]
    cases RegExp.test true gebPattern (c :: cs) <;> rfl

theorem geb_matchHere_isSome (t : List Char) :
    (RegExp.matchHere true gebPattern t).isSome = true ↔ StartsWithGEB t := by
  have hG := toUpper_eq_letter 'G' 'g' (by decide) (by decide) (by decide)
  have hE := toUpper_eq_letter 'E' 'e' (by decide) (by decide) (by decide)
  have hB := toUpper_eq_letter 'B' 'b' (by decide) (by decide) (by decide)
  have uG : 'G'.toUpper = 'G' := by decide
  have uE : 'E'.toUpper = 'E' := by decide
  have uB : 'B'.toUpper = 'B' := by decide
  have hstar : ∀ s, RegExp.matchHere true [⟨.any, .star⟩] s
      = some (s.takeWhile (RegExp.atomMatches true .any)) := by
    intro s
    have hk : RegExp.matchHere true [] = fun _ => some [] := rfl
    show RegExp.matchStar (RegExp.atomMatches true .any) (RegExp.matchHere true []) s = _
    rw [hk, RegExp.matchStar_end]
  rcases t with _ | ⟨a, _ | ⟨b, _ | ⟨c, rest⟩⟩⟩
  · simp [gebPattern, RegExp.matchHere_one_nil, StartsWithGEB]
  · simp [gebPattern, RegExp.matchHere_one_cons, RegExp.matchHere_one_nil, StartsWithGEB]
  · simp [gebPattern, RegExp.matchHere_one_cons, RegExp.matchHere_one_nil, StartsWithGEB]
  · simp only [gebPattern, RegExp.matchHere_one_cons, hstar, RegExp.atomMatches, if_true,
      beq_iff_eq, uG, uE, uB, hG, hE, hB, StartsWithGEB]
    constructor
    · intro h
      by_cases h1 : a = 'G' ∨ a = 'g'
      · by_cases h2 : b = 'E' ∨ b = 'e'
        · by_cases h3 : c = 'B' ∨ c = 'b'
          · exact ⟨a, b, c, rest, rfl, h1, h2, h3⟩
          · simp [h1, h2, h3] at h
        · simp [h1, h2] at h
      · simp [h1] at h
    · rintro ⟨a', b', c', rest', e, h1, h2, h3⟩
      simp only [List.cons.injEq] at e
      obtain ⟨rfl, rfl, rfl, rfl⟩ := e
      simp [h1, h2, h3]

theorem defaultLayerMatch_iff (layer : Option JSString) :
    defaultLayerMatch layer = true ↔ ∃ name, layer = some name ∧ ContainsGEB name := by
  have key : ∀ name, RegExp.test true gebPattern name = true ↔ ContainsGEB name := by
    intro name
    constructor
    · intro h
      cases he : RegExp.exec true gebPattern name with
      | none => simp [RegExp.test, he] at h
      | some m =>
        obtain ⟨pre, suf, hs, hm, -⟩ := RegExp.exec_eq_some _ _ _ _ he
        obtain ⟨a, b, c, rest, rfl, h1, h2, h3⟩ :=
          (geb_matchHere_isSome suf).1 (by rw [hm]; rfl)
        exact ⟨pre, a, b, c, rest, hs, h1, h2, h3⟩
    · rintro ⟨pre, a, b, c, rest, rfl, h1, h2, h3⟩
      exact RegExp.exec_isSome_of_match _ _ pre _
        ((geb_matchHere_isSome _).2 ⟨a, b, c, rest, rfl, h1, h2, h3⟩)
  rcases layer with _ | _ | ⟨c, cs⟩
  · simp [defaultLayerMatch]
  · simp only [defaultLayerMatch, Option.some.injEq, exists_eq_left', Bool.false_eq_true,
      false_iff]
    rintro ⟨pre, a, b, c, rest, e, -⟩
    simp at e
  · simp only [defaultLayerMatch, Option.some.injEq, exists_eq_left']
    exact key _

/-- C3: with the default pattern list the pattern `GEB*` is compiled to the unanchored
regular expression `/GEB.*/i`, so a layer is accepted when it contains `GEB` (in any letter
case) anywhere: `X-GEB-1`, which does not begin with `GEB`, is accepted.  An absent or empty
layer is rejected. -/
theorem matchesLayerPattern_accepts_inner_GEB (rt : Runtime) :
    matchesLayerPattern rt constructor (some "X-GEB-1".toList) = some true
    ∧ ¬ StartsWithGEB "X-GEB-1".toList
    ∧ (∀ layer, matchesLayerPattern rt constructor layer = some true ↔
        ∃ name, layer = some name ∧ ContainsGEB name)
    ∧ matchesLayerPattern rt constructor none = some false
    ∧ matchesLayerPattern rt constructor (some []) = some false := by
  have hall : ∀ layer, matchesLayerPattern rt constructor layer = some true ↔
      ∃ name, layer = some name ∧ ContainsGEB name := by
    intro layer
    rw [matchesLayerPattern_default, ← defaultLayerMatch_iff]
    simp
  refine ⟨?_, ?_, hall, rfl, rfl⟩
  · rw [matchesLayerPattern_default]
    decide
  · rintro ⟨a, b, c, rest, e, h1, -⟩
    have : a = 'X' := by
      have := congrArg List.head? e
      simpa using this.symm
    subst this
    revert h1
    decide

end SelectionFilter

/-! ## Bucketing by layer and type -/

namespace SelectionFilter

theorem filterLoop_eq (rt : Runtime) (entities : List Entity) :
    ∀ acc : Filtered,
      filterLoop rt constructor entities acc = some
        { polylines := acc.polylines
            ++ entities.filter (fun e => accepted rt e && isPolylineType e)
          circles := acc.circles ++ entities.filter (fun e => accepted rt e && isCircleType e)
          blocks := acc.blocks ++ entities.filter (fun e => accepted rt e && isInsertType e)
          other := acc.other ++ entities.filter (fun e => accepted rt e && isOtherType e) } := by
  induction entities with
  | nil => intro acc; simp [filterLoop]
  | cons e es ih =>
    intro acc
    simp only [filterLoop, matchesLayerPattern_default]
    cases hm : defaultLayerMatch e.layer
    · have ha : accepted rt e = false := by
        simp [accepted, matchesLayerPattern_default, hm]
      simp only [ih, List.filter_cons, ha, Bool.false_and, Bool.false_eq_true, if_false]
    · have ha : accepted rt e = true := by
        simp [accepted, matchesLayerPattern_default, hm]
      simp only [ih, List.filter_cons, ha, Bool.true_and]
      unfold categorizeEntity
      by_cases h1 : e.type = "LWPOLYLINE".toList ∨ e.type = "POLYLINE".toList
      · have p1 : isPolylineType e = true := by
          simpa [isPolylineType] using h1
        have p2 : isCircleType e = false := by
          rcases h1 with h | h <;> rw [isCircleType, h] <;> decide
        have p3 : isInsertType e = false := by
          rcases h1 with h | h <;> rw [isInsertType, h] <;> decide
        have p4 : isOtherType e = false := by simp [isOtherType, p1]
        simp only [if_pos h1]
        simp [p1, p2, p3, p4]
      · have p1 : isPolylineType e = false := by
          simpa [isPolylineType] using h1
        by_cases h2 : e.type = "CIRCLE".toList
        · have p2 : isCircleType e = true := by simpa [isCircleType] using h2
          have p3 : isInsertType e = false := by
            rw [isInsertType, h2]; decide
          have p4 : isOtherType e = false := by simp [isOtherType, p2]
          simp only [if_neg h1, if_pos h2]
          simp [p1, p2, p3, p4]
        · have p2 : isCircleType e = false := by simpa [isCircleType] using h2
          by_cases h3 : e.type = "INSERT".toList
          · have p3 : isInsertType e = true := by simpa [isInsertType] using h3
            have p4 : isOtherType e = false := by simp [isOtherType, p3]
            simp only [if_neg h1, if_neg h2, if_pos h3]
            simp [p1, p2, p3, p4]
          · have p3 : isInsertType e = false := by simpa [isInsertType] using h3
            have p4 : isOtherType e = true := by simp [isOtherType, p1, p2, p3]
            simp only [if_neg h1, if_neg h2, if_neg h3]
            simp [p1, p2, p3, p4]

theorem count_filter_ite (p : Entity → Bool) (l : List Entity) (e : Entity) :
    (l.filter p).count e = if p e then l.count e else 0 := by
  by_cases h : p e = true
  · rw [if_pos h, List.count_filter h]
  · rw [if_neg h]
    apply List.count_eq_zero_of_not_mem
    intro hm
    exact h (List.mem_filter.1 hm).2

theorem type_exclusive (e : Entity) :
    (isPolylineType e = true → isCircleType e = false ∧ isInsertType e = false)
    ∧ (isCircleType e = true → isInsertType e = false) := by
  constructor
  · intro h
    simp only [isPolylineType, Bool.or_eq_true, beq_iff_eq] at h
    rcases h with h | h <;> rw [isCircleType, isInsertType, h] <;> decide
  · intro h
    simp only [isCircleType, beq_iff_eq] at h
    rw [isInsertType, h]; decide

/-- C4: with the default filter, `filterEntitiesByLayer` returns four buckets, each the
input list restricted (in input order) to the entities whose layer passes
`matchesLayerPattern` and whose type selects that bucket; every occurrence of an accepted
entity lands in exactly one bucket and a rejected entity in none.  An `INSERT` named
`VALVE-D50` on layer `LAYER0` is rejected. -/
theorem filterEntitiesByLayer_buckets (rt : Runtime) (entities : List Entity) :
    (∃ f : Filtered, filterEntitiesByLayer rt constructor entities = some f
      ∧ f.polylines = entities.filter (fun e => accepted rt e && isPolylineType e)
      ∧ f.circles = entities.filter (fun e => accepted rt e && isCircleType e)
      ∧ f.blocks = entities.filter (fun e => accepted rt e && isInsertType e)
      ∧ f.other = entities.filter (fun e => accepted rt e && isOtherType e)
      ∧ ∀ e : Entity,
          f.polylines.count e + f.circles.count e + f.blocks.count e + f.other.count e
            = if accepted rt e then entities.count e else 0)
    ∧ accepted rt valveOnLayer0 = false
    ∧ filterEntitiesByLayer rt constructor [valveOnLayer0] = some ⟨[], [], [], []⟩ := by
  have hacc : accepted rt valveOnLayer0 = false := by
    simp only [accepted, matchesLayerPattern_default]
    decide
  refine ⟨⟨_, filterLoop_eq rt entities ⟨[], [], [], []⟩, by simp, by simp, by simp, by simp,
    ?_⟩, hacc, ?_⟩
  · intro e
    simp only [List.nil_append, count_filter_ite]
    obtain ⟨h1, h2⟩ := type_exclusive e
    cases ha : accepted rt e
    · simp
    · cases hp : isPolylineType e
      · cases hc : isCircleType e
        · cases hi : isInsertType e <;> simp [isOtherType, hp, hc, hi]
        · have := h2 hc
          simp [isOtherType, hp, hc, this]
      · have := h1 hp
        simp [isOtherType, hp, this.1, this.2]
  · unfold filterEntitiesByLayer
    rw [filterLoop_eq]
    simp [hacc]

end SelectionFilter

/-! ## Diameter and subtype estimation -/

namespace CADProcessor

/-- C5: the breakpoint table of `estimatePipeDiameter`: a length above 50 gives 110, a
length above 20 and at most 50 gives 75, a length of at most 20 gives 50. -/
theorem estimatePipeDiameter_breakpoints (polyline : Entity) (len : JSNumber) :
    (len.gt 50 = true → estimatePipeDiameter { polyline with length := some len } = 110)
    ∧ (len.gt 20 = true → len.le 50 = true →
        estimatePipeDiameter { polyline with length := some len } = 75)
    ∧ (len.le 20 = true → estimatePipeDiameter { polyline with length := some len } = 50)
    ∧ estimatePipeDiameter { polyline with length := some 50 } = 75
    ∧ estimatePipeDiameter { polyline with length := some 20 } = 50 := by
  refine ⟨?_, ?_, ?_, ?_, ?_⟩
  · intro h
    simp [estimatePipeDiameter, toNumber, h]
  · intro h1 h2
    have h3 : len.gt 50 = false := not_gt_of_le len 50 50 le_rfl h2
    simp [estimatePipeDiameter, toNumber, h1, h3]
  · intro h
    have h3 : len.gt 50 = false := not_gt_of_le len 20 50 (by norm_num) h
    have h4 : len.gt 20 = false := not_gt_of_le len 20 20 le_rfl h
    simp [estimatePipeDiameter, toNumber, h3, h4]
  · have h1 : (50 : JSNumber).gt 50 = false := by decide
    have h2 : (50 : JSNumber).gt 20 = true := by decide
    simp [estimatePipeDiameter, toNumber, h1, h2]
  · have h1 : (20 : JSNumber).gt 50 = false := by decide
    have h2 : (20 : JSNumber).gt 20 = false := by decide
    simp [estimatePipeDiameter, toNumber, h1, h2]

theorem processPolylines_singleton (rt : Runtime) (polyline : Entity) (layer : JSString)
    (h : polyline.layer = some layer) :
    processPolylines rt [polyline] = .ok
      [{ source := polyline
         length := GeometryCalculator.calculatePolylineLength rt polyline.vertices
         has45DegreeAngle := GeometryCalculator.has45DegreeAngle rt polyline.vertices
         diameter := estimatePipeDiameter polyline
         shaftNumber := SelectionFilter.extractShaftNumber layer }] := by
  simp [processPolylines, processPolyline, h]

theorem estimatePipeDiameter_no_length (polyline : Entity) (h : polyline.length = none) :
    estimatePipeDiameter polyline = 50 := by
  simp [estimatePipeDiameter, toNumber, h, JSNumber.gt]

theorem runOnShaft1_length :
    GeometryCalculator.calculatePolylineLength refRuntime runOnShaft1.vertices = 70 := by
  have e3 : exactSqrt (fin (((30 : ℕ) : ℚ) * ((30 : ℕ) : ℚ))) = fin ((30 : ℕ) : ℚ) :=
    GeometryCalculator.exactSqrt_sq 30
  have e4 : exactSqrt (fin (((40 : ℕ) : ℚ) * ((40 : ℕ) : ℚ))) = fin ((40 : ℕ) : ℚ) :=
    GeometryCalculator.exactSqrt_sq 40
  simp only [runOnShaft1, GeometryCalculator.calculatePolylineLength_eq]
  simp only [GeometryCalculator.segmentDistances, ofNat_eq_fin, List.tail_cons,
    List.zipWith_cons_cons, List.zipWith_nil_right, GeometryCalculator.refDistance_planar,
    List.length_cons, List.length_nil]
  norm_num at e3 e4 ⊢
  rw [e3, e4]
  simp only [refRuntime, exactAdd]
  norm_num

theorem runOnShaft1_angle :
    GeometryCalculator.calculateAngle refRuntime ⟨0, 0, none⟩ ⟨30, 0, none⟩ ⟨30, 40, none⟩
      = 90 := by
  have e3 : exactSqrt (fin 900) = fin 30 := by
    have := GeometryCalculator.exactSqrt_sq 30
    norm_num at this
    exact this
  have e4 : exactSqrt (fin 1600) = fin 40 := by
    have := GeometryCalculator.exactSqrt_sq 40
    norm_num at this
    exact this
  have hdot : refRuntime.add (refRuntime.mul (refRuntime.sub 0 30) (refRuntime.sub 30 30))
      (refRuntime.mul (refRuntime.sub 0 0) (refRuntime.sub 40 0)) = fin 0 := by
    simp only [ofNat_eq_fin, refSub_fin, refMul_fin, refAdd_fin]
    norm_num
  have hmag1 : refRuntime.sqrt (refRuntime.add
      (refRuntime.mul (refRuntime.sub 0 30) (refRuntime.sub 0 30))
      (refRuntime.mul (refRuntime.sub 0 0) (refRuntime.sub 0 0))) = fin 30 := by
    simp only [ofNat_eq_fin, refSub_fin, refMul_fin, refAdd_fin, refSqrt_eq]
    rw [← e3]
    norm_num
  have hmag2 : refRuntime.sqrt (refRuntime.add
      (refRuntime.mul (refRuntime.sub 30 30) (refRuntime.sub 30 30))
      (refRuntime.mul (refRuntime.sub 40 0) (refRuntime.sub 40 0))) = fin 40 := by
    simp only [ofNat_eq_fin, refSub_fin, refMul_fin, refAdd_fin, refSqrt_eq]
    rw [← e4]
    norm_num
  have hcos : refRuntime.div (fin 0) (refRuntime.mul (fin 30) (fin 40)) = fin 0 := by
    rw [refMul_fin, refDiv_fin _ _ (by norm_num)]
    norm_num
  have hclamp : JSNumber.max (exactNeg 1) (JSNumber.min 1 (fin 0)) = fin 0 := by
    simp only [ofNat_eq_fin, exactNeg_fin, min_fin, max_fin]
    norm_num
  have hacos : refRuntime.acos (fin 0) = fin (884279719003555 / 562949953421312) := by
    show refAcos (fin 0) = _
    simp only [refAcos]
    norm_num
  have hfac : refRuntime.div 180 mathPI = fin (180 / (884279719003555 / 281474976710656)) := by
    rw [ofNat_eq_fin, mathPI, refDiv_fin _ _ (by norm_num)]
    norm_num
  have hmul : refRuntime.mul (fin (884279719003555 / 562949953421312))
      (fin (180 / (884279719003555 / 281474976710656))) = fin 90 := by
    rw [refMul_fin]
    norm_num
  unfold GeometryCalculator.calculateAngle
  simp only [hdot, hmag1, hmag2, hcos, hclamp, hacos, hfac, hmul]
  rfl

theorem runOnShaft1_has45 :
    GeometryCalculator.has45DegreeAngle refRuntime runOnShaft1.vertices = false := by
  have hsub : (JSNumber.abs (refRuntime.sub 90 45)).lt 5 = false := by
    simp only [refRuntime, ofNat_eq_fin, exactAdd, exactNeg, JSNumber.abs, JSNumber.lt,
      JSNumber.gt]
    norm_num
  simp only [GeometryCalculator.has45DegreeAngle, runOnShaft1, Option.getD_some]
  rw [GeometryCalculator.has45Loop]
  simp only [Array.size_toArray, List.length_cons, List.length_nil, Nat.lt_irrefl]
  norm_num
  rw [runOnShaft1_angle, hsub]
  simp only [Bool.false_eq_true, if_false]
  rw [GeometryCalculator.has45Loop]
  simp

/-- C6: `processPolylines` stores the computed length in the record but estimates the
diameter from the raw entity, whose `length` is absent, so the diameter is 50 whatever the
computed length.  For the run `(0,0),(30,0),(30,40)` on `GEB-SH-01-PIPE` the record has
length 70 and diameter 50, while the breakpoint table applied to length 70 gives 110. -/
theorem processPolylines_diameter_from_raw_entity :
    (∀ (rt : Runtime) (polyline : Entity) (layer : JSString),
      processPolylines rt [{ polyline with layer := some layer, length := none }] = .ok
        [{ source := { polyline with layer := some layer, length := none }
           length := GeometryCalculator.calculatePolylineLength rt polyline.vertices
           has45DegreeAngle := GeometryCalculator.has45DegreeAngle rt polyline.vertices
           diameter := 50
           shaftNumber := SelectionFilter.extractShaftNumber layer }])
    ∧ processPolylines refRuntime [runOnShaft1] = .ok
        [{ source := runOnShaft1, length := 70, has45DegreeAngle := false, diameter := 50,
           shaftNumber := "SH-01".toList }]
    ∧ estimatePipeDiameter { runOnShaft1 with length := some 70 } = 110 := by
  refine ⟨?_, ?_, ?_⟩
  · intro rt polyline layer
    rw [processPolylines_singleton rt _ layer rfl, estimatePipeDiameter_no_length _ rfl]
  · rw [processPolylines_singleton refRuntime runOnShaft1 "GEB-SH-01-PIPE".toList rfl,
      estimatePipeDiameter_no_length _ rfl, runOnShaft1_length, runOnShaft1_has45]
    have : SelectionFilter.extractShaftNumber "GEB-SH-01-PIPE".toList = "SH-01".toList := by
      decide
    rw [this]
  · have h1 : (70 : JSNumber).gt 50 = true := by decide
    simp [estimatePipeDiameter, toNumber, h1]

end CADProcessor

/-! ## Block diameters -/

namespace BlockProcessor

theorem diameter_matchHere (t m : List Char) :
    RegExp.matchHere false diameterPattern t = some m ↔
      ∃ d rest, t = 'D' :: d :: rest ∧ d.isDigit = true
        ∧ m = 'D' :: d :: rest.takeWhile Char.isDigit := by
  rcases t with _ | ⟨a, _ | ⟨d, rest⟩⟩
  · simp [diameterPattern, RegExp.matchHere_one_nil]
  · simp [diameterPattern, RegExp.matchHere_one_cons, RegExp.matchHere_digits_nil]
  · simp only [diameterPattern, RegExp.matchHere_one_cons, RegExp.matchHere_digits_cons,
      RegExp.atomMatches, Bool.false_eq_true, if_false, beq_iff_eq]
    constructor
    · intro h
      by_cases h1 : a = 'D'
      · by_cases h4 : d.isDigit = true
        · simp only [h1, h4, if_true, Option.map_some', Option.some.injEq] at h
          subst h1
          exact ⟨d, rest, rfl, h4, h.symm⟩
        · simp [h1, h4] at h
      · simp [h1] at h
    · rintro ⟨d', rest', e, h4, hm⟩
      simp only [List.cons.injEq] at e
      obtain ⟨rfl, rfl, rfl⟩ := e
      simp [h4, hm]

theorem exec_diameter_none (U : JSString)
    (h : RegExp.exec false diameterPattern U = none) : ¬ HasDToken U := by
  rintro ⟨pre, d, rest, hU, hd⟩
  have := RegExp.exec_eq_none _ _ _ h pre ('D' :: d :: rest) hU
  rw [(diameter_matchHere _ _).2 ⟨d, rest, rfl, hd, rfl⟩] at this
  cases this

theorem exec_diameter_some (U m : JSString)
    (h : RegExp.exec false diameterPattern U = some m) :
    ∃ pre ds post, FirstDToken U pre ds post ∧ m = 'D' :: ds := by
  obtain ⟨pre, suf, hs, hm, hleft⟩ := RegExp.exec_eq_some _ _ _ _ h
  obtain ⟨d, rest, rfl, hd, rfl⟩ := (diameter_matchHere _ _).1 hm
  refine ⟨pre, d :: rest.takeWhile Char.isDigit, rest.dropWhile Char.isDigit,
    ⟨?_, by simp, ?_, ?_, ?_⟩, rfl⟩
  · rw [hs]; simp [List.takeWhile_append_dropWhile]
  · intro x hx
    rcases List.mem_cons.1 hx with rfl | hx
    · exact hd
    · exact List.mem_takeWhile_imp hx
  · intro c rest' hpost
    exact SelectionFilter.dropWhile_head_not _ _ _ _ hpost
  · intro pre' d' rest' hU hd'
    by_contra hlt
    have := hleft pre' ('D' :: d' :: rest') hU (by omega)
    rw [(diameter_matchHere _ _).2 ⟨d', rest', rfl, hd', rfl⟩] at this
    cases this

theorem includes_trans (U a b : JSString) (hab : includes a b = true)
    (h : includes U a = true) : includes U b = true := by
  simp only [includes, decide_eq_true_eq] at *
  exact List.IsInfix.trans hab h

theorem fallback_eq_band (U : JSString) :
    (if includes U "50".toList || includes U "DN50".toList then (50 : JSNumber)
      else if includes U "75".toList || includes U "DN75".toList then 75
      else if includes U "110".toList || includes U "DN110".toList then 110
      else 50) = diameterBand U := by
  have h50 : includes U "DN50".toList = true → includes U "50".toList = true :=
    includes_trans U _ _ (by decide)
  have h75 : includes U "DN75".toList = true → includes U "75".toList = true :=
    includes_trans U _ _ (by decide)
  have h110 : includes U "DN110".toList = true → includes U "110".toList = true :=
    includes_trans U _ _ (by decide)
  unfold diameterBand
  cases a : includes U "50".toList <;> cases b : includes U "75".toList <;>
    cases c : includes U "110".toList <;>
    cases a' : includes U "DN50".toList <;> cases b' : includes U "DN75".toList <;>
    cases c' : includes U "DN110".toList <;>
    simp_all

/-- C8: `estimateBlockDiameter` returns the number of the first `D<number>` token of the
upper-cased name when there is one, and otherwise 50, 75 or 110 by the first of the bands
`50`, `75`, `110` the upper-cased name contains, with default 50. -/
theorem estimateBlockDiameter_token_or_band (rt : Runtime) (blockName : JSString) :
    (HasDToken (rt.toUpperCase blockName) →
      ∃ pre ds post, FirstDToken (rt.toUpperCase blockName) pre ds post
        ∧ estimateBlockDiameter rt blockName = rt.ofNat (digitsValue ds))
    ∧ (¬ HasDToken (rt.toUpperCase blockName) →
        estimateBlockDiameter rt blockName = diameterBand (rt.toUpperCase blockName))
    ∧ estimateBlockDiameter refRuntime "BEND-D75".toList = 75
    ∧ estimateBlockDiameter refRuntime "Tee 110/50 d032x".toList = 32
    ∧ estimateBlockDiameter refRuntime "VALVE-110".toList = 110
    ∧ estimateBlockDiameter refRuntime "ELBOW".toList = 50 := by
  refine ⟨?_, ?_, by decide, by decide, by decide, by decide⟩
  · intro htok
    cases he : RegExp.exec false diameterPattern (rt.toUpperCase blockName) with
    | none => exact absurd htok (exec_diameter_none _ he)
    | some m =>
      obtain ⟨pre, ds, post, hfirst, rfl⟩ := exec_diameter_some _ _ he
      refine ⟨pre, ds, post, hfirst, ?_⟩
      simp [estimateBlockDiameter, he]
  · intro hno
    cases he : RegExp.exec false diameterPattern (rt.toUpperCase blockName) with
    | none =>
      simp only [estimateBlockDiameter, he]
      exact fallback_eq_band _
    | some m =>
      exfalso
      apply hno
      obtain ⟨pre, ds, post, ⟨hU, hne, hd, -, -⟩, -⟩ := exec_diameter_some _ _ he
      cases ds with
      | nil => exact absurd rfl hne
      | cons d ds' =>
        exact ⟨pre, d, ds' ++ post, by rw [hU]; simp, hd d (List.mem_cons_self _ _)⟩

end BlockProcessor

/-! ## Canonical diameters and subtypes -/

/-- C7, as stated, fails: a circle of radius 10 passes `isValidFitting` and gets diameter
20, and the block name `BEND-D200` gets diameter 200; neither is 50, 75 or 110. -/
theorem estimators_leave_canonical_set :
    CADProcessor.isValidFitting smallCircle = true
    ∧ CADProcessor.estimateFittingDiameter refRuntime smallCircle = 20
    ∧ (20 : JSNumber) ∉ canonicalDiameters
    ∧ BlockProcessor.estimateBlockDiameter refRuntime "BEND-D200".toList = 200
    ∧ (200 : JSNumber) ∉ canonicalDiameters := by
  refine ⟨by decide, ?_, by decide, by decide, by decide⟩
  simp only [CADProcessor.estimateFittingDiameter, smallCircle, toNumber, refRuntime, exactMul,
    ofNat_eq_fin]
  norm_num

/-- C7, amended: `estimatePipeDiameter` always returns 50, 75 or 110, and
`estimateBlockDiameter` does so whenever the upper-cased name has no `D<number>` token;
with a token it returns the parsed number as it is, and `estimateFittingDiameter` returns
twice the radius as it is. -/
theorem estimators_canonical_or_raw (rt : Runtime) :
    (∀ polyline : Entity, CADProcessor.estimatePipeDiameter polyline ∈ canonicalDiameters)
    ∧ (∀ blockName : JSString, ¬ HasDToken (rt.toUpperCase blockName) →
        BlockProcessor.estimateBlockDiameter rt blockName ∈ canonicalDiameters)
    ∧ (∀ blockName : JSString, HasDToken (rt.toUpperCase blockName) →
        ∃ pre ds post, FirstDToken (rt.toUpperCase blockName) pre ds post
          ∧ BlockProcessor.estimateBlockDiameter rt blockName = rt.ofNat (digitsValue ds))
    ∧ (∀ (circle : Entity) (r : ℚ),
        CADProcessor.estimateFittingDiameter refRuntime { circle with radius := some (fin r) }
          = fin (r * 2)) := by
  refine ⟨?_, ?_, ?_, ?_⟩
  · intro polyline
    unfold CADProcessor.estimatePipeDiameter canonicalDiameters
    split
    · simp
    · split <;> simp
  · intro blockName hno
    cases he : RegExp.exec false BlockProcessor.diameterPattern (rt.toUpperCase blockName) with
    | none =>
      simp only [BlockProcessor.estimateBlockDiameter, he]
      rw [BlockProcessor.fallback_eq_band]
      unfold diameterBand canonicalDiameters
      split
      · simp
      · split
        · simp
        · split <;> simp
    | some m =>
      exfalso
      apply hno
      obtain ⟨pre, ds, post, ⟨hU, hne, hd, -, -⟩, -⟩ :=
        BlockProcessor.exec_diameter_some _ _ he
      cases ds with
      | nil => exact absurd rfl hne
      | cons d ds' =>
        exact ⟨pre, d, ds' ++ post, by rw [hU]; simp, hd d (List.mem_cons_self _ _)⟩
  · intro blockName htok
    cases he : RegExp.exec false BlockProcessor.diameterPattern (rt.toUpperCase blockName) with
    | none => exact absurd htok (BlockProcessor.exec_diameter_none _ he)
    | some m =>
      obtain ⟨pre, ds, post, hfirst, rfl⟩ := BlockProcessor.exec_diameter_some _ _ he
      refine ⟨pre, ds, post, hfirst, ?_⟩
      simp [BlockProcessor.estimateBlockDiameter, he]
  · intro circle r
    simp [CADProcessor.estimateFittingDiameter, toNumber, refRuntime, exactMul, ofNat_eq_fin]

theorem firstKeyword_mem (U : JSString) (table : List (JSString × JSString)) (v : JSString)
    (h : BlockProcessor.firstKeyword U table = some v) : v ∈ table.map Prod.snd := by
  induction table with
  | nil => cases h
  | cons kv rest ih =>
    obtain ⟨key, value⟩ := kv
    simp only [BlockProcessor.firstKeyword] at h
    split at h
    · simp only [Option.some.injEq] at h
      simp [h]
    · simp [ih h]

theorem blockSubtype_mem (rt : Runtime) (blockName t : JSString)
    (h : BlockProcessor.determineFittingType rt BlockProcessor.constructor blockName = some t) :
    t ∈ blockSubtypes := by
  unfold BlockProcessor.determineFittingType at h
  cases hk : BlockProcessor.firstKeyword (rt.toUpperCase blockName)
      BlockProcessor.constructor.fittingTypes with
  | some v =>
    simp only [hk, Option.some.injEq] at h
    subst h
    exact firstKeyword_mem _ _ _ hk
  | none =>
    simp only [hk] at h
    split at h
    · simp only [Option.some.injEq] at h; subst h; decide
    · split at h
      · simp only [Option.some.injEq] at h; subst h; decide
      · split at h
        · simp only [Option.some.injEq] at h; subst h; decide
        · cases h

/-- C10, as stated, fails: the block name `TEE-D50` is given subtype `tee` and a circle of
radius 60 is given subtype `elbow`; neither is among bend, branch, coupling, reducer,
straight-run. -/
theorem subtype_outside_specified_set :
    BlockProcessor.determineFittingType refRuntime BlockProcessor.constructor "TEE-D50".toList
      = some "tee".toList
    ∧ "tee".toList ∉ specifiedSubtypes
    ∧ CADProcessor.determineFittingType largeCircle = "elbow".toList
    ∧ "elbow".toList ∉ specifiedSubtypes := by
  refine ⟨by decide, by decide, by decide, by decide⟩

/-- C10, amended: every subtype the block estimator assigns is one of bend, branch,
coupling, reducer, tee, elbow, and every subtype the circle estimator assigns is one of
elbow, tee, coupling. -/
theorem subtype_in_code_vocabulary (rt : Runtime) :
    (∀ blockName t : JSString,
      BlockProcessor.determineFittingType rt BlockProcessor.constructor blockName = some t →
        t ∈ blockSubtypes)
    ∧ (∀ circle : Entity, CADProcessor.determineFittingType circle ∈ circleSubtypes) := by
  refine ⟨fun blockName t h => blockSubtype_mem rt blockName t h, ?_⟩
  intro circle
  unfold CADProcessor.determineFittingType
  split
  · decide
  · split <;> decide

/-! ## Block fittings -/

namespace BlockProcessor

theorem forall₂_mem_left {α β : Type} {R : α → β → Prop} {l₁ : List α} {l₂ : List β}
    (h : List.Forall₂ R l₁ l₂) {a : α} (ha : a ∈ l₁) : ∃ b, b ∈ l₂ ∧ R a b := by
  induction h with
  | nil => cases ha
  | cons hr _ ih =>
    rcases List.mem_cons.1 ha with rfl | ha
    · exact ⟨_, List.mem_cons_self _ _, hr⟩
    · obtain ⟨b, hb, hab⟩ := ih ha
      exact ⟨b, List.mem_cons_of_mem _ hb, hab⟩

theorem processBlock_unrecognised (rt : Runtime) (block : Entity)
    (h : recognised rt block = false) : processBlock rt constructor block = .ok none := by
  unfold recognised at h
  unfold processBlock
  cases hd : determineFittingType rt constructor (block.blockName.getD []) with
  | none => simp only [hd]
  | some t => rw [hd] at h; cases h

theorem processBlock_recognised (rt : Runtime) (block : Entity) (layer : JSString)
    (h : recognised rt block = true) (hl : block.layer = some layer) :
    ∃ f, processBlock rt constructor block = .ok (some f) ∧ FittingOf rt f block
      ∧ f.fittingType ∈ blockSubtypes := by
  unfold recognised at h
  cases hd : determineFittingType rt constructor (block.blockName.getD []) with
  | none => rw [hd] at h; cases h
  | some t =>
    have hmem := blockSubtype_mem rt _ _ hd
    cases t with
    | nil => exact absurd hmem (by decide)
    | cons c cs =>
      unfold processBlock
      simp only [hd, hl, extractShaftNumber]
      cases RegExp.exec true shaftPattern layer <;>
        exact ⟨_, rfl, ⟨rfl, hd, hl.symm, rfl⟩, hmem⟩

theorem processBlockFittingsLoop_spec (rt : Runtime) (blocks : List Entity) :
    (∀ b ∈ blocks, recognised rt b = true → b.layer ≠ none) →
    ∀ acc : List BlockFitting,
      ∃ fs, processBlockFittingsLoop rt constructor blocks acc = .ok (acc ++ fs)
        ∧ List.Forall₂ (FittingOf rt) fs (blocks.filter (recognised rt))
        ∧ ∀ f ∈ fs, f.fittingType ∈ blockSubtypes := by
  induction blocks with
  | nil =>
    intro _ acc
    exact ⟨[], by simp [processBlockFittingsLoop], by simp, by simp⟩
  | cons b rest ih =>
    intro hl acc
    have hrest : ∀ b' ∈ rest, recognised rt b' = true → b'.layer ≠ none :=
      fun b' hb' => hl b' (List.mem_cons_of_mem _ hb')
    cases hr : recognised rt b
    · obtain ⟨fs, h1, h2, h3⟩ := ih hrest acc
      refine ⟨fs, ?_, ?_, h3⟩
      · simp only [processBlockFittingsLoop, processBlock_unrecognised rt b hr, h1]
      · simpa [List.filter_cons, hr] using h2
    · have hsome := hl b (List.mem_cons_self _ _) hr
      obtain ⟨layer, hlayer⟩ := Option.ne_none_iff_exists'.1 hsome
      obtain ⟨f, hf, hof, hmem⟩ := processBlock_recognised rt b layer hr hlayer
      obtain ⟨fs, h1, h2, h3⟩ := ih hrest (acc ++ [f])
      refine ⟨f :: fs, ?_, ?_, ?_⟩
      · simp only [processBlockFittingsLoop, hf, h1, List.append_assoc, List.singleton_append]
      · simp only [List.filter_cons, hr, if_true]
        exact List.Forall₂.cons hof h2
      · intro f' hf'
        rcases List.mem_cons.1 hf' with rfl | hf'
        · exact hmem
        · exact h3 f' hf'

/-- C9: for blocks that carry a layer, `processBlockFittings` returns exactly one fitting
for each block whose name yields a subtype, in input order, and nothing for the other
blocks; each fitting has the subtype its block name yields, which is never empty. -/
theorem processBlockFittings_recognised_only (rt : Runtime) (blocks : List Entity)
    (hlayer : ∀ b ∈ blocks, recognised rt b = true → b.layer ≠ none) :
    ∃ fs, processBlockFittings rt constructor blocks = .ok fs
      ∧ List.Forall₂ (FittingOf rt) fs (blocks.filter (recognised rt))
      ∧ fs.length = (blocks.filter (recognised rt)).length
      ∧ ∀ f ∈ fs, f.fittingType ≠ [] ∧ f.fittingType ∈ blockSubtypes
          ∧ determineFittingType rt constructor f.blockName = some f.fittingType := by
  obtain ⟨fs, h1, h2, h3⟩ := processBlockFittingsLoop_spec rt blocks hlayer []
  refine ⟨fs, by simpa [processBlockFittings] using h1, h2, h2.length_eq, ?_⟩
  intro f hf
  refine ⟨?_, h3 f hf, ?_⟩
  · intro he
    have := h3 f hf
    rw [he] at this
    exact absurd this (by decide)
  · obtain ⟨b, -, hb⟩ := forall₂_mem_left h2 hf
    rw [hb.1]; exact hb.2.1

end BlockProcessor

/-! ## Circle fittings -/

namespace CADProcessor

/-- C11: `estimateFittingDiameter` returns the product of the radius and 2 (for a finite
radius `q`, exactly `2 * q`), and `determineFittingType` returns `elbow` for a radius
above 50, `tee` for a radius above 25 and at most 50, `coupling` for a radius of at most
25; radius 50 gives `tee` and radius 25 gives `coupling`. -/
theorem fitting_diameter_and_bands (rt : Runtime) (circle : Entity) (r : JSNumber) :
    estimateFittingDiameter rt { circle with radius := some r } = rt.mul r 2
    ∧ (∀ q : ℚ, estimateFittingDiameter refRuntime { circle with radius := some (fin q) }
        = fin (2 * q))
    ∧ (r.gt 50 = true →
        determineFittingType { circle with radius := some r } = "elbow".toList)
    ∧ (r.gt 25 = true → r.le 50 = true →
        determineFittingType { circle with radius := some r } = "tee".toList)
    ∧ (r.le 25 = true →
        determineFittingType { circle with radius := some r } = "coupling".toList)
    ∧ determineFittingType { circle with radius := some 50 } = "tee".toList
    ∧ determineFittingType { circle with radius := some 25 } = "coupling".toList := by
  refine ⟨rfl, ?_, ?_, ?_, ?_, ?_, ?_⟩
  · intro q
    simp only [estimateFittingDiameter, toNumber, ofNat_eq_fin, refMul_fin]
    norm_num [mul_comm]
  · intro h
    simp [determineFittingType, toNumber, h]
  · intro h1 h2
    have h3 : r.gt 50 = false := not_gt_of_le r 50 50 le_rfl h2
    simp [determineFittingType, toNumber, h1, h3]
  · intro h
    have h3 : r.gt 50 = false := not_gt_of_le r 25 50 (by norm_num) h
    have h4 : r.gt 25 = false := not_gt_of_le r 25 25 le_rfl h
    simp [determineFittingType, toNumber, h3, h4]
  · have h1 : (50 : JSNumber).gt 50 = false := by decide
    have h2 : (50 : JSNumber).gt 25 = true := by decide
    simp [determineFittingType, toNumber, h1, h2]
  · have h1 : (25 : JSNumber).gt 50 = false := by decide
    have h2 : (25 : JSNumber).gt 25 = false := by decide
    simp [determineFittingType, toNumber, h1, h2]

end CADProcessor

/-! ## Article numbers and descriptions of block fittings -/

namespace BlockProcessor

/-- The derived properties of a fitting returned by `processBlock`. -/
theorem processBlock_fields (rt : Runtime) (block : Entity) (f : BlockFitting)
    (h : processBlock rt constructor block = .ok (some f)) :
    determineFittingType rt constructor f.blockName = some f.fittingType
    ∧ f.diameter = estimateBlockDiameter rt f.blockName
    ∧ f.articleNo = getArticleNumber rt f.blockName f.fittingType
    ∧ f.description = getDescription rt f.blockName f.fittingType := by
  unfold processBlock at h
  cases hd : determineFittingType rt constructor (block.blockName.getD []) with
  | none => simp only [hd] at h; cases h
  | some t =>
    cases t with
    | nil => simp only [hd] at h; cases h
    | cons c cs =>
      simp only [hd] at h
      cases hs : extractShaftNumber block.layer with
      | error e => simp only [hs] at h; cases h
      | ok s =>
        simp only [hs, Except.ok.injEq, Option.some.injEq] at h
        subst h
        exact ⟨hd, rfl, rfl, rfl⟩

theorem lookup_cons_ite {α β : Type} [BEq α] [LawfulBEq α] [DecidableEq α] (k k' : α) (v : β)
    (rest : List (α × β)) :
    List.lookup k ((k', v) :: rest) = if k = k' then some v else List.lookup k rest := by
  by_cases h : k = k'
  · subst h; simp [List.lookup]
  · have : (k == k') = false := by simpa using h
    simp [List.lookup, this, h]

theorem articleRow_lookup_ne_nil (a b c : JSString) (ha : a ≠ []) (hb : b ≠ []) (hc : c ≠ [])
    (diameter : JSNumber) :
    (match List.lookup diameter [((50 : JSNumber), a), (75, b), (110, c)] with
      | some articleNo => articleNo
      | none => []) ≠ [] ↔ diameter ∈ canonicalDiameters := by
  unfold canonicalDiameters
  simp only [lookup_cons_ite, List.lookup_nil, List.mem_cons, List.mem_singleton,
    List.not_mem_nil, or_false]
  have n1 : ¬ ((75 : JSNumber) = 50) := by decide
  have n2 : ¬ ((110 : JSNumber) = 50) := by decide
  have n3 : ¬ ((110 : JSNumber) = 75) := by decide
  by_cases d1 : diameter = 50
  · simp [d1, ha]
  · by_cases d2 : diameter = 75
    · subst d2
      simp only [if_neg n1, if_true, or_true, true_or, iff_true]
      exact hb
    · by_cases d3 : diameter = 110
      · subst d3
        simp only [if_neg n2, if_neg n3, if_true, or_true, iff_true]
        exact hc
      · simp [d1, d2, d3]

theorem articleLookup_ne_nil (fittingType : JSString) (diameter : JSNumber) :
    (match (articleMap.lookup fittingType).bind (fun row => row.lookup diameter) with
      | some articleNo => articleNo
      | none => []) ≠ []
      ↔ fittingType ∈ articleSubtypes ∧ diameter ∈ canonicalDiameters := by
  unfold articleMap articleSubtypes
  simp only [lookup_cons_ite, List.lookup_nil, List.mem_cons, List.mem_singleton,
    List.not_mem_nil, or_false]
  by_cases h1 : fittingType = "bend".toList
  · simp only [h1, if_true, Option.some_bind, true_or, true_and]
    exact articleRow_lookup_ne_nil _ _ _ (by decide) (by decide) (by decide) diameter
  · by_cases h2 : fittingType = "branch".toList
    · simp only [h1, h2, if_true, if_false, Option.some_bind, true_or, or_true, true_and]
      exact articleRow_lookup_ne_nil _ _ _ (by decide) (by decide) (by decide) diameter
    · by_cases h3 : fittingType = "coupling".toList
      · simp only [h1, h2, h3, if_true, if_false, Option.some_bind, or_true, true_and]
        exact articleRow_lookup_ne_nil _ _ _ (by decide) (by decide) (by decide) diameter
      · simp only [h1, h2, h3, if_false, Option.none_bind, or_self, false_and, iff_false,
          not_not]

theorem getArticleNumber_eq (rt : Runtime) (blockName fittingType : JSString) :
    getArticleNumber rt blockName fittingType
      = articleFor fittingType (estimateBlockDiameter rt blockName) := rfl

theorem getDescription_eq (rt : Runtime) (blockName fittingType : JSString) :
    getDescription rt blockName fittingType
      = subtypeText fittingType ++ rt.numberToString (estimateBlockDiameter rt blockName) := by
  simp only [getDescription, lookup_cons_ite, List.lookup_nil, subtypeText]
  by_cases h1 : fittingType = "bend".toList
  · simp only [if_pos h1]
  · by_cases h2 : fittingType = "branch".toList
    · simp only [if_neg h1, if_pos h2]
    · by_cases h3 : fittingType = "coupling".toList
      · simp only [if_neg h1, if_neg h2, if_pos h3]
      · by_cases h4 : fittingType = "reducer".toList
        · simp only [if_neg h1, if_neg h2, if_neg h3, if_pos h4]
        · by_cases h5 : fittingType = "tee".toList
          · simp only [if_neg h1, if_neg h2, if_neg h3, if_neg h4, if_pos h5]
          · by_cases h6 : fittingType = "elbow".toList
            · simp only [if_neg h1, if_neg h2, if_neg h3, if_neg h4, if_neg h5, if_pos h6]
            · simp only [if_neg h1, if_neg h2, if_neg h3, if_neg h4, if_neg h5, if_neg h6,
                List.append_assoc]

/-- C12, as stated, fails: the block `TEE-D50` yields a fitting of subtype `tee`, for which
`articleMap` has no row, and its `articleNo` is the empty string. -/
theorem tee_fitting_has_blank_article :
    ∃ f, processBlock refRuntime constructor teeBlock = .ok (some f)
      ∧ f.fittingType = "tee".toList ∧ f.articleNo = [] := by
  obtain ⟨f, hf, hof, -⟩ :=
    processBlock_recognised refRuntime teeBlock "GEB-SH-01".toList (by decide) rfl
  obtain ⟨hname, htype, -, -⟩ := hof
  obtain ⟨-, -, hart, -⟩ := processBlock_fields refRuntime teeBlock f hf
  have hname' : f.blockName = "TEE-D50".toList := hname
  have ht : f.fittingType = "tee".toList := by
    have e : determineFittingType refRuntime constructor (teeBlock.blockName.getD [])
        = some "tee".toList := by decide
    rw [e] at htype
    exact (Option.some.inj htype).symm
  refine ⟨f, hf, ht, ?_⟩
  rw [hart, hname', ht]
  decide

/-- C12, amended: a fitting returned by `processBlock` has a non-empty `articleNo` exactly
when its subtype is bend, branch or coupling and its estimated diameter is 50, 75 or 110;
every other fitting is returned with the empty `articleNo`. -/
theorem articleNo_nonempty_iff (rt : Runtime) (block : Entity) (f : BlockFitting)
    (h : processBlock rt constructor block = .ok (some f)) :
    f.articleNo ≠ [] ↔ f.fittingType ∈ articleSubtypes ∧ f.diameter ∈ canonicalDiameters := by
  obtain ⟨-, hdia, hart, -⟩ := processBlock_fields rt block f h
  rw [hart, hdia, getArticleNumber_eq]
  exact articleLookup_ne_nil _ _

end BlockProcessor
namespace BlockProcessor

/-- C14, as stated, fails: the block `BEND-D50` yields article `361.045.16.1` with the
description `bend PE-HD 45G d50`, while the catalog describes that article as
`bend PE-HD 45G d50 L4.5`. -/
theorem bend_description_differs_from_catalog :
    ∃ f, processBlock refRuntime constructor bendBlock = .ok (some f)
      ∧ f.articleNo = "361.045.16.1".toList
      ∧ f.description = "bend PE-HD 45G d50".toList
      ∧ SanitaryObjectsCollections.getDescriptionByArticleNumber f.articleNo
          = "bend PE-HD 45G d50 L4.5".toList
      ∧ f.description ≠ SanitaryObjectsCollections.getDescriptionByArticleNumber f.articleNo := by
  obtain ⟨f, hf, hof, -⟩ :=
    processBlock_recognised refRuntime bendBlock "GEB-SH-01".toList (by decide) rfl
  obtain ⟨hname, htype, -, -⟩ := hof
  obtain ⟨-, -, hart, hdesc⟩ := processBlock_fields refRuntime bendBlock f hf
  have hname' : f.blockName = "BEND-D50".toList := hname
  have ht : f.fittingType = "bend".toList := by
    have e : determineFittingType refRuntime constructor (bendBlock.blockName.getD [])
        = some "bend".toList := by decide
    rw [e] at htype
    exact (Option.some.inj htype).symm
  have ha : f.articleNo = "361.045.16.1".toList := by
    rw [hart, hname', ht]; decide
  have hd : f.description = "bend PE-HD 45G d50".toList := by
    rw [hdesc, hname', ht]; decide
  refine ⟨f, hf, ha, hd, ?_, ?_⟩
  · rw [ha]; decide
  · rw [ha, hd]; decide

theorem articleFor_cases (fittingType : JSString) (diameter : JSNumber)
    (h : articleFor fittingType diameter ≠ []) :
    (fittingType = "bend".toList ∨ fittingType = "branch".toList
      ∨ fittingType = "coupling".toList)
    ∧ (diameter = 50 ∨ diameter = 75 ∨ diameter = 110) := by
  have := (articleLookup_ne_nil fittingType diameter).1 h
  simpa [articleSubtypes, canonicalDiameters] using this

/-- C14, amended: the description of a fitting returned by `processBlock` is the fixed text
of its subtype followed by the printed estimated diameter; it is not read from the
catalog.  For a fitting with a non-empty `articleNo` (on a host that prints 50, 75 and 110
as decimal digits) it coincides with the catalog description of the article only for a
coupling of diameter 50. -/
theorem description_is_synthesized (rt : Runtime) (hprint : PrintsCanonical rt)
    (block : Entity) (f : BlockFitting)
    (h : processBlock rt constructor block = .ok (some f)) :
    f.description = subtypeText f.fittingType ++ rt.numberToString f.diameter
    ∧ (f.articleNo ≠ [] →
        (f.description = SanitaryObjectsCollections.getDescriptionByArticleNumber f.articleNo
          ↔ f.fittingType = "coupling".toList ∧ f.diameter = 50)) := by
  obtain ⟨-, hdia, hart, hdesc⟩ := processBlock_fields rt block f h
  have hd : f.description = subtypeText f.fittingType ++ rt.numberToString f.diameter := by
    rw [hdesc, hdia, getDescription_eq]
  refine ⟨hd, ?_⟩
  intro hne
  have hart' : f.articleNo = articleFor f.fittingType f.diameter := by
    rw [hart, hdia, getArticleNumber_eq]
  rw [hart'] at hne
  obtain ⟨hp50, hp75, hp110⟩ := hprint
  obtain ⟨ht, hdiam⟩ := articleFor_cases _ _ hne
  rw [hd, hart']
  rcases ht with ht | ht | ht <;> rcases hdiam with hdm | hdm | hdm <;>
    rw [ht, hdm] <;>
    first
      | (rw [hp50]; decide)
      | (rw [hp75]; decide)
      | (rw [hp110]; decide)

end BlockProcessor

/-! ## The catalog -/

namespace SanitaryObjectsCollections

/-- C15, as stated, fails: the article numbers of the rows of each collection are not
pairwise distinct; `361.000.16.0` occurs in rows 5 and 6 of the wash-basin collection and
`363.000.16.0` in rows 2 and 3 of the urinals collection (counting from 1). -/
theorem collections_repeat_article_numbers :
    ¬ (getWashBasinCollection.map articleNumber).Nodup
    ∧ ¬ (getUrinalsCollection.map articleNumber).Nodup
    ∧ (getWashBasinCollection.map articleNumber)[4]? = some "361.000.16.0".toList
    ∧ (getWashBasinCollection.map articleNumber)[5]? = some "361.000.16.0".toList
    ∧ (getUrinalsCollection.map articleNumber)[1]? = some "363.000.16.0".toList
    ∧ (getUrinalsCollection.map articleNumber)[2]? = some "363.000.16.0".toList := by
  refine ⟨by decide, by decide, by decide, by decide, by decide, by decide⟩

/-- C15, amended: in each collection, and in the whole catalog, two rows with the same
article number are the same row text, so the article number determines unit and
description; the distinct rows of a collection have pairwise distinct article numbers.
The pipe row occurs twice in each collection. -/
theorem article_number_determines_row :
    (∀ r₁ ∈ getWashBasinCollection, ∀ r₂ ∈ getWashBasinCollection,
      articleNumber r₁ = articleNumber r₂ → r₁ = r₂)
    ∧ (∀ r₁ ∈ getUrinalsCollection, ∀ r₂ ∈ getUrinalsCollection,
      articleNumber r₁ = articleNumber r₂ → r₁ = r₂)
    ∧ (∀ r₁ ∈ allCollections, ∀ r₂ ∈ allCollections,
      articleNumber r₁ = articleNumber r₂ → r₁ = r₂)
    ∧ (getWashBasinCollection.dedup.map articleNumber).Nodup
    ∧ (getUrinalsCollection.dedup.map articleNumber).Nodup
    ∧ getWashBasinCollection.count "361.000.16.0|M|pipe PE-HD d50x3 L5000".toList = 2
    ∧ getUrinalsCollection.count "363.000.16.0|M|pipe PE-HD d56x3 L500".toList = 2 := by
  refine ⟨by decide, by decide, by decide, by decide, by decide, by decide, by decide⟩

theorem startsWith_bar_iff (s : JSString) (hs : '|' ∉ s) :
    ∀ row : JSString,
      startsWith row (s ++ "|".toList) = true ↔ articleNumber row = s ∧ '|' ∈ row := by
  induction s with
  | nil =>
    intro row
    cases row with
    | nil => simp [startsWith, articleNumber, List.isPrefixOf]
    | cons c rest =>
      by_cases hc : c = '|'
      · subst hc
        simp [startsWith, articleNumber, List.isPrefixOf]
      · have hc' : ¬ ('|' = c) := fun e => hc e.symm
        simp [startsWith, articleNumber, List.isPrefixOf, hc, hc', List.takeWhile_cons]
  | cons a s ih =>
    intro row
    have ha : ¬ (a = '|') := fun e => hs (by rw [e]; exact List.mem_cons_self _ _)
    have hs' : '|' ∉ s := fun h => hs (List.mem_cons_of_mem _ h)
    cases row with
    | nil => simp [startsWith, articleNumber, List.isPrefixOf]
    | cons c rest =>
      have ih' := ih hs' rest
      simp only [startsWith, articleNumber] at ih'
      by_cases hc : c = '|'
      · subst hc
        have : ¬ (a = '|') := ha
        simp [startsWith, articleNumber, List.isPrefixOf, List.takeWhile_cons, this]
      · have hc' : ¬ ('|' = c) := fun e => hc e.symm
        simp only [startsWith, articleNumber, List.cons_append, List.isPrefixOf,
          Bool.and_eq_true, beq_iff_eq, List.takeWhile_cons, bne_iff_ne, ne_eq, hc,
          not_false_eq_true, decide_True, if_true, List.cons.injEq, List.mem_cons, hc',
          false_or]
        have e : (s.append "|".toList).isPrefixOf rest = (s ++ "|".toList).isPrefixOf rest :=
          rfl
        rw [e, ih']
        constructor
        · rintro ⟨rfl, h1, h2⟩; exact ⟨⟨rfl, h1⟩, h2⟩
        · rintro ⟨⟨rfl, h1⟩, h2⟩; exact ⟨rfl, h1, h2⟩

theorem find?_congr_mem {α : Type} (p q : α → Bool) (l : List α)
    (h : ∀ a ∈ l, p a = q a) : l.find? p = l.find? q := by
  induction l with
  | nil => rfl
  | cons a as ih =>
    have ha := h a (List.mem_cons_self _ _)
    have ih' := ih (fun b hb => h b (List.mem_cons_of_mem _ hb))
    simp only [List.find?_cons, ha, ih']

theorem catalog_rows_have_bar : ∀ row ∈ allCollections, '|' ∈ row := by decide

theorem catalog_rows_third_field :
    ∀ row ∈ allCollections,
      (if row = [] then []
        else if 3 ≤ (split '|' row).length then (split '|' row).getD 2 [] else [])
        = descriptionField row := by decide

theorem checkFromCollection_iff (collection : List JSString) (s : JSString)
    (hs : '|' ∉ s) :
    checkFromCollection collection s = true
      ↔ ∃ row ∈ collection, articleNumber row = s ∧ '|' ∈ row := by
  simp only [checkFromCollection, List.any_eq_true, startsWith_bar_iff s hs]

/-- C16, as stated, fails: the string `361.000.16.0|M` extends beyond an article number and
is the article number of no row, yet `checkFromCollection` accepts it and
`getDescriptionByArticleNumber` returns a description for it. -/
theorem lookup_matches_beyond_article_number :
    checkFromCollection getWashBasinCollection "361.000.16.0|M".toList = true
    ∧ ¬ (∃ row ∈ getWashBasinCollection, articleNumber row = "361.000.16.0|M".toList)
    ∧ getDescriptionByArticleNumber "361.000.16.0|M".toList = "pipe PE-HD d50x3 L5000".toList
    ∧ ¬ (∃ row ∈ allCollections, articleNumber row = "361.000.16.0|M".toList) := by
  refine ⟨by decide, by decide, by decide, by decide⟩

/-- C16, amended: for a string `s` that contains no `|`, `checkFromCollection` is true
exactly when some row that has a `|` has article number `s` (in the two catalog
collections every row has one), and `getDescriptionByArticleNumber` returns the description
field of the first catalog row whose article number is `s`, and the empty string when there
is none; a proper part or an extension of an article number without `|` does not match. -/
theorem lookup_exact_for_bar_free (s : JSString) (hs : '|' ∉ s) :
    (∀ collection : List JSString,
      checkFromCollection collection s = true
        ↔ ∃ row ∈ collection, articleNumber row = s ∧ '|' ∈ row)
    ∧ (checkFromCollection getWashBasinCollection s = true
        ↔ ∃ row ∈ getWashBasinCollection, articleNumber row = s)
    ∧ (checkFromCollection getUrinalsCollection s = true
        ↔ ∃ row ∈ getUrinalsCollection, articleNumber row = s)
    ∧ getDescriptionByArticleNumber s
        = (match allCollections.find? (fun row => articleNumber row == s) with
            | some row => descriptionField row
            | none => [])
    ∧ checkFromCollection getWashBasinCollection "361.000.16".toList = false
    ∧ checkFromCollection getWashBasinCollection "361.000.16.0.1".toList = false
    ∧ getDescriptionByArticleNumber "361.000.16".toList = [] := by
  have hw : ∀ row ∈ getWashBasinCollection, '|' ∈ row := by decide
  have hu : ∀ row ∈ getUrinalsCollection, '|' ∈ row := by decide
  refine ⟨fun collection => checkFromCollection_iff collection s hs, ?_, ?_, ?_,
    by decide, by decide, by decide⟩
  · rw [checkFromCollection_iff _ s hs]
    constructor
    · rintro ⟨row, hm, h1, -⟩; exact ⟨row, hm, h1⟩
    · rintro ⟨row, hm, h1⟩; exact ⟨row, hm, h1, hw row hm⟩
  · rw [checkFromCollection_iff _ s hs]
    constructor
    · rintro ⟨row, hm, h1, -⟩; exact ⟨row, hm, h1⟩
    · rintro ⟨row, hm, h1⟩; exact ⟨row, hm, h1, hu row hm⟩
  · have hfind : allCollections.find? (fun item => startsWith item (s ++ "|".toList))
        = allCollections.find? (fun row => articleNumber row == s) := by
      apply find?_congr_mem
      intro row hrow
      have h1 := startsWith_bar_iff s hs row
      have h2 := catalog_rows_have_bar row hrow
      by_cases h3 : articleNumber row = s
      · rw [h1.2 ⟨h3, h2⟩]; simp [h3]
      · have : startsWith row (s ++ "|".toList) = false := by
          cases hsw : startsWith row (s ++ "|".toList)
          · rfl
          · exact absurd (h1.1 hsw).1 h3
        rw [this]; simp [h3]
    have hdef : getDescriptionByArticleNumber s
        = (match allCollections.find? (fun item => startsWith item (s ++ "|".toList)) with
            | some found =>
              if found = [] then []
              else if 3 ≤ (split '|' found).length then (split '|' found).getD 2 [] else []
            | none => []) := rfl
    rw [hdef, hfind]
    cases hf : allCollections.find? (fun row => articleNumber row == s) with
    | none => rfl
    | some row =>
      exact catalog_rows_third_field row (List.mem_of_find?_eq_some hf)

end SanitaryObjectsCollections

/-! ## Pipes -/

namespace MaterialCalculator

theorem processPipes_mem (polylines : List ProcessedPolyline) (pipe : Pipe)
    (h : pipe ∈ processPipes polylines) :
    ∃ p ∈ polylines,
      (p.diameter.strictEq 50 = true
          ∧ pipe = Pipe.create "articleNo50".toList "Pipe 50mm".toList 50 p.length none)
      ∨ (p.diameter.strictEq 75 = true
          ∧ pipe = Pipe.create "articleNo75".toList "Pipe 75mm".toList 75 p.length none)
      ∨ (p.diameter.strictEq 110 = true
          ∧ pipe = Pipe.create "articleNo110".toList "Pipe 110mm".toList 110 p.length none) := by
  simp only [processPipes, List.mem_append, List.mem_map, List.mem_filter] at h
  rcases h with (⟨p, ⟨hp, hd⟩, rfl⟩ | ⟨p, ⟨hp, hd⟩, rfl⟩) | ⟨p, ⟨hp, hd⟩, rfl⟩
  · exact ⟨p, hp, Or.inl ⟨hd, rfl⟩⟩
  · exact ⟨p, hp, Or.inr (Or.inl ⟨hd, rfl⟩)⟩
  · exact ⟨p, hp, Or.inr (Or.inr ⟨hd, rfl⟩)⟩

theorem create_articleNo (articleNo description : JSString) (diameter length : JSNumber)
    (shaftNumber : Option JSString) :
    (Pipe.create articleNo description diameter length shaftNumber).articleNo = articleNo :=
  rfl

/-- C13, as stated, fails: for a polyline of diameter 50 `processPipes` returns a pipe
with the article number `articleNo50`, which no catalog row carries:
`getDescriptionByArticleNumber` returns the empty string for it and `checkFromCollection`
is false on both collections. -/
theorem pipe_article_not_in_catalog :
    processPipes [runOnShaft2]
      = [Pipe.create "articleNo50".toList "Pipe 50mm".toList 50 10 none]
    ∧ (Pipe.create "articleNo50".toList "Pipe 50mm".toList 50 10 none).articleNo
        = "articleNo50".toList
    ∧ SanitaryObjectsCollections.getDescriptionByArticleNumber "articleNo50".toList = []
    ∧ SanitaryObjectsCollections.checkFromCollection
        SanitaryObjectsCollections.getWashBasinCollection "articleNo50".toList = false
    ∧ SanitaryObjectsCollections.checkFromCollection
        SanitaryObjectsCollections.getUrinalsCollection "articleNo50".toList = false := by
  refine ⟨by decide, rfl, by decide, by decide, by decide⟩

/-- C13, amended: every pipe returned by `processPipes` carries one of the three non-empty
placeholder article numbers `articleNo50`, `articleNo75`, `articleNo110`; none of them
resolves to a catalog entry. -/
theorem pipe_article_is_placeholder (polylines : List ProcessedPolyline) :
    ∀ pipe ∈ processPipes polylines,
      pipe.articleNo ∈ pipeArticlePlaceholders
      ∧ pipe.articleNo ≠ []
      ∧ SanitaryObjectsCollections.getDescriptionByArticleNumber pipe.articleNo = []
      ∧ SanitaryObjectsCollections.checkFromCollection
          SanitaryObjectsCollections.getWashBasinCollection pipe.articleNo = false
      ∧ SanitaryObjectsCollections.checkFromCollection
          SanitaryObjectsCollections.getUrinalsCollection pipe.articleNo = false := by
  intro pipe hpipe
  obtain ⟨p, -, h⟩ := processPipes_mem polylines pipe hpipe
  rcases h with ⟨-, rfl⟩ | ⟨-, rfl⟩ | ⟨-, rfl⟩ <;>
    (simp only [create_articleNo]
     exact ⟨by decide, by decide, by decide, by decide, by decide⟩)

/-- C18: `processPipes` calls `Pipe.create` without the shaft argument, so every pipe has
the empty `shaftNumber`, whatever the shaft of its polyline; unit `M` and the quantity
(the polyline length) are set as claimed.  The run of length 10 on shaft `SH-02` becomes
a pipe with `shaftNumber` empty. -/
theorem processPipes_drops_shaft :
    (∀ polylines : List ProcessedPolyline,
      (processPipes polylines).all
        (fun pipe => decide (pipe.shaftNumber = [] ∧ pipe.unitType = "M".toList
          ∧ pipe.quantity = pipe.length)) = true)
    ∧ runOnShaft2.shaftNumber = "SH-02".toList
    ∧ (processPipes [runOnShaft2]).map (fun pipe => pipe.shaftNumber) = [[]]
    ∧ (processPipes [runOnShaft2]).map (fun pipe => pipe.unitType) = ["M".toList]
    ∧ (processPipes [runOnShaft2]).map (fun pipe => pipe.quantity) = [runOnShaft2.length] := by
  refine ⟨?_, rfl, by decide, by decide, by decide⟩
  intro polylines
  rw [List.all_eq_true]
  intro pipe hpipe
  obtain ⟨p, -, h⟩ := processPipes_mem polylines pipe hpipe
  rcases h with ⟨-, rfl⟩ | ⟨-, rfl⟩ | ⟨-, rfl⟩ <;> simp [Pipe.create, Pipe.constructor]

end MaterialCalculator

/-! ## Objects used as dictionaries -/

theorem lookup_append_single {β : Type} (o : JSObject β) (k k' : JSString) (v : β) :
    (o ++ [(k, v)]).lookup k'
      = match o.lookup k' with
        | some x => some x
        | none => if k' = k then some v else none := by
  induction o with
  | nil => simp [BlockProcessor.lookup_cons_ite]
  | cons kv rest ih =>
    obtain ⟨k1, v1⟩ := kv
    simp only [List.cons_append, BlockProcessor.lookup_cons_ite]
    by_cases h : k' = k1
    · simp [h]
    · simp only [if_neg h, ih]

theorem lookup_map_replace {β : Type} (o : JSObject β) (k k' : JSString) (v : β) :
    (o.map (fun kv => if kv.1 = k then (k, v) else kv)).lookup k'
      = if k' = k then (if (o.lookup k).isSome then some v else none) else o.lookup k' := by
  induction o with
  | nil =>
    simp only [List.map_nil, List.lookup_nil, Option.isSome_none, Bool.false_eq_true,
      if_false, ite_self]
  | cons kv rest ih =>
    obtain ⟨k1, v1⟩ := kv
    simp only [List.map_cons]
    by_cases h1 : k1 = k
    · subst h1
      rw [if_pos rfl, BlockProcessor.lookup_cons_ite, BlockProcessor.lookup_cons_ite,
        BlockProcessor.lookup_cons_ite, if_pos rfl]
      by_cases h : k' = k1
      · rw [if_pos h, if_pos h]; rfl
      · rw [if_neg h, if_neg h, if_neg h, ih, if_neg h]
    · rw [if_neg h1, BlockProcessor.lookup_cons_ite, BlockProcessor.lookup_cons_ite,
        BlockProcessor.lookup_cons_ite, if_neg (fun e : k = k1 => h1 e.symm), ih]
      by_cases h : k' = k1
      · have h2 : ¬ (k' = k) := fun e => h1 (by rw [← h, e])
        rw [if_pos h, if_neg h2, if_pos h]
      · rw [if_neg h, if_neg h]

theorem lookup_setProp {β : Type} (o : JSObject β) (k k' : JSString) (v : β) :
    (setProp o k v).lookup k' = if k' = k then some v else o.lookup k' := by
  unfold setProp
  by_cases h : (o.lookup k).isSome = true
  · rw [if_pos h, lookup_map_replace]
    by_cases h2 : k' = k
    · rw [if_pos h2, if_pos h, if_pos h2]
    · rw [if_neg h2, if_neg h2]
  · rw [if_neg h, lookup_append_single]
    have hn : o.lookup k = none := by
      cases hl : o.lookup k with
      | none => rfl
      | some x => rw [hl] at h; exact absurd rfl h
    by_cases h2 : k' = k
    · subst h2; rw [hn, if_pos rfl]
    · simp only [if_neg h2]
      cases o.lookup k' <;> rfl

theorem mem_keys_iff {β : Type} (o : JSObject β) (k : JSString) :
    k ∈ keys o ↔ (o.lookup k).isSome = true := by
  induction o with
  | nil =>
    simp only [keys, List.map_nil, List.not_mem_nil, List.lookup_nil, Option.isSome_none,
      Bool.false_eq_true]
  | cons kv rest ih =>
    obtain ⟨k1, v1⟩ := kv
    simp only [keys, List.map_cons, List.mem_cons] at ih ⊢
    rw [BlockProcessor.lookup_cons_ite]
    by_cases h : k = k1
    · rw [if_pos h]
      exact ⟨fun _ => rfl, fun _ => Or.inl h⟩
    · rw [if_neg h]
      constructor
      · rintro (e | e)
        · exact absurd e h
        · exact ih.1 e
      · intro e; exact Or.inr (ih.2 e)

theorem keys_map_replace {β : Type} (o : JSObject β) (k : JSString) (v : β) :
    keys (o.map (fun kv => if kv.1 = k then (k, v) else kv)) = keys o := by
  induction o with
  | nil => rfl
  | cons kv rest ih =>
    obtain ⟨k1, v1⟩ := kv
    simp only [keys, List.map_cons] at ih ⊢
    rw [ih]
    by_cases h1 : k1 = k
    · rw [if_pos h1, h1]
    · rw [if_neg h1]

theorem keys_setProp {β : Type} (o : JSObject β) (k : JSString) (v : β) :
    keys (setProp o k v) = if (o.lookup k).isSome then keys o else keys o ++ [k] := by
  unfold setProp
  by_cases h : (o.lookup k).isSome = true
  · rw [if_pos h, if_pos h, keys_map_replace]
  · rw [if_neg h, if_neg h]
    simp only [keys, List.map_append, List.map_cons, List.map_nil]

theorem nodup_keys_setProp {β : Type} (o : JSObject β) (k : JSString) (v : β)
    (h : (keys o).Nodup) : (keys (setProp o k v)).Nodup := by
  rw [keys_setProp]
  by_cases hs : (o.lookup k).isSome = true
  · rw [if_pos hs]; exact h
  · rw [if_neg hs]
    have hk : k ∉ keys o := fun hm => hs ((mem_keys_iff o k).1 hm)
    exact List.Nodup.append h (List.nodup_singleton k) (by
      intro a ha hb
      rw [List.mem_singleton] at hb
      subst hb
      exact hk ha)

/-! ## Grouping by shaft -/

namespace SelectionSetUtil

theorem itemsOfShaft_cons (e : Pipe) (rest : List Pipe) (key : JSString) :
    itemsOfShaft (e :: rest) key
      = if shaftKey e = key then e :: itemsOfShaft rest key else itemsOfShaft rest key := by
  simp only [itemsOfShaft, List.filter_cons, decide_eq_true_eq]

theorem groupByShaftLoop_spec (entities : List Pipe) :
    (∀ e ∈ entities, shaftKey e ∉ objectPrototypeKeys) →
    ∀ grouped : JSObject (List Pipe), (keys grouped).Nodup →
      ∃ g, groupByShaftLoop entities grouped = .ok g ∧ (keys g).Nodup
        ∧ ∀ key, g.lookup key = extendGroup (grouped.lookup key) (itemsOfShaft entities key) := by
  induction entities with
  | nil =>
    intro _ grouped hnd
    refine ⟨grouped, rfl, hnd, ?_⟩
    intro key
    cases h : grouped.lookup key <;> simp [extendGroup, itemsOfShaft]
  | cons e rest ih =>
    intro hk grouped hnd
    have hrest : ∀ e' ∈ rest, shaftKey e' ∉ objectPrototypeKeys :=
      fun e' he' => hk e' (List.mem_cons_of_mem _ he')
    have he : shaftKey e ∉ objectPrototypeKeys := hk e (List.mem_cons_self _ _)
    have hstep : ∀ grouped1 : JSObject (List Pipe),
        groupByShaftLoop (e :: rest) grouped = groupByShaftLoop rest grouped1 →
        (keys grouped1).Nodup →
        (∀ key, grouped1.lookup key
          = if key = shaftKey e then extendGroup (grouped.lookup key) [e]
            else grouped.lookup key) →
        ∃ g, groupByShaftLoop (e :: rest) grouped = .ok g ∧ (keys g).Nodup
          ∧ ∀ key, g.lookup key
              = extendGroup (grouped.lookup key) (itemsOfShaft (e :: rest) key) := by
      intro grouped1 hloop hnd1 hl1
      obtain ⟨g, hg, hgn, hgl⟩ := ih hrest grouped1 hnd1
      refine ⟨g, by rw [hloop, hg], hgn, ?_⟩
      intro key
      rw [hgl key, hl1 key, itemsOfShaft_cons]
      by_cases hkey : key = shaftKey e
      · rw [if_pos hkey, if_pos hkey.symm]
        cases h : grouped.lookup key with
        | none => simp [extendGroup]
        | some items => simp [extendGroup]
      · rw [if_neg hkey, if_neg (fun h => hkey h.symm)]
    cases hl : grouped.lookup (shaftKey e) with
    | some items =>
      apply hstep (setProp grouped (shaftKey e) (items ++ [e]))
      · simp only [groupByShaftLoop]
        have : (if e.shaftNumber = [] then "UNKNOWN".toList else e.shaftNumber) = shaftKey e :=
          rfl
        rw [this, hl]
      · exact nodup_keys_setProp _ _ _ hnd
      · intro key
        rw [lookup_setProp]
        by_cases hkey : key = shaftKey e
        · rw [if_pos hkey, if_pos hkey, hkey, hl]; rfl
        · rw [if_neg hkey, if_neg hkey]
    | none =>
      apply hstep (setProp grouped (shaftKey e) [e])
      · simp only [groupByShaftLoop]
        have : (if e.shaftNumber = [] then "UNKNOWN".toList else e.shaftNumber) = shaftKey e :=
          rfl
        rw [this, hl, if_neg he]
      · exact nodup_keys_setProp _ _ _ hnd
      · intro key
        rw [lookup_setProp]
        by_cases hkey : key = shaftKey e
        · rw [if_pos hkey, if_pos hkey, hkey, hl]; rfl
        · rw [if_neg hkey, if_neg hkey]

theorem groupByShaft_lookup (entities : List Pipe)
    (hk : ∀ e ∈ entities, shaftKey e ∉ objectPrototypeKeys) :
    ∃ g, groupByShaft entities = .ok g ∧ (keys g).Nodup
      ∧ ∀ key, g.lookup key
          = if itemsOfShaft entities key = [] then none
            else some (itemsOfShaft entities key) := by
  obtain ⟨g, hg, hnd, hl⟩ := groupByShaftLoop_spec entities hk [] List.nodup_nil
  exact ⟨g, hg, hnd, fun key => by rw [hl key]; rfl⟩

end SelectionSetUtil

namespace SelectionSetUtil

/-- C17, as stated, fails: two pipe items of quantity 10 with the same article on shaft
`SH-02` stay two items of quantity 10 each; no item of quantity 20 is formed. -/
theorem groupByShaft_keeps_duplicates :
    groupByShaft [pipeItemA, pipeItemA] = .ok [("SH-02".toList, [pipeItemA, pipeItemA])]
    ∧ pipeItemA.articleNo = "361.000.16.0".toList
    ∧ pipeItemA.quantity = 10
    ∧ pipeItemA.quantity ≠ 20 := by
  refine ⟨by rfl, rfl, rfl, by decide⟩

/-- C17, amended: for materials whose shaft key is not the name of a property inherited
from `Object.prototype`, `groupByShaft` files every input item, unchanged and in input
order, under its shaft key (`shaftNumber`, or `UNKNOWN` when that is empty); a key is
present exactly when some item has it, and items with the same `articleNo` are not merged. -/
theorem groupByShaft_files_items (entities : List Pipe)
    (hk : ∀ e ∈ entities, shaftKey e ∉ objectPrototypeKeys) :
    ∃ g, groupByShaft entities = .ok g ∧ (keys g).Nodup
      ∧ (∀ key, key ∈ keys g ↔ ∃ e ∈ entities, shaftKey e = key)
      ∧ (∀ key, key ∈ keys g → g.lookup key = some (itemsOfShaft entities key)) := by
  obtain ⟨g, hg, hnd, hl⟩ := groupByShaft_lookup entities hk
  have hmem : ∀ key, key ∈ keys g ↔ ∃ e ∈ entities, shaftKey e = key := by
    intro key
    rw [mem_keys_iff, hl key]
    by_cases h : itemsOfShaft entities key = []
    · rw [if_pos h]
      simp only [Option.isSome_none, Bool.false_eq_true, false_iff]
      rintro ⟨e, he, hkey⟩
      have : e ∈ itemsOfShaft entities key := by
        simp only [itemsOfShaft, List.mem_filter, decide_eq_true_eq]
        exact ⟨he, hkey⟩
      rw [h] at this
      cases this
    · rw [if_neg h]
      simp only [Option.isSome_some, true_iff]
      obtain ⟨e, he⟩ := List.exists_mem_of_ne_nil _ h
      simp only [itemsOfShaft, List.mem_filter, decide_eq_true_eq] at he
      exact ⟨e, he.1, he.2⟩
  refine ⟨g, hg, hnd, hmem, ?_⟩
  · intro key hkey
    rw [hl key]
    obtain ⟨e, he, hke⟩ := (hmem key).1 hkey
    have : itemsOfShaft entities key ≠ [] := by
      intro h
      have hin : e ∈ itemsOfShaft entities key := by
        simp only [itemsOfShaft, List.mem_filter, decide_eq_true_eq]
        exact ⟨he, hke⟩
      rw [h] at hin
      cases hin
    rw [if_neg this]

/-- C19, as stated, fails: the lists `[A, B]` and `[B, A]` of two items on shaft `SH-02`
are permutations of each other, but `groupByShaft` returns `[A, B]` for the first and
`[B, A]` for the second under the key `SH-02`. -/
theorem groupByShaft_depends_on_order :
    List.Perm [pipeItemA, pipeItemB] [pipeItemB, pipeItemA]
    ∧ groupByShaft [pipeItemA, pipeItemB] = .ok [("SH-02".toList, [pipeItemA, pipeItemB])]
    ∧ groupByShaft [pipeItemB, pipeItemA] = .ok [("SH-02".toList, [pipeItemB, pipeItemA])]
    ∧ [pipeItemA, pipeItemB] ≠ [pipeItemB, pipeItemA] := by
  refine ⟨List.Perm.swap _ _ _, by rfl, by rfl, by decide⟩

/-- C19, amended: for two lists of materials that are permutations of each other (with
shaft keys that are not names of properties inherited from `Object.prototype`),
`groupByShaft` returns mappings with the same shaft keys, and under each key the two item
lists are permutations of each other; each list keeps the order of its own input. -/
theorem groupByShaft_perm (entities entities' : List Pipe)
    (hperm : List.Perm entities entities')
    (hk : ∀ e ∈ entities, shaftKey e ∉ objectPrototypeKeys) :
    ∃ g g', groupByShaft entities = .ok g ∧ groupByShaft entities' = .ok g'
      ∧ (∀ key, key ∈ keys g ↔ key ∈ keys g')
      ∧ (∀ key items items', g.lookup key = some items → g'.lookup key = some items' →
          List.Perm items items')
      ∧ (∀ key, key ∈ keys g → g.lookup key = some (itemsOfShaft entities key)
          ∧ g'.lookup key = some (itemsOfShaft entities' key)) := by
  have hk' : ∀ e ∈ entities', shaftKey e ∉ objectPrototypeKeys :=
    fun e he => hk e (hperm.mem_iff.2 he)
  obtain ⟨g, hg, -, hl⟩ := groupByShaft_lookup entities hk
  obtain ⟨g', hg', -, hl'⟩ := groupByShaft_lookup entities' hk'
  have hpf : ∀ key, List.Perm (itemsOfShaft entities key) (itemsOfShaft entities' key) :=
    fun key => hperm.filter _
  have hnil : ∀ key, itemsOfShaft entities key = [] ↔ itemsOfShaft entities' key = [] := by
    intro key
    constructor
    · intro h; have := hpf key; rw [h] at this; exact this.nil_eq.symm
    · intro h; have := hpf key; rw [h] at this; exact this.eq_nil
  refine ⟨g, g', hg, hg', ?_, ?_, ?_⟩
  · intro key
    rw [mem_keys_iff, mem_keys_iff, hl key, hl' key]
    by_cases h : itemsOfShaft entities key = []
    · rw [if_pos h, if_pos ((hnil key).1 h)]
    · rw [if_neg h, if_neg (fun h' => h ((hnil key).2 h'))]
      simp
  · intro key items items' h1 h2
    rw [hl key] at h1
    rw [hl' key] at h2
    by_cases h : itemsOfShaft entities key = []
    · rw [if_pos h] at h1; cases h1
    · rw [if_neg h] at h1
      rw [if_neg (fun h' => h ((hnil key).2 h'))] at h2
      cases h1; cases h2
      exact hpf key
  · intro key hkey
    rw [mem_keys_iff, hl key] at hkey
    by_cases h : itemsOfShaft entities key = []
    · rw [if_pos h] at hkey; cases hkey
    · rw [hl key, hl' key, if_neg h, if_neg (fun h' => h ((hnil key).2 h'))]
      exact ⟨rfl, rfl⟩

end SelectionSetUtil

/-! ## Quantities by shaft -/

namespace SelectionSetUtil

theorem truthy_or_zero (v : ℚ) : (if (fin v).truthy then fin v else (0 : JSNumber)) = fin v := by
  by_cases h : v = 0
  · subst h
    have : (fin (0 : ℚ)).truthy = false := by simp [JSNumber.truthy]
    rw [this]
    simp only [Bool.false_eq_true, if_false, ofNat_eq_fin]
    norm_num
  · have : (fin v).truthy = true := by simp [JSNumber.truthy, h]
    rw [this]; rfl

theorem materialsOfShaft_cons (m : Pipe) (rest : List Pipe) (key : JSString) :
    materialsOfShaft (m :: rest) key
      = if m.shaftNumber = key then m :: materialsOfShaft rest key
        else materialsOfShaft rest key := by
  simp only [materialsOfShaft, List.filter_cons, decide_eq_true_eq]

theorem calculateQuantitiesLoop_spec (rt : Runtime) (hadd : ExactAdd rt)
    (materials : List Pipe) :
    FiniteQuantities materials →
    (∀ m ∈ materials, m.shaftNumber ∉ objectPrototypeKeys) →
    ∀ result : JSObject JSNumber, (keys result).Nodup →
      (∀ key v, result.lookup key = some v → ∃ q : ℚ, v = fin q) →
      ∃ res, calculateQuantitiesLoop rt materials result = some res ∧ (keys res).Nodup
        ∧ ∀ key, res.lookup key
            = extendTotal (result.lookup key) (materialsOfShaft materials key) := by
  induction materials with
  | nil =>
    intro _ _ result hnd _
    exact ⟨result, rfl, hnd, fun key => by simp [extendTotal, materialsOfShaft]⟩
  | cons m rest ih =>
    intro hq hk result hnd hfin
    have hqrest : FiniteQuantities rest := fun m' hm' => hq m' (List.mem_cons_of_mem _ hm')
    have hkrest : ∀ m' ∈ rest, m'.shaftNumber ∉ objectPrototypeKeys :=
      fun m' hm' => hk m' (List.mem_cons_of_mem _ hm')
    have hm : m.shaftNumber ∉ objectPrototypeKeys := hk m (List.mem_cons_self _ _)
    obtain ⟨q, hmq⟩ := hq m (List.mem_cons_self _ _)
    -- the state after the first material
    have hstep : ∀ v0 : ℚ,
        (match result.lookup m.shaftNumber with
          | some v => quantityValue v
          | none => 0) = v0 →
        calculateQuantitiesLoop rt (m :: rest) result
          = calculateQuantitiesLoop rt rest (setProp result m.shaftNumber (fin (v0 + q))) →
        ∃ res, calculateQuantitiesLoop rt (m :: rest) result = some res ∧ (keys res).Nodup
          ∧ ∀ key, res.lookup key
              = extendTotal (result.lookup key) (materialsOfShaft (m :: rest) key) := by
      intro v0 hv0 hloop
      have hfin1 : ∀ key v, (setProp result m.shaftNumber (fin (v0 + q))).lookup key = some v →
          ∃ q' : ℚ, v = fin q' := by
        intro key v hv
        rw [lookup_setProp] at hv
        by_cases hkey : key = m.shaftNumber
        · rw [if_pos hkey] at hv
          exact ⟨v0 + q, (Option.some.inj hv).symm⟩
        · rw [if_neg hkey] at hv
          exact hfin key v hv
      obtain ⟨res, hres, hrn, hrl⟩ :=
        ih hqrest hkrest _ (nodup_keys_setProp _ _ _ hnd) hfin1
      refine ⟨res, by rw [hloop, hres], hrn, ?_⟩
      intro key
      rw [hrl key, lookup_setProp, materialsOfShaft_cons]
      by_cases hkey : key = m.shaftNumber
      · subst hkey
        rw [if_pos rfl, if_pos rfl]
        unfold extendTotal
        by_cases hr : materialsOfShaft rest m.shaftNumber = []
        · rw [if_pos hr, if_neg (List.cons_ne_nil _ _), hv0, hr]
          simp [hmq, quantityValue]
        · rw [if_neg hr, if_neg (List.cons_ne_nil _ _), hv0]
          simp only [quantityValue, List.map_cons, List.sum_cons, hmq]
          congr 2
          ring
      · rw [if_neg hkey, if_neg (fun h => hkey h.symm)]
    cases hl : result.lookup m.shaftNumber with
    | some value =>
      obtain ⟨v, rfl⟩ := hfin _ _ hl
      apply hstep v
      · rw [hl]; rfl
      · simp only [calculateQuantitiesLoop, hl, truthy_or_zero, hmq, hadd v q]
    | none =>
      apply hstep 0
      · rw [hl]
      · have h0 : rt.add 0 (fin q) = fin (0 + q) := hadd 0 q
        simp only [calculateQuantitiesLoop, hl, if_neg hm, hmq, h0]

theorem calculateQuantitiesByShaft_lookup (rt : Runtime) (hadd : ExactAdd rt)
    (materials : List Pipe) (hq : FiniteQuantities materials)
    (hk : ∀ m ∈ materials, m.shaftNumber ∉ objectPrototypeKeys) :
    ∃ result, calculateQuantitiesByShaft rt materials = some result ∧ (keys result).Nodup
      ∧ ∀ key, result.lookup key
          = if materialsOfShaft materials key = [] then none
            else some (fin (shaftTotal materials key)) := by
  obtain ⟨res, hres, hnd, hl⟩ :=
    calculateQuantitiesLoop_spec rt hadd materials hq hk [] List.nodup_nil
      (fun key v h => by cases h)
  refine ⟨res, hres, hnd, ?_⟩
  intro key
  rw [hl key]
  simp only [extendTotal, List.lookup_nil, zero_add, shaftTotal, materialsOfShaft]

theorem materialsOfShaft_eq_nil_iff (materials : List Pipe) (key : JSString) :
    materialsOfShaft materials key = [] ↔ ¬ ∃ m ∈ materials, m.shaftNumber = key := by
  simp only [materialsOfShaft, List.filter_eq_nil_iff, decide_eq_true_eq, not_exists, not_and]

/-- C20: on a host that adds finite numbers exactly, for materials with finite quantities
whose shaft numbers are not names of properties inherited from `Object.prototype`,
`calculateQuantitiesByShaft` returns a mapping whose keys are exactly the shaft numbers
occurring in the list, each once, and whose value at a key is the sum of the quantities
of the materials with that shaft number; every permutation of the list gives the same
value at every key. -/
theorem calculateQuantitiesByShaft_sums (rt : Runtime) (hadd : ExactAdd rt)
    (materials : List Pipe) (hq : FiniteQuantities materials)
    (hk : ∀ m ∈ materials, m.shaftNumber ∉ objectPrototypeKeys) :
    ∃ result, calculateQuantitiesByShaft rt materials = some result ∧ (keys result).Nodup
      ∧ (∀ key, key ∈ keys result ↔ ∃ m ∈ materials, m.shaftNumber = key)
      ∧ (∀ key, key ∈ keys result →
          result.lookup key = some (fin (shaftTotal materials key)))
      ∧ (∀ materials' : List Pipe, List.Perm materials materials' →
          ∃ result', calculateQuantitiesByShaft rt materials' = some result'
            ∧ (∀ key, key ∈ keys result' ↔ key ∈ keys result)
            ∧ ∀ key, result'.lookup key = result.lookup key) := by
  obtain ⟨result, hres, hnd, hl⟩ := calculateQuantitiesByShaft_lookup rt hadd materials hq hk
  have hmem : ∀ key, key ∈ keys result ↔ ∃ m ∈ materials, m.shaftNumber = key := by
    intro key
    rw [mem_keys_iff, hl key]
    by_cases h : materialsOfShaft materials key = []
    · rw [if_pos h]
      simp only [Option.isSome_none, Bool.false_eq_true, false_iff]
      exact (materialsOfShaft_eq_nil_iff materials key).1 h
    · rw [if_neg h]
      simp only [Option.isSome_some, true_iff]
      by_contra hc
      exact h ((materialsOfShaft_eq_nil_iff materials key).2 hc)
  refine ⟨result, hres, hnd, hmem, ?_, ?_⟩
  · intro key hkey
    rw [hl key]
    have : materialsOfShaft materials key ≠ [] := by
      intro h
      exact (materialsOfShaft_eq_nil_iff materials key).1 h ((hmem key).1 hkey)
    rw [if_neg this]
  · intro materials' hperm
    have hq' : FiniteQuantities materials' := fun m hm => hq m (hperm.mem_iff.2 hm)
    have hk' : ∀ m ∈ materials', m.shaftNumber ∉ objectPrototypeKeys :=
      fun m hm => hk m (hperm.mem_iff.2 hm)
    obtain ⟨result', hres', -, hl'⟩ :=
      calculateQuantitiesByShaft_lookup rt hadd materials' hq' hk'
    have hpf : ∀ key, List.Perm (materialsOfShaft materials key)
        (materialsOfShaft materials' key) := fun key => hperm.filter _
    have hsame : ∀ key, result'.lookup key = result.lookup key := by
      intro key
      rw [hl key, hl' key]
      have hsum : shaftTotal materials' key = shaftTotal materials key :=
        (((hpf key).map _).sum_eq).symm
      by_cases h : materialsOfShaft materials key = []
      · have h' : materialsOfShaft materials' key = [] := by
          have := hpf key; rw [h] at this; exact this.nil_eq.symm
        rw [if_pos h, if_pos h']
      · have h' : materialsOfShaft materials' key ≠ [] := by
          intro e; have := hpf key; rw [e] at this; exact h this.eq_nil
        rw [if_neg h, if_neg h', hsum]
    refine ⟨result', hres', ?_, hsame⟩
    intro key
    rw [mem_keys_iff, mem_keys_iff, hsame key]

end SelectionSetUtil

/-! ## Totals -/

theorem map_replace_of_not_mem {β : Type} (o : JSObject β) (k : JSString) (v : β)
    (h : k ∉ keys o) : o.map (fun kv => if kv.1 = k then (k, v) else kv) = o := by
  induction o with
  | nil => rfl
  | cons kv rest ih =>
    obtain ⟨k1, v1⟩ := kv
    simp only [keys, List.map_cons, List.mem_cons, not_or] at h ih ⊢
    rw [ih h.2, if_neg (fun e : k1 = k => h.1 e.symm)]

theorem sumOfValues_map_replace (o : JSObject JSNumber) (k : JSString) (v old : JSNumber)
    (hnd : (keys o).Nodup) (hl : o.lookup k = some old) :
    sumOfValues (o.map (fun kv => if kv.1 = k then (k, v) else kv))
      = sumOfValues o - quantityValue old + quantityValue v := by
  induction o with
  | nil => cases hl
  | cons kv rest ih =>
    obtain ⟨k1, v1⟩ := kv
    have hnd' : k1 ∉ keys rest ∧ (keys rest).Nodup := by
      simpa only [keys, List.map_cons, List.nodup_cons] using hnd
    rw [BlockProcessor.lookup_cons_ite] at hl
    by_cases h : k = k1
    · rw [if_pos h] at hl
      have hv : v1 = old := Option.some.inj hl
      subst hv
      subst h
      rw [List.map_cons, map_replace_of_not_mem rest k v hnd'.1, if_pos rfl]
      simp only [sumOfValues, List.map_cons, List.sum_cons]
      ring
    · rw [if_neg h] at hl
      rw [List.map_cons, if_neg (fun e : k1 = k => h e.symm)]
      have := ih hnd'.2 hl
      simp only [sumOfValues, List.map_cons, List.sum_cons] at this ⊢
      rw [this]
      ring

theorem sumOfValues_setProp (o : JSObject JSNumber) (k : JSString) (v : JSNumber)
    (hnd : (keys o).Nodup) :
    sumOfValues (setProp o k v)
      = sumOfValues o
        - (match o.lookup k with
            | some old => quantityValue old
            | none => 0)
        + quantityValue v := by
  unfold setProp
  cases hl : o.lookup k with
  | none =>
    simp only [Option.isSome_none, Bool.false_eq_true, if_false, sumOfValues, List.map_append,
      List.map_cons, List.map_nil, List.sum_append, List.sum_cons, List.sum_nil]
    ring
  | some old =>
    simp only [Option.isSome_some, if_true]
    exact sumOfValues_map_replace o k v old hnd hl

namespace SelectionSetUtil

theorem calculateQuantitiesLoop_cons (rt : Runtime) (hadd : ExactAdd rt) (m : Pipe)
    (rest : List Pipe) (result : JSObject JSNumber) (q : ℚ) (hmq : m.quantity = fin q)
    (hm : m.shaftNumber ∉ objectPrototypeKeys)
    (hfin : ∀ key v, result.lookup key = some v → ∃ q' : ℚ, v = fin q') :
    calculateQuantitiesLoop rt (m :: rest) result
      = calculateQuantitiesLoop rt rest
          (setProp result m.shaftNumber
            (fin ((match result.lookup m.shaftNumber with
                    | some v => quantityValue v
                    | none => 0) + q))) := by
  cases hl : result.lookup m.shaftNumber with
  | some value =>
    obtain ⟨v, rfl⟩ := hfin _ _ hl
    simp only [calculateQuantitiesLoop, hl, truthy_or_zero, hmq, hadd v q, quantityValue]
  | none =>
    have h0 : rt.add 0 (fin q) = fin (0 + q) := hadd 0 q
    simp only [calculateQuantitiesLoop, hl, if_neg hm, hmq, h0]

theorem calculateQuantitiesLoop_total (rt : Runtime) (hadd : ExactAdd rt)
    (materials : List Pipe) :
    FiniteQuantities materials →
    (∀ m ∈ materials, m.shaftNumber ∉ objectPrototypeKeys) →
    ∀ result : JSObject JSNumber, (keys result).Nodup →
      (∀ key v, result.lookup key = some v → ∃ q : ℚ, v = fin q) →
      ∃ res, calculateQuantitiesLoop rt materials result = some res
        ∧ sumOfValues res = sumOfValues result + grandTotal materials := by
  induction materials with
  | nil =>
    intro _ _ result _ _
    exact ⟨result, rfl, by simp [grandTotal]⟩
  | cons m rest ih =>
    intro hq hk result hnd hfin
    have hqrest : FiniteQuantities rest := fun m' hm' => hq m' (List.mem_cons_of_mem _ hm')
    have hkrest : ∀ m' ∈ rest, m'.shaftNumber ∉ objectPrototypeKeys :=
      fun m' hm' => hk m' (List.mem_cons_of_mem _ hm')
    have hm : m.shaftNumber ∉ objectPrototypeKeys := hk m (List.mem_cons_self _ _)
    obtain ⟨q, hmq⟩ := hq m (List.mem_cons_self _ _)
    have hfin1 : ∀ key v,
        (setProp result m.shaftNumber
          (fin ((match result.lookup m.shaftNumber with
                  | some v => quantityValue v
                  | none => 0) + q))).lookup key = some v →
        ∃ q' : ℚ, v = fin q' := by
      intro key v hv
      rw [lookup_setProp] at hv
      by_cases hkey : key = m.shaftNumber
      · rw [if_pos hkey] at hv
        exact ⟨_, (Option.some.inj hv).symm⟩
      · rw [if_neg hkey] at hv
        exact hfin key v hv
    obtain ⟨res, hres, hsum⟩ := ih hqrest hkrest _ (nodup_keys_setProp _ _ _ hnd) hfin1
    refine ⟨res, ?_, ?_⟩
    · rw [calculateQuantitiesLoop_cons rt hadd m rest result q hmq hm hfin, hres]
    · rw [hsum, sumOfValues_setProp _ _ _ hnd]
      simp only [grandTotal, List.map_cons, List.sum_cons, hmq, quantityValue]
      ring

end SelectionSetUtil

namespace Api

theorem totalQuantity_foldl (rt : Runtime) (hadd : ExactAdd rt) (materials : List Pipe) :
    FiniteQuantities materials → ∀ a : ℚ,
      materials.foldl
          (fun sum m => rt.add sum (if m.quantity.truthy then m.quantity else 0)) (fin a)
        = fin (a + grandTotal materials) := by
  induction materials with
  | nil => intro _ a; simp [grandTotal]
  | cons m rest ih =>
    intro hq a
    obtain ⟨q, hmq⟩ := hq m (List.mem_cons_self _ _)
    have hqrest : FiniteQuantities rest := fun m' hm' => hq m' (List.mem_cons_of_mem _ hm')
    rw [List.foldl_cons, hmq, SelectionSetUtil.truthy_or_zero, hadd a q, ih hqrest]
    simp only [grandTotal, List.map_cons, List.sum_cons, hmq, quantityValue]
    congr 1
    ring

theorem totalQuantity_eq (rt : Runtime) (hadd : ExactAdd rt) (materials : List Pipe)
    (hq : FiniteQuantities materials) :
    totalQuantity rt materials = fin (grandTotal materials) := by
  have h := totalQuantity_foldl rt hadd materials hq 0
  rw [zero_add] at h
  exact h

end Api

namespace SelectionSetUtil

/-- C21: on a host that adds finite numbers exactly, for materials with finite quantities
(whose shaft numbers are not names of properties inherited from `Object.prototype`), the
values of the mapping `calculateQuantitiesByShaft` returns are finite numbers whose sum
over all keys equals the `totalQuantity` the export route computes by its own `reduce`,
which is the sum of the quantities of the whole list; materials with an empty shaft number
are counted, under the key `''`. -/
theorem quantitiesByShaft_sum_to_totalQuantity (rt : Runtime) (hadd : ExactAdd rt)
    (materials : List Pipe) (hq : FiniteQuantities materials)
    (hk : ∀ m ∈ materials, m.shaftNumber ∉ objectPrototypeKeys) :
    ∃ result, calculateQuantitiesByShaft rt materials = some result
      ∧ (∀ key ∈ keys result, ∃ q : ℚ, result.lookup key = some (fin q))
      ∧ Api.totalQuantity rt materials = fin (sumOfValues result)
      ∧ sumOfValues result = grandTotal materials
      ∧ ((∃ m ∈ materials, m.shaftNumber = []) →
          result.lookup [] = some (fin (shaftTotal materials []))) := by
  obtain ⟨result, hres, -, hl⟩ := calculateQuantitiesByShaft_lookup rt hadd materials hq hk
  obtain ⟨res, hres', hsum⟩ :=
    calculateQuantitiesLoop_total rt hadd materials hq hk [] List.nodup_nil
      (fun key v h => by cases h)
  have heq : res = result := by
    have : some res = some result := by rw [← hres', ← hres]; rfl
    exact Option.some.inj this
  subst heq
  have hsum' : sumOfValues res = grandTotal materials := by
    rw [hsum]; simp [sumOfValues]
  refine ⟨res, hres, ?_, ?_, hsum', ?_⟩
  · intro key hkey
    rw [mem_keys_iff, hl key] at hkey
    by_cases h : materialsOfShaft materials key = []
    · rw [if_pos h] at hkey; cases hkey
    · rw [hl key, if_neg h]; exact ⟨_, rfl⟩
  · rw [Api.totalQuantity_eq rt hadd materials hq, hsum']
  · intro hex
    rw [hl []]
    have : materialsOfShaft materials [] ≠ [] := by
      intro h
      exact (materialsOfShaft_eq_nil_iff materials []).1 h hex
    rw [if_neg this]

end SelectionSetUtil
namespace SelectionSetUtil

theorem shaftKey_not_inherited (m : Pipe) (h : m.shaftNumber ∉ objectPrototypeKeys) :
    shaftKey m ∉ objectPrototypeKeys := by
  unfold shaftKey
  by_cases he : m.shaftNumber = []
  · rw [if_pos he]; decide
  · rw [if_neg he]; exact h

/-- C22, as stated, fails: for the single material `unassignedPipe`, whose shaft number is
empty, the mapping of `calculateQuantitiesByShaft` has the entry `''` with its quantity 7,
while `groupByShaft` files it under `UNKNOWN`. -/
theorem empty_shaft_has_a_total :
    unassignedPipe.shaftNumber = []
    ∧ calculateQuantitiesByShaft refRuntime [unassignedPipe] = some [([], 7)]
    ∧ groupByShaft [unassignedPipe] = .ok [("UNKNOWN".toList, [unassignedPipe])] := by
  have h : calculateQuantitiesByShaft refRuntime [unassignedPipe] = some [([], fin (0 + 7))] := by
    rfl
  refine ⟨rfl, ?_, by rfl⟩
  rw [h, ofNat_eq_fin]
  norm_num

/-- C22, amended: materials with an empty shaft number are not excluded from the totals.
On a host that adds finite numbers exactly, for materials with finite quantities (whose
shaft numbers are not names of properties inherited from `Object.prototype`), when some
material has an empty shaft number `calculateQuantitiesByShaft` has the entry `''`, whose
value is the sum of the quantities of the materials with an empty shaft number, and
`groupByShaft` has the entry `UNKNOWN`, which lists the materials whose shaft number is
empty or `UNKNOWN`; no other entry of `groupByShaft` holds a material with an empty shaft
number. -/
theorem empty_shaft_summed_under_empty_key (rt : Runtime) (hadd : ExactAdd rt)
    (materials : List Pipe) (hq : FiniteQuantities materials)
    (hk : ∀ m ∈ materials, m.shaftNumber ∉ objectPrototypeKeys)
    (hempty : ∃ m ∈ materials, m.shaftNumber = []) :
    ∃ result g, calculateQuantitiesByShaft rt materials = some result
      ∧ groupByShaft materials = .ok g
      ∧ result.lookup [] = some (fin (shaftTotal materials []))
      ∧ g.lookup "UNKNOWN".toList = some (itemsOfShaft materials "UNKNOWN".toList)
      ∧ (∀ m ∈ materials, m ∈ itemsOfShaft materials "UNKNOWN".toList ↔
          m.shaftNumber = [] ∨ m.shaftNumber = "UNKNOWN".toList)
      ∧ (∀ key items, g.lookup key = some items → key ≠ "UNKNOWN".toList →
          ∀ m ∈ items, m.shaftNumber ≠ []) := by
  obtain ⟨result, hres, -, hl⟩ := calculateQuantitiesByShaft_lookup rt hadd materials hq hk
  obtain ⟨g, hg, -, hgl⟩ :=
    groupByShaft_lookup materials (fun e he => shaftKey_not_inherited e (hk e he))
  obtain ⟨m0, hm0, hm0e⟩ := hempty
  have hmem : ∀ m ∈ materials, m ∈ itemsOfShaft materials "UNKNOWN".toList ↔
      m.shaftNumber = [] ∨ m.shaftNumber = "UNKNOWN".toList := by
    intro m hm
    simp only [itemsOfShaft, List.mem_filter, decide_eq_true_eq, hm, true_and, shaftKey]
    by_cases he : m.shaftNumber = []
    · rw [if_pos he]; exact ⟨fun _ => Or.inl he, fun _ => rfl⟩
    · rw [if_neg he]; exact ⟨fun h => Or.inr h, fun h => h.resolve_left he⟩
  refine ⟨result, g, hres, hg, ?_, ?_, hmem, ?_⟩
  · rw [hl []]
    have : materialsOfShaft materials [] ≠ [] := by
      intro h
      exact (materialsOfShaft_eq_nil_iff materials []).1 h ⟨m0, hm0, hm0e⟩
    rw [if_neg this]
  · rw [hgl]
    have : itemsOfShaft materials "UNKNOWN".toList ≠ [] := by
      intro h
      have hin := (hmem m0 hm0).2 (Or.inl hm0e)
      rw [h] at hin
      cases hin
    rw [if_neg this]
  · intro key items hitems hkey m hm he
    rw [hgl key] at hitems
    by_cases h : itemsOfShaft materials key = []
    · rw [if_pos h] at hitems; cases hitems
    · rw [if_neg h] at hitems
      have : items = itemsOfShaft materials key := (Option.some.inj hitems).symm
      rw [this] at hm
      simp only [itemsOfShaft, List.mem_filter, decide_eq_true_eq, shaftKey] at hm
      rw [if_pos he] at hm
      exact hkey hm.2.symm

end SelectionSetUtil
/-! ## Validation -/

namespace ValidationUtils

theorem append_ite_nil (l : List JSString) (c : Bool) (m : JSString) :
    (if c then l ++ [m] else l) = l ++ (if c then [m] else []) := by
  cases c <;> simp

theorem validateRequiredSanitaryValues_errors (pipeSheet : PipeSheet)
    (hType : ValidPipeType pipeSheet) :
    (validateRequiredSanitaryValues pipeSheet).errors = diameterErrors pipeSheet := by
  have ht : stringTruthy pipeSheet.pipeType = true := by
    rcases hType with h | h <;> rw [h] <;> rfl
  have hv : (pipeSheet.pipeType = some "Sunken".toList
      ∨ pipeSheet.pipeType = some "Under Slung".toList) := hType
  unfold validateRequiredSanitaryValues
  simp only [ht, Bool.not_true, Bool.false_eq_true, if_false, if_pos hv, List.nil_append]
  simp only [diameterErrors, requiredDiameters, List.filter_cons, List.filter_nil]
  cases (toNumber pipeSheet.wcDia110).le 0 <;> cases (toNumber pipeSheet.washbasinDia50).le 0
    <;> cases (toNumber pipeSheet.mtDia110).le 0
    <;> cases (toNumber pipeSheet.collectorDia110).le 0 <;> rfl

theorem validateRequiredSanitaryValues_isValid_iff (pipeSheet : PipeSheet) :
    (validateRequiredSanitaryValues pipeSheet).isValid = true
      ↔ ValidPipeType pipeSheet
        ∧ (toNumber pipeSheet.wcDia110).le 0 = false
        ∧ (toNumber pipeSheet.washbasinDia50).le 0 = false
        ∧ (toNumber pipeSheet.mtDia110).le 0 = false
        ∧ (toNumber pipeSheet.collectorDia110).le 0 = false := by
  by_cases hv : ValidPipeType pipeSheet
  · have he := validateRequiredSanitaryValues_errors pipeSheet hv
    have hi : (validateRequiredSanitaryValues pipeSheet).isValid
        = decide ((validateRequiredSanitaryValues pipeSheet).errors.length = 0) := rfl
    rw [hi, he]
    simp only [diameterErrors, requiredDiameters, List.filter_cons, List.filter_nil]
    cases (toNumber pipeSheet.wcDia110).le 0 <;> cases (toNumber pipeSheet.washbasinDia50).le 0
      <;> cases (toNumber pipeSheet.mtDia110).le 0
      <;> cases (toNumber pipeSheet.collectorDia110).le 0 <;> simp [hv]
  · have hv' : ¬ (pipeSheet.pipeType = some "Sunken".toList
        ∨ pipeSheet.pipeType = some "Under Slung".toList) := hv
    constructor
    · intro h
      exfalso
      unfold validateRequiredSanitaryValues at h
      simp only [if_neg hv'] at h
      simp at h
    · intro h; exact absurd h.1 hv

/-- C23, the failing input: the configuration `{ pipeType: 'Sunken' }`, in which all four
required diameters are missing, is accepted by `validateRequiredSanitaryValues` with no
error, because `undefined <= 0` is false; the `PipeSheet` made from the same configuration
has the default diameters 0 and is rejected by `isValid()` and by the validator itself. -/
theorem validateRequiredSanitaryValues_accepts_missing_diameters :
    sheetWithoutDiameters.wcDia110 = none
    ∧ validateRequiredSanitaryValues sheetWithoutDiameters = { isValid := true, errors := [] }
    ∧ (PipeSheet.fromObject sheetWithoutDiameters).isValid = false
    ∧ (validateRequiredSanitaryValues (PipeSheet.fromObject sheetWithoutDiameters)).isValid
        = false := by
  refine ⟨rfl, by decide, by decide, by decide⟩

end ValidationUtils
namespace ValidationUtils

/-- C24: `validateExtractionInput` returns every violation, not only the first: its errors
are the pipe-sheet errors (or the single message that the configuration is required when
the sheet is absent), then the no-entities message when `entities` is absent or empty,
then the no-shafts message when `shafts` is absent or empty, and it is valid exactly when
that list is empty; for a sheet with a valid pipe type, `validateRequiredSanitaryValues`
returns one message per required diameter that is `<= 0`, in the order WC, washbasin, MT,
collector; a `Sunken` sheet with all four diameters 0, no entities and no shafts yields 6
errors. -/
theorem validateExtractionInput_lists_all_violations (data : ExtractionInput)
    (pipeSheet : PipeSheet) (hType : ValidPipeType pipeSheet) :
    (validateExtractionInput data).errors
        = sheetErrors data.pipeSheet
          ++ (if AbsentOrEmptyArray data.entities then
                ["At least one entity is required for processing".toList]
              else [])
          ++ (if AbsentOrEmptyArray data.shafts then ["At least one shaft is required".toList]
              else [])
    ∧ ((validateExtractionInput data).isValid = true ↔ (validateExtractionInput data).errors = [])
    ∧ (validateRequiredSanitaryValues pipeSheet).errors = diameterErrors pipeSheet
    ∧ (validateExtractionInput
          { pipeSheet := some zeroSunkenSheet, entities := .absent, shafts := .absent }).errors
        = ["WC Dia 110 must be greater than 0".toList,
           "Washbasin Dia 50 must be greater than 0".toList,
           "MT Dia 110 must be greater than 0".toList,
           "Collector Dia 110 must be greater than 0".toList,
           "At least one entity is required for processing".toList,
           "At least one shaft is required".toList] := by
  refine ⟨?_, ?_, validateRequiredSanitaryValues_errors pipeSheet hType, by decide⟩
  · have he : ∀ v : ArrayLike, absentOrEmpty v = decide (AbsentOrEmptyArray v) := by
      intro v
      cases v with
      | absent => rfl
      | array n =>
        cases n with
        | zero => rfl
        | succ k =>
          have : ¬ AbsentOrEmptyArray (.array (k + 1)) := by
            unfold AbsentOrEmptyArray
            simp
          simp [absentOrEmpty, this]
      | object => rfl
    unfold validateExtractionInput
    simp only [he, decide_eq_true_eq, List.nil_append]
    cases data.pipeSheet with
    | none =>
      by_cases h1 : AbsentOrEmptyArray data.entities <;>
        by_cases h2 : AbsentOrEmptyArray data.shafts <;>
        simp [h1, h2, sheetErrors]
    | some sheet =>
      by_cases h1 : AbsentOrEmptyArray data.entities <;>
        by_cases h2 : AbsentOrEmptyArray data.shafts <;>
        simp [h1, h2, sheetErrors]
  · have hi : (validateExtractionInput data).isValid
        = decide ((validateExtractionInput data).errors.length = 0) := rfl
    rw [hi, decide_eq_true_eq, List.length_eq_zero]

end ValidationUtils
/-! ## Filtering for material extraction -/

namespace CADProcessor

theorem pushValidLoop_ok {α β : Type} (valid : α → Bool) (enrich : α → Except JSError β)
    (src : β → α) (xs : List α)
    (h : ∀ x ∈ xs, valid x = true → ∃ y, enrich x = .ok y ∧ src y = x) :
    ∀ out : List β, ∃ ys, pushValidLoop valid enrich xs out = .ok (out ++ ys)
      ∧ ys.map src = xs.filter valid := by
  induction xs with
  | nil => intro out; exact ⟨[], by simp [pushValidLoop], rfl⟩
  | cons x rest ih =>
    intro out
    have hrest : ∀ x' ∈ rest, valid x' = true → ∃ y, enrich x' = .ok y ∧ src y = x' :=
      fun x' hx' => h x' (List.mem_cons_of_mem _ hx')
    by_cases hv : valid x = true
    · obtain ⟨y, hy, hsrc⟩ := h x (List.mem_cons_self _ _) hv
      obtain ⟨ys, hys, hmap⟩ := ih hrest (out ++ [y])
      refine ⟨y :: ys, ?_, ?_⟩
      · simp only [pushValidLoop, hv, if_true, hy, hys, List.append_assoc, List.singleton_append]
      · rw [List.map_cons, hsrc, hmap, List.filter_cons_of_pos hv]
    · obtain ⟨ys, hys, hmap⟩ := ih hrest out
      refine ⟨ys, ?_, ?_⟩
      · simp only [pushValidLoop, hv, Bool.false_eq_true, if_false, hys]
      · rw [hmap, List.filter_cons_of_neg hv]

theorem isValidPipe_iff (polyline : Entity) :
    isValidPipe polyline = true
      ↔ ∃ vertices, polyline.vertices = some vertices ∧ 2 ≤ vertices.length
          ∧ (toNumber polyline.length).gt 0 = true := by
  unfold isValidPipe
  cases polyline.vertices with
  | none => simp
  | some vertices => simp

theorem enrichPipeData_ok (polyline : Entity) (hv : isValidPipe polyline = true)
    (hl : polyline.layer ≠ none) :
    ∃ p, enrichPipeData polyline = .ok p ∧ p.source = polyline := by
  obtain ⟨vertices, hvs, -, -⟩ := (isValidPipe_iff polyline).1 hv
  obtain ⟨layer, hlayer⟩ := Option.ne_none_iff_exists'.1 hl
  have ht : ∃ t, determinePipeType polyline = .ok t := by
    unfold determinePipeType
    rw [hvs]
    by_cases h1 : (toNumber polyline.length).gt 100 = true
    · exact ⟨_, if_pos h1⟩
    · rw [if_neg h1]
      by_cases h2 : 2 < vertices.length
      · exact ⟨_, if_pos h2⟩
      · exact ⟨_, if_neg h2⟩
  obtain ⟨t, ht⟩ := ht
  refine ⟨{ source := polyline, pipeType := t, diameter := estimatePipeDiameter polyline,
            shaftNumber := SelectionFilter.extractShaftNumber layer }, ?_, rfl⟩
  unfold enrichPipeData
  rw [ht, hlayer]
  rfl

theorem enrichFittingData_ok (rt : Runtime) (circle : Entity) (hl : circle.layer ≠ none) :
    ∃ f, enrichFittingData rt circle = .ok f ∧ f.source = circle := by
  obtain ⟨layer, hlayer⟩ := Option.ne_none_iff_exists'.1 hl
  refine ⟨{ source := circle, fittingType := determineFittingType circle,
            diameter := estimateFittingDiameter rt circle,
            shaftNumber := SelectionFilter.extractShaftNumber layer }, ?_, rfl⟩
  unfold enrichFittingData
  rw [hlayer]
  rfl

theorem enrichBlockData_ok (rt : Runtime) (block : Entity) (hl : block.layer ≠ none) :
    ∃ b, enrichBlockData rt block = .ok b ∧ b.source = block := by
  obtain ⟨layer, hlayer⟩ := Option.ne_none_iff_exists'.1 hl
  refine ⟨{ source := block, blockType := determineBlockType rt block,
            shaftNumber := SelectionFilter.extractShaftNumber layer }, ?_, rfl⟩
  unfold enrichBlockData
  rw [hlayer]
  rfl

/-- C25: for entity lists in which every valid entity carries a layer,
`filterAndProcessEntities` returns; the polylines it returns are, in input order, the
input polylines that satisfy `isValidPipe`, so each has at least 2 vertices and a `length`
greater than 0 and an input polyline is kept exactly when `isValidPipe` holds of it; and
`totalEntities` is the sum of the lengths of the three returned lists. -/
theorem filterAndProcessEntities_keeps_valid_pipes (rt : Runtime) (entities : EntityLists)
    (hp : ∀ e ∈ entities.polylines, isValidPipe e = true → e.layer ≠ none)
    (hc : ∀ e ∈ entities.circles, isValidFitting e = true → e.layer ≠ none)
    (hb : ∀ e ∈ entities.blocks, isValidBlock e = true → e.layer ≠ none) :
    ∃ processed, filterAndProcessEntities rt entities = .ok processed
      ∧ processed.polylines.map EnrichedPipe.source = entities.polylines.filter isValidPipe
      ∧ (∀ p ∈ processed.polylines, ∃ vertices, p.source.vertices = some vertices
          ∧ 2 ≤ vertices.length ∧ (toNumber p.source.length).gt 0 = true)
      ∧ (∀ e ∈ entities.polylines,
          (∃ p ∈ processed.polylines, p.source = e) ↔ isValidPipe e = true)
      ∧ processed.totalEntities
          = processed.polylines.length + processed.circles.length + processed.blocks.length := by
  obtain ⟨ps, hps, hpmap⟩ :=
    pushValidLoop_ok isValidPipe enrichPipeData EnrichedPipe.source entities.polylines
      (fun e he hv => enrichPipeData_ok e hv (hp e he hv)) []
  obtain ⟨cs, hcs, -⟩ :=
    pushValidLoop_ok isValidFitting (enrichFittingData rt) EnrichedFitting.source
      entities.circles (fun e he hv => enrichFittingData_ok rt e (hc e he hv)) []
  obtain ⟨bs, hbs, -⟩ :=
    pushValidLoop_ok isValidBlock (enrichBlockData rt) EnrichedBlock.source entities.blocks
      (fun e he hv => enrichBlockData_ok rt e (hb e he hv)) []
  rw [List.nil_append] at hps hcs hbs
  have hmem : ∀ e, (∃ p ∈ ps, p.source = e) ↔ e ∈ entities.polylines.filter isValidPipe := by
    intro e
    rw [← hpmap, List.mem_map]
  refine ⟨{ polylines := ps, circles := cs, blocks := bs,
            totalEntities := ps.length + cs.length + bs.length }, ?_, hpmap, ?_, ?_, rfl⟩
  · unfold filterAndProcessEntities
    rw [hps, hcs, hbs]
  · intro p hp'
    have : p.source ∈ entities.polylines.filter isValidPipe := (hmem p.source).1 ⟨p, hp', rfl⟩
    exact (isValidPipe_iff p.source).1 (List.mem_filter.1 this).2
  · intro e he
    rw [hmem e, List.mem_filter]
    exact ⟨fun h => h.2, fun h => ⟨he, h⟩⟩

end CADProcessor
/-! ## Distances -/

theorem orZero_fin (c : ℚ) : orZero (some (fin c)) = fin c := by
  simp only [orZero]
  exact SelectionSetUtil.truthy_or_zero c

theorem orZero_eq_zCoordinate (p : Point) (hp : FinitePoint p) : orZero p.z = zCoordinate p := by
  rcases hp.2.2 with h | ⟨c, h⟩
  · rw [zCoordinate, h]; rfl
  · rw [zCoordinate, h, orZero_fin]

theorem zCoordinate_fin (p : Point) (hp : FinitePoint p) : ∃ c : ℚ, zCoordinate p = fin c := by
  rcases hp.2.2 with h | ⟨c, h⟩
  · exact ⟨0, by rw [zCoordinate, h, ofNat_eq_fin]; norm_num⟩
  · exact ⟨c, by rw [zCoordinate, h]⟩

theorem refRuntime_signLaws : SignLaws refRuntime where
  sub_ne_nan := by
    intro a b
    rw [refSub_fin]
    exact fun h => by cases h
  sub_anti := by
    intro a b
    rw [refSub_fin, refSub_fin, exactNeg_fin]
    congr 1
    ring
  mul_self_nonneg := by
    intro x hx
    cases x with
    | fin a =>
      rw [refMul_fin, ofNat_eq_fin]
      simp only [JSNumber.le, decide_eq_true_eq]
      push_cast
      exact mul_self_nonneg a
    | posInf => rfl
    | negInf => rfl
    | nan => exact absurd rfl hx
  mul_neg_neg := by
    intro x
    cases x with
    | fin a =>
      rw [exactNeg_fin, refMul_fin, refMul_fin]
      congr 1
      ring
    | posInf => rfl
    | negInf => rfl
    | nan => rfl
  add_nonneg := by
    intro x y hx hy
    cases x with
    | fin a =>
      cases y with
      | fin b =>
        rw [refAdd_fin]
        rw [ofNat_eq_fin] at hx hy ⊢
        simp only [JSNumber.le, decide_eq_true_eq] at hx hy ⊢
        push_cast at hx hy ⊢
        exact add_nonneg hx hy
      | posInf => rfl
      | negInf => cases hy
      | nan => cases hy
    | posInf =>
      cases y with
      | fin b => rfl
      | posInf => rfl
      | negInf => cases hy
      | nan => cases hy
    | negInf => cases hx
    | nan => cases hx
  sqrt_nonneg := by
    intro x hx
    cases x with
    | fin a =>
      rw [ofNat_eq_fin] at hx ⊢
      simp only [JSNumber.le, decide_eq_true_eq] at hx
      push_cast at hx
      have h0 : ¬ a < 0 := not_lt.2 hx
      rw [refSqrt_eq]
      simp only [exactSqrt, if_neg h0, JSNumber.le, decide_eq_true_eq]
      push_cast
      positivity
    | posInf => rfl
    | negInf => cases hx
    | nan => cases hx

namespace GeometryCalculator

theorem calculateDistance_eq (rt : Runtime) (p q : Point) (hp : FinitePoint p)
    (hq : FinitePoint q) :
    calculateDistance rt p q
      = rt.sqrt
          (rt.add (rt.add (square rt (rt.sub q.x p.x)) (square rt (rt.sub q.y p.y)))
            (square rt (rt.sub (zCoordinate q) (zCoordinate p)))) := by
  unfold calculateDistance square
  rw [orZero_eq_zCoordinate p hp, orZero_eq_zCoordinate q hq]

/-- C26: for two points with finite coordinates, on a host whose arithmetic has the sign
properties of IEEE arithmetic, `calculateDistance` returns the square root of the sum of
the squares of the three coordinate differences, where an absent `z` counts as 0 (the
result is the same as for the point with `z = 0`); the result is not negative, and it is
the same when the two points are swapped. -/
theorem calculateDistance_euclidean (rt : Runtime) (laws : SignLaws rt) (p q : Point)
    (hp : FinitePoint p) (hq : FinitePoint q) :
    calculateDistance rt p q
        = rt.sqrt
            (rt.add (rt.add (square rt (rt.sub q.x p.x)) (square rt (rt.sub q.y p.y)))
              (square rt (rt.sub (zCoordinate q) (zCoordinate p))))
    ∧ (p.z = none → calculateDistance rt p q = calculateDistance rt { p with z := some 0 } q)
    ∧ (q.z = none → calculateDistance rt p q = calculateDistance rt p { q with z := some 0 })
    ∧ (0 : JSNumber).le (calculateDistance rt p q) = true
    ∧ calculateDistance rt p q = calculateDistance rt q p := by
  obtain ⟨px, hpx⟩ := hp.1
  obtain ⟨py, hpy⟩ := hp.2.1
  obtain ⟨qx, hqx⟩ := hq.1
  obtain ⟨qy, hqy⟩ := hq.2.1
  obtain ⟨pz, hpz⟩ := zCoordinate_fin p hp
  obtain ⟨qz, hqz⟩ := zCoordinate_fin q hq
  have hz0 : orZero (some (0 : JSNumber)) = orZero none := by
    rw [ofNat_eq_fin, orZero_fin]
    simp only [orZero, ofNat_eq_fin]
  refine ⟨calculateDistance_eq rt p q hp hq, ?_, ?_, ?_, ?_⟩
  · intro hz
    simp only [calculateDistance, hz, hz0]
  · intro hz
    simp only [calculateDistance, hz, hz0]
  · rw [calculateDistance_eq rt p q hp hq, hpx, hpy, hqx, hqy, hpz, hqz]
    unfold square
    apply laws.sqrt_nonneg
    apply laws.add_nonneg
    · apply laws.add_nonneg
      · exact laws.mul_self_nonneg _ (laws.sub_ne_nan _ _)
      · exact laws.mul_self_nonneg _ (laws.sub_ne_nan _ _)
    · exact laws.mul_self_nonneg _ (laws.sub_ne_nan _ _)
  · rw [calculateDistance_eq rt p q hp hq, calculateDistance_eq rt q p hq hp, hpx, hpy, hqx,
      hqy, hpz, hqz]
    unfold square
    rw [laws.sub_anti qx px, laws.sub_anti qy py, laws.sub_anti qz pz, laws.mul_neg_neg,
      laws.mul_neg_neg, laws.mul_neg_neg]

end GeometryCalculator
/-! ## Angles -/

namespace GeometryCalculator

theorem calculateAngle_eq (rt : Runtime) (p1 p2 p3 : Point) :
    calculateAngle rt p1 p2 p3
      = rt.mul (rt.acos (clamp (cosineAt rt p1 p2 p3))) (rt.div 180 mathPI) := rfl

theorem clamp_nan : clamp nan = nan := rfl

theorem clamp_fin (c : ℚ) :
    ∃ c' : ℚ, clamp (fin c) = fin c' ∧ -1 ≤ c' ∧ c' ≤ 1 ∧ (-1 ≤ c → c ≤ 1 → c' = c) := by
  have h1 : (1 : JSNumber) = fin 1 := by rw [ofNat_eq_fin]; norm_num
  unfold clamp
  rw [h1, exactNeg_fin, min_fin, max_fin]
  refine ⟨_, rfl, ?_, ?_, ?_⟩
  · split_ifs <;> linarith
  · split_ifs <;> linarith
  · intro ha hb
    split_ifs <;> linarith

theorem sumSq_pos (a b : ℚ) (h : ¬ (a = 0 ∧ b = 0)) : 0 < a * a + b * b := by
  have h0 : 0 ≤ a * a + b * b := add_nonneg (mul_self_nonneg a) (mul_self_nonneg b)
  rcases h0.lt_or_eq with hlt | heq
  · exact hlt
  · exact absurd (mul_self_add_mul_self_eq_zero.1 heq.symm) h

theorem degrees_factor (rt : Runtime) (hex : ExactArith rt) :
    rt.div 180 mathPI = fin (180 / piValue) := by
  have h180 : (180 : JSNumber) = fin 180 := by rw [ofNat_eq_fin]; norm_num
  rw [h180, mathPI]
  exact hex.2.2.2 180 _ (by norm_num)

theorem cosineAt_fin (rt : Runtime) (laws : AngleLaws rt) (x1 y1 xv yv x3 y3 : ℚ)
    (z1 zv z3 : Option JSNumber) (h1 : ¬ (x1 = xv ∧ y1 = yv)) (h3 : ¬ (x3 = xv ∧ y3 = yv)) :
    ∃ s1 s2 : ℚ, 0 < s1 ∧ 0 < s2
      ∧ rt.sqrt (fin ((x1 - xv) * (x1 - xv) + (y1 - yv) * (y1 - yv))) = fin s1
      ∧ rt.sqrt (fin ((x3 - xv) * (x3 - xv) + (y3 - yv) * (y3 - yv))) = fin s2
      ∧ cosineAt rt ⟨fin x1, fin y1, z1⟩ ⟨fin xv, fin yv, zv⟩ ⟨fin x3, fin y3, z3⟩
          = fin (((x1 - xv) * (x3 - xv) + (y1 - yv) * (y3 - yv)) / (s1 * s2)) := by
  obtain ⟨hadd, hsub, hmul, hdiv⟩ := laws.arith
  have hq1 : 0 < (x1 - xv) * (x1 - xv) + (y1 - yv) * (y1 - yv) :=
    sumSq_pos _ _ (fun h => h1 ⟨sub_eq_zero.1 h.1, sub_eq_zero.1 h.2⟩)
  have hq3 : 0 < (x3 - xv) * (x3 - xv) + (y3 - yv) * (y3 - yv) :=
    sumSq_pos _ _ (fun h => h3 ⟨sub_eq_zero.1 h.1, sub_eq_zero.1 h.2⟩)
  obtain ⟨s1, hs1, hs1n, hs1z⟩ := laws.sqrt_fin _ hq1.le
  obtain ⟨s2, hs2, hs2n, hs2z⟩ := laws.sqrt_fin _ hq3.le
  have hs1p : 0 < s1 := lt_of_le_of_ne hs1n (fun h => hq1.ne' (hs1z.1 h.symm))
  have hs2p : 0 < s2 := lt_of_le_of_ne hs2n (fun h => hq3.ne' (hs2z.1 h.symm))
  refine ⟨s1, s2, hs1p, hs2p, hs1, hs2, ?_⟩
  simp only [cosineAt, hsub, hmul, hadd, hs1, hs2]
  exact hdiv _ _ (mul_pos hs1p hs2p).ne'

/-- C27, as stated, fails: when `p1` coincides with `pVertex` the cosine is `0 / 0` and
`calculateAngle` returns NaN, which is not in the range from 0 to 180. -/
theorem calculateAngle_nan_at_coincident_points :
    calculateAngle refRuntime ⟨1, 1, none⟩ ⟨1, 1, none⟩ ⟨2, 1, none⟩ = nan
    ∧ (0 : JSNumber).le nan = false ∧ nan.le 180 = false := by
  have e0 : exactSqrt (fin 0) = fin 0 := by
    have := exactSqrt_sq 0
    norm_num at this
    exact this
  have e1 : exactSqrt (fin 1) = fin 1 := by
    have := exactSqrt_sq 1
    norm_num at this
    exact this
  have hcos : cosineAt refRuntime ⟨1, 1, none⟩ ⟨1, 1, none⟩ ⟨2, 1, none⟩ = nan := by
    simp only [cosineAt, ofNat_eq_fin, refSub_fin, refMul_fin, refAdd_fin, refSqrt_eq]
    norm_num
    rw [e0, e1, refMul_fin]
    norm_num
    rfl
  have hm : ∀ x, exactMul nan x = nan := by
    intro x
    cases x <;> rfl
  refine ⟨?_, rfl, rfl⟩
  rw [calculateAngle_eq, hcos, clamp_nan]
  exact hm _

/-- C27, amended: on a host with exact arithmetic whose square root and arccosine have
the stated range properties, for three points with finite coordinates in which neither
`p1` nor `p3` coincides with `pVertex` in the plane, the cosine of the vectors from
`pVertex` to `p1` and to `p3` is a finite number, its clamp `c'` lies in `[-1, 1]`, and
`calculateAngle` returns the arccosine of `c'` times `180 / Math.PI`, a number in the
closed range from 0 to 180; when `p1` or `p3` coincides with `pVertex` it returns NaN. -/
theorem calculateAngle_range (rt : Runtime) (laws : AngleLaws rt) (x1 y1 xv yv x3 y3 : ℚ)
    (z1 zv z3 : Option JSNumber) :
    ((¬ (x1 = xv ∧ y1 = yv) ∧ ¬ (x3 = xv ∧ y3 = yv)) →
      ∃ c c' d : ℚ,
        cosineAt rt ⟨fin x1, fin y1, z1⟩ ⟨fin xv, fin yv, zv⟩ ⟨fin x3, fin y3, z3⟩ = fin c
        ∧ clamp (fin c) = fin c' ∧ -1 ≤ c' ∧ c' ≤ 1
        ∧ calculateAngle rt ⟨fin x1, fin y1, z1⟩ ⟨fin xv, fin yv, zv⟩ ⟨fin x3, fin y3, z3⟩
            = rt.mul (rt.acos (fin c')) (rt.div 180 mathPI)
        ∧ calculateAngle rt ⟨fin x1, fin y1, z1⟩ ⟨fin xv, fin yv, zv⟩ ⟨fin x3, fin y3, z3⟩
            = fin d
        ∧ 0 ≤ d ∧ d ≤ 180)
    ∧ (((x1 = xv ∧ y1 = yv) ∨ (x3 = xv ∧ y3 = yv)) →
        calculateAngle rt ⟨fin x1, fin y1, z1⟩ ⟨fin xv, fin yv, zv⟩ ⟨fin x3, fin y3, z3⟩
          = nan) := by
  obtain ⟨hadd, hsub, hmul, hdiv⟩ := laws.arith
  have hpi : (0 : ℚ) < piValue := by unfold piValue; norm_num
  constructor
  · rintro ⟨h1, h3⟩
    obtain ⟨s1, s2, -, -, -, -, hcos⟩ := cosineAt_fin rt laws x1 y1 xv yv x3 y3 z1 zv z3 h1 h3
    obtain ⟨c', hc', hlo, hhi, -⟩ :=
      clamp_fin (((x1 - xv) * (x3 - xv) + (y1 - yv) * (y3 - yv)) / (s1 * s2))
    obtain ⟨a, ha, ha0, hapi⟩ := laws.acos_range c' hlo hhi
    have hangle :
        calculateAngle rt ⟨fin x1, fin y1, z1⟩ ⟨fin xv, fin yv, zv⟩ ⟨fin x3, fin y3, z3⟩
          = rt.mul (rt.acos (fin c')) (rt.div 180 mathPI) := by
      rw [calculateAngle_eq, hcos, hc']
    refine ⟨_, c', a * (180 / piValue), hcos, hc', hlo, hhi, hangle, ?_, ?_, ?_⟩
    · rw [hangle, ha, degrees_factor rt laws.arith, hmul]
    · exact mul_nonneg ha0 (div_nonneg (by norm_num) hpi.le)
    · have : a * (180 / piValue) ≤ piValue * (180 / piValue) :=
        mul_le_mul_of_nonneg_right hapi (div_nonneg (by norm_num) hpi.le)
      have e : piValue * (180 / piValue) = 180 := by field_simp
      rw [e] at this
      exact this
  · intro h
    have hcos :
        cosineAt rt ⟨fin x1, fin y1, z1⟩ ⟨fin xv, fin yv, zv⟩ ⟨fin x3, fin y3, z3⟩ = nan := by
      obtain ⟨s1, hs1, -, hs1z⟩ :=
        laws.sqrt_fin ((x1 - xv) * (x1 - xv) + (y1 - yv) * (y1 - yv))
          (add_nonneg (mul_self_nonneg _) (mul_self_nonneg _))
      obtain ⟨s2, hs2, -, hs2z⟩ :=
        laws.sqrt_fin ((x3 - xv) * (x3 - xv) + (y3 - yv) * (y3 - yv))
          (add_nonneg (mul_self_nonneg _) (mul_self_nonneg _))
      simp only [cosineAt, hsub, hmul, hadd, hs1, hs2]
      have hz : (x1 - xv) * (x3 - xv) + (y1 - yv) * (y3 - yv) = 0 ∧ s1 * s2 = 0 := by
        rcases h with ⟨hx, hy⟩ | ⟨hx, hy⟩
        · have : s1 = 0 := hs1z.2 (by rw [hx, hy]; ring)
          rw [this, hx, hy]
          exact ⟨by ring, by ring⟩
        · have : s2 = 0 := hs2z.2 (by rw [hx, hy]; ring)
          rw [this, hx, hy]
          exact ⟨by ring, by ring⟩
      rw [hz.1, hz.2]
      exact laws.zero_div_zero
    rw [calculateAngle_eq, hcos, clamp_nan, laws.acos_nan, laws.mul_nan]

end GeometryCalculator

theorem chordRuntime_angleLaws : AngleLaws chordRuntime where
  arith := ⟨refAdd_fin, refSub_fin, refMul_fin, refDiv_fin⟩
  sqrt_fin := by
    intro q hq
    have h0 : ¬ q < 0 := not_lt.2 hq
    have hden : 0 < Nat.sqrt q.den := Nat.sqrt_pos.2 q.den_pos
    refine ⟨(Nat.sqrt q.num.toNat : ℚ) / (Nat.sqrt q.den : ℚ), ?_, by positivity, ?_⟩
    · show exactSqrt (fin q) = _
      simp only [exactSqrt, if_neg h0]
    · have hd : ((Nat.sqrt q.den : ℕ) : ℚ) ≠ 0 := by exact_mod_cast hden.ne'
      rw [div_eq_zero_iff]
      constructor
      · rintro (h | h)
        · have h1 : Nat.sqrt q.num.toNat = 0 := by exact_mod_cast h
          have h2 : q.num.toNat = 0 := Nat.sqrt_eq_zero.1 h1
          have h3 : q.num ≤ 0 := Int.toNat_eq_zero.1 h2
          exact le_antisymm (Rat.num_nonpos.1 h3) hq
        · exact absurd h hd
      · intro h
        subst h
        left
        simp
  acos_range := by
    intro c h1 h2
    have hpi : (0 : ℚ) < piValue := by unfold piValue; norm_num
    refine ⟨(1 - c) * (piValue / 2), ?_, ?_, ?_⟩
    · show chordAcos (fin c) = _
      simp only [chordAcos, h1, h2, and_self, if_true]
    · exact mul_nonneg (by linarith) (by linarith)
    · nlinarith
  zero_div_zero := by
    show exactDiv (fin 0) (fin 0) = nan
    simp [exactDiv]
  acos_nan := rfl
  mul_nan := by
    intro x
    cases x <;> rfl
/-! ## Segments -/

theorem refRuntime_exactArith : ExactArith refRuntime :=
  ⟨refAdd_fin, refSub_fin, refMul_fin, refDiv_fin⟩

theorem strictEq_fin_zero (a : ℚ) : (fin a).strictEq 0 = decide (a = 0) := by
  rw [ofNat_eq_fin]
  simp only [JSNumber.strictEq, Nat.cast_zero]
  by_cases h : a = 0
  · subst h; simp
  · have : fin a ≠ fin 0 := fun e => h (JSNumber.fin.inj e)
    simp [h, this]

theorem zero_le_fin (a : ℚ) : (0 : JSNumber).le (fin a) = decide (0 ≤ a) := by
  rw [ofNat_eq_fin]
  simp only [JSNumber.le, Nat.cast_zero]

theorem fin_le_one (a : ℚ) : (fin a).le 1 = decide (a ≤ 1) := by
  rw [ofNat_eq_fin]
  simp only [JSNumber.le, Nat.cast_one]

namespace GeometryCalculator

theorem lineSegmentsIntersect_of_denominator_zero (rt : Runtime) (p1 p2 p3 p4 : Point)
    (h : (denominatorAt rt p1 p2 p3 p4).strictEq 0 = true) :
    lineSegmentsIntersect rt p1 p2 p3 p4 = false := by
  unfold denominatorAt at h
  unfold lineSegmentsIntersect
  rw [if_pos h]

theorem denominatorAt_exact (rt : Runtime) (hex : ExactArith rt)
    (x1 y1 x2 y2 x3 y3 x4 y4 : ℚ) (z1 z2 z3 z4 : Option JSNumber) :
    denominatorAt rt ⟨fin x1, fin y1, z1⟩ ⟨fin x2, fin y2, z2⟩ ⟨fin x3, fin y3, z3⟩
        ⟨fin x4, fin y4, z4⟩
      = fin (crossProduct x1 y1 x2 y2 x3 y3 x4 y4) := by
  obtain ⟨-, hsub, hmul, -⟩ := hex
  simp only [denominatorAt, hsub, hmul, crossProduct]

/-- C28: on a host with exact arithmetic, for two segments with finite coordinates whose
direction vectors are parallel or colinear (the cross product of the directions is 0), the
denominator `lineSegmentsIntersect` computes is 0 and it returns false; in particular it
returns false for two identical segments, which overlap in every point.  On every host it
returns false whenever the denominator it computes is 0. -/
theorem lineSegmentsIntersect_parallel (rt : Runtime) (hex : ExactArith rt)
    (x1 y1 x2 y2 x3 y3 x4 y4 : ℚ) (z1 z2 z3 z4 : Option JSNumber)
    (hpar : crossProduct x1 y1 x2 y2 x3 y3 x4 y4 = 0) :
    denominatorAt rt ⟨fin x1, fin y1, z1⟩ ⟨fin x2, fin y2, z2⟩ ⟨fin x3, fin y3, z3⟩
        ⟨fin x4, fin y4, z4⟩ = fin 0
    ∧ lineSegmentsIntersect rt ⟨fin x1, fin y1, z1⟩ ⟨fin x2, fin y2, z2⟩ ⟨fin x3, fin y3, z3⟩
        ⟨fin x4, fin y4, z4⟩ = false
    ∧ lineSegmentsIntersect rt ⟨fin x1, fin y1, z1⟩ ⟨fin x2, fin y2, z2⟩ ⟨fin x1, fin y1, z1⟩
        ⟨fin x2, fin y2, z2⟩ = false
    ∧ (∀ (rt' : Runtime) (p1 p2 p3 p4 : Point),
        (denominatorAt rt' p1 p2 p3 p4).strictEq 0 = true →
          lineSegmentsIntersect rt' p1 p2 p3 p4 = false) := by
  have hden := denominatorAt_exact rt hex x1 y1 x2 y2 x3 y3 x4 y4 z1 z2 z3 z4
  rw [hpar] at hden
  refine ⟨hden, ?_, ?_, lineSegmentsIntersect_of_denominator_zero⟩
  · apply lineSegmentsIntersect_of_denominator_zero
    rw [hden, strictEq_fin_zero]
    simp
  · apply lineSegmentsIntersect_of_denominator_zero
    rw [denominatorAt_exact rt hex, strictEq_fin_zero]
    have : crossProduct x1 y1 x2 y2 x1 y1 x2 y2 = 0 := by unfold crossProduct; ring
    simp [this]

theorem lineSegmentsIntersect_exact (rt : Runtime) (hex : ExactArith rt)
    (x1 y1 x2 y2 x3 y3 x4 y4 : ℚ) (z1 z2 z3 z4 : Option JSNumber)
    (hden : crossProduct x1 y1 x2 y2 x3 y3 x4 y4 ≠ 0) :
    lineSegmentsIntersect rt ⟨fin x1, fin y1, z1⟩ ⟨fin x2, fin y2, z2⟩ ⟨fin x3, fin y3, z3⟩
        ⟨fin x4, fin y4, z4⟩
      = (decide (0 ≤ ((x4 - x3) * (y1 - y3) - (y4 - y3) * (x1 - x3))
                      / crossProduct x1 y1 x2 y2 x3 y3 x4 y4)
          && decide (((x4 - x3) * (y1 - y3) - (y4 - y3) * (x1 - x3))
                      / crossProduct x1 y1 x2 y2 x3 y3 x4 y4 ≤ 1)
          && decide (0 ≤ ((x2 - x1) * (y1 - y3) - (y2 - y1) * (x1 - x3))
                      / crossProduct x1 y1 x2 y2 x3 y3 x4 y4)
          && decide (((x2 - x1) * (y1 - y3) - (y2 - y1) * (x1 - x3))
                      / crossProduct x1 y1 x2 y2 x3 y3 x4 y4 ≤ 1)) := by
  have hd := denominatorAt_exact rt hex x1 y1 x2 y2 x3 y3 x4 y4 z1 z2 z3 z4
  obtain ⟨-, hsub, hmul, hdiv⟩ := hex
  have hs : (fin (crossProduct x1 y1 x2 y2 x3 y3 x4 y4)).strictEq 0 = false := by
    rw [strictEq_fin_zero]
    simp [hden]
  unfold lineSegmentsIntersect
  simp only []
  unfold denominatorAt at hd
  simp only [] at hd
  rw [hd, hs]
  simp only [Bool.false_eq_true, if_false, hsub, hmul, hdiv _ _ hden, zero_le_fin, fin_le_one]

/-- C30: on a host with exact arithmetic, for two planar segments with finite coordinates
that are not parallel (the cross product of the directions is not 0),
`lineSegmentsIntersect` returns true if and only if the two closed segments have a point
in common: there are `ua` and `ub` in `[0, 1]` with
`p1 + ua (p2 - p1) = p3 + ub (p4 - p3)`. -/
theorem lineSegmentsIntersect_iff_meet (rt : Runtime) (hex : ExactArith rt)
    (x1 y1 x2 y2 x3 y3 x4 y4 : ℚ) (z1 z2 z3 z4 : Option JSNumber)
    (hden : crossProduct x1 y1 x2 y2 x3 y3 x4 y4 ≠ 0) :
    lineSegmentsIntersect rt ⟨fin x1, fin y1, z1⟩ ⟨fin x2, fin y2, z2⟩ ⟨fin x3, fin y3, z3⟩
        ⟨fin x4, fin y4, z4⟩ = true
      ↔ SegmentsMeet x1 y1 x2 y2 x3 y3 x4 y4 := by
  rw [lineSegmentsIntersect_exact rt hex x1 y1 x2 y2 x3 y3 x4 y4 z1 z2 z3 z4 hden]
  simp only [Bool.and_eq_true, decide_eq_true_eq]
  have hc : crossProduct x1 y1 x2 y2 x3 y3 x4 y4
      = (y4 - y3) * (x2 - x1) - (x4 - x3) * (y2 - y1) := rfl
  constructor
  · rintro ⟨⟨⟨h1, h2⟩, h3⟩, h4⟩
    refine ⟨_, _, h1, h2, h3, h4, ?_, ?_⟩
    · rw [hc] at hden ⊢
      field_simp
      ring
    · rw [hc] at hden ⊢
      field_simp
      ring
  · rintro ⟨ua, ub, h1, h2, h3, h4, ex, ey⟩
    have ha : ((x4 - x3) * (y1 - y3) - (y4 - y3) * (x1 - x3))
        / crossProduct x1 y1 x2 y2 x3 y3 x4 y4 = ua := by
      rw [div_eq_iff hden, hc]
      linear_combination (x4 - x3) * ey - (y4 - y3) * ex
    have hb : ((x2 - x1) * (y1 - y3) - (y2 - y1) * (x1 - x3))
        / crossProduct x1 y1 x2 y2 x3 y3 x4 y4 = ub := by
      rw [div_eq_iff hden, hc]
      linear_combination (x2 - x1) * ey - (y2 - y1) * ex
    rw [ha, hb]
    exact ⟨⟨⟨h1, h2⟩, h3⟩, h4⟩

end GeometryCalculator
theorem fin_lt_zero (t : ℚ) : (fin t).lt 0 = decide (t < 0) := by
  rw [ofNat_eq_fin]
  simp only [JSNumber.lt, JSNumber.gt, Nat.cast_zero]

theorem fin_gt_one (t : ℚ) : (fin t).gt 1 = decide (1 < t) := by
  rw [ofNat_eq_fin]
  simp only [JSNumber.gt, Nat.cast_one]

theorem nearestParam_cases (px py sx sy ex ey : ℚ) :
    nearestParam px py sx sy ex ey
      = if ((px - sx) * (ex - sx) + (py - sy) * (ey - sy))
            / ((ex - sx) * (ex - sx) + (ey - sy) * (ey - sy)) < 0 then 0
        else if 1 < ((px - sx) * (ex - sx) + (py - sy) * (ey - sy))
            / ((ex - sx) * (ex - sx) + (ey - sy) * (ey - sy)) then 1
        else ((px - sx) * (ex - sx) + (py - sy) * (ey - sy))
            / ((ex - sx) * (ex - sx) + (ey - sy) * (ey - sy)) := by
  unfold nearestParam
  split_ifs with h1 h2
  · rw [max_eq_left]
    exact (min_le_right _ _).trans h1.le
  · rw [min_eq_left h2.le, max_eq_right zero_le_one]
  · rw [min_eq_right (not_lt.1 h2), max_eq_right (not_lt.1 h1)]

theorem nearestParam_mem (px py sx sy ex ey : ℚ) :
    0 ≤ nearestParam px py sx sy ex ey ∧ nearestParam px py sx sy ex ey ≤ 1 := by
  unfold nearestParam
  exact ⟨le_max_left _ _, max_le zero_le_one (min_le_left _ _)⟩

theorem sqDistAt_nearest_le (px py sx sy ex ey : ℚ) (hseg : ¬ (sx = ex ∧ sy = ey)) (s : ℚ)
    (hs0 : 0 ≤ s) (hs1 : s ≤ 1) :
    sqDistAt px py sx sy ex ey (nearestParam px py sx sy ex ey) ≤ sqDistAt px py sx sy ex ey s := by
  have hL : 0 < (ex - sx) * (ex - sx) + (ey - sy) * (ey - sy) :=
    GeometryCalculator.sumSq_pos _ _
      (fun h => hseg ⟨(sub_eq_zero.1 h.1).symm, (sub_eq_zero.1 h.2).symm⟩)
  have hdot : (px - sx) * (ex - sx) + (py - sy) * (ey - sy)
      = ((px - sx) * (ex - sx) + (py - sy) * (ey - sy))
          / ((ex - sx) * (ex - sx) + (ey - sy) * (ey - sy))
        * ((ex - sx) * (ex - sx) + (ey - sy) * (ey - sy)) := by
    field_simp
  have key : ∀ u : ℚ, sqDistAt px py sx sy ex ey u
      = ((ex - sx) * (ex - sx) + (ey - sy) * (ey - sy))
          * ((u - ((px - sx) * (ex - sx) + (py - sy) * (ey - sy))
                    / ((ex - sx) * (ex - sx) + (ey - sy) * (ey - sy)))
              * (u - ((px - sx) * (ex - sx) + (py - sy) * (ey - sy))
                    / ((ex - sx) * (ex - sx) + (ey - sy) * (ey - sy))))
        + ((px - sx) * (px - sx) + (py - sy) * (py - sy)
            - ((px - sx) * (ex - sx) + (py - sy) * (ey - sy))
                / ((ex - sx) * (ex - sx) + (ey - sy) * (ey - sy))
              * ((px - sx) * (ex - sx) + (py - sy) * (ey - sy))) := by
    intro u
    unfold sqDistAt
    field_simp
    ring
  rw [key, key, nearestParam_cases]
  generalize ((px - sx) * (ex - sx) + (py - sy) * (ey - sy))
      / ((ex - sx) * (ex - sx) + (ey - sy) * (ey - sy)) = t
  generalize (ex - sx) * (ex - sx) + (ey - sy) * (ey - sy) = L at hL
  have hsq : (if t < 0 then 0 else if 1 < t then 1 else t) - t ≤ |s - t|
      ∧ -((if t < 0 then 0 else if 1 < t then 1 else t) - t) ≤ |s - t| := by
    split_ifs with h1 h2
    · constructor
      · rw [abs_of_nonneg (by linarith)]; linarith
      · rw [abs_of_nonneg (by linarith)]; linarith
    · constructor
      · rw [abs_of_nonpos (by linarith)]; linarith
      · rw [abs_of_nonpos (by linarith)]; linarith
    · simp
  have habs : |(if t < 0 then 0 else if 1 < t then 1 else t) - t| ≤ |s - t| :=
    abs_le'.2 hsq
  have hmul : ((if t < 0 then 0 else if 1 < t then 1 else t) - t)
        * ((if t < 0 then 0 else if 1 < t then 1 else t) - t)
      ≤ (s - t) * (s - t) := by
    rw [← abs_mul_abs_self ((if t < 0 then 0 else if 1 < t then 1 else t) - t),
      ← abs_mul_abs_self (s - t)]
    exact mul_le_mul habs habs (abs_nonneg _) (abs_nonneg _)
  have := mul_le_mul_of_nonneg_left hmul hL.le
  linarith

namespace GeometryCalculator

theorem isPointOnLineSegment_exact (rt : Runtime) (hex : ExactArith rt)
    (px py sx sy ex ey : ℚ) (zp zs ze : Option JSNumber) (tolerance : JSNumber)
    (hseg : ¬ (sx = ex ∧ sy = ey)) :
    isPointOnLineSegment rt ⟨fin px, fin py, zp⟩ ⟨fin sx, fin sy, zs⟩ ⟨fin ex, fin ey, ze⟩
        tolerance
      = (rt.sqrt (fin (sqDistAt px py sx sy ex ey (nearestParam px py sx sy ex ey)))).le
          tolerance := by
  obtain ⟨hadd, hsub, hmul, hdiv⟩ := hex
  have hL : 0 < (ex - sx) * (ex - sx) + (ey - sy) * (ey - sy) :=
    sumSq_pos _ _ (fun h => hseg ⟨(sub_eq_zero.1 h.1).symm, (sub_eq_zero.1 h.2).symm⟩)
  have hs : (fin ((ex - sx) * (ex - sx) + (ey - sy) * (ey - sy))).strictEq 0 = false := by
    rw [strictEq_fin_zero]
    simp [hL.ne']
  unfold isPointOnLineSegment
  simp only [hsub, hmul, hadd, hs, Bool.false_eq_true, if_false, hdiv _ _ hL.ne',
    fin_lt_zero, fin_gt_one, decide_eq_true_eq]
  rw [nearestParam_cases]
  by_cases h1 : ((px - sx) * (ex - sx) + (py - sy) * (ey - sy))
      / ((ex - sx) * (ex - sx) + (ey - sy) * (ey - sy)) < 0
  · simp only [if_pos h1, hsub, hmul, hadd]
    congr 3
    unfold sqDistAt
    ring
  · by_cases h2 : 1 < ((px - sx) * (ex - sx) + (py - sy) * (ey - sy))
        / ((ex - sx) * (ex - sx) + (ey - sy) * (ey - sy))
    · simp only [if_neg h1, if_pos h2, hsub, hmul, hadd]
      congr 3
      unfold sqDistAt
      ring
    · simp only [if_neg h1, if_neg h2, hsub, hmul, hadd]
      congr 3

theorem isPointOnLineSegment_degenerate (rt : Runtime) (hex : ExactArith rt)
    (px py sx sy : ℚ) (zp zs ze : Option JSNumber) (tolerance : JSNumber) :
    isPointOnLineSegment rt ⟨fin px, fin py, zp⟩ ⟨fin sx, fin sy, zs⟩ ⟨fin sx, fin sy, ze⟩
        tolerance = false := by
  obtain ⟨hadd, hsub, hmul, -⟩ := hex
  have hs : (fin ((sx - sx) * (sx - sx) + (sy - sy) * (sy - sy))).strictEq 0 = true := by
    rw [strictEq_fin_zero]
    simp
  unfold isPointOnLineSegment
  simp only [hsub, hmul, hadd, hs, if_true]

theorem segmentsOf_cons_cons (a b : Point) (t : List Point) :
    segmentsOf (a :: b :: t) = (a, b) :: segmentsOf (b :: t) := rfl

theorem touchingLoop_eq (rt : Runtime) (point : Point) (tolerance : JSNumber)
    (vs : List Point) :
    ∀ (k i : Nat), vs.length - i = k →
      touchingLoop rt point tolerance vs.toArray i
        = (segmentsOf (vs.drop i)).any
            (fun s => isPointOnLineSegment rt point s.1 s.2 tolerance) := by
  intro k
  induction k with
  | zero =>
    intro i hk
    unfold touchingLoop
    have h1 : ¬ (i + 1 < vs.toArray.size) := by simp; omega
    rw [dif_neg h1]
    have h2 : vs.drop i = [] := by
      apply List.drop_eq_nil_of_le; omega
    simp [h2, segmentsOf]
  | succ k ih =>
    intro i hk
    unfold touchingLoop
    by_cases h1 : i + 1 < vs.toArray.size
    · rw [dif_pos h1]
      rw [ih (i + 1) (by omega)]
      have hi : i < vs.length := by simp at h1; omega
      have hi1 : i + 1 < vs.length := by simpa using h1
      have e1 : vs.drop i = vs[i] :: vs.drop (i + 1) := List.drop_eq_getElem_cons hi
      have e2 : vs.drop (i + 1) = vs[i + 1] :: vs.drop (i + 2) :=
        List.drop_eq_getElem_cons hi1
      have e3 : segmentsOf (vs.drop i) = (vs[i], vs[i + 1]) :: segmentsOf (vs.drop (i + 1)) := by
        have e4 : vs.drop i = vs[i] :: vs[i + 1] :: vs.drop (i + 2) := by
          rw [e1]; congr 1
        rw [e4, segmentsOf_cons_cons, ← e2]
      rw [e3, List.any_cons]
      simp only [List.getElem_toArray]
      by_cases hb : isPointOnLineSegment rt point vs[i] vs[i + 1] tolerance = true
      · rw [if_pos hb, hb]
        rfl
      · rw [if_neg hb]
        have hf : isPointOnLineSegment rt point vs[i] vs[i + 1] tolerance = false := by
          cases h : isPointOnLineSegment rt point vs[i] vs[i + 1] tolerance
          · rfl
          · exact absurd h hb
        rw [hf]
        rfl
    · rw [dif_neg h1]
      have hlen : vs.length = i + 1 := by simp at h1; omega
      have hi : i < vs.length := by omega
      have e1 : vs.drop i = vs[i] :: vs.drop (i + 1) := List.drop_eq_getElem_cons hi
      have e2 : vs.drop (i + 1) = [] := by
        apply List.drop_eq_nil_of_le; omega
      rw [e1, e2]
      simp [segmentsOf]

theorem isPointTouchingPolyline_eq (rt : Runtime) (vertices : List Point) (point : Point) :
    isPointTouchingPolyline rt constructor (some vertices) point none
      = (segmentsOf vertices).any
          (fun s => isPointOnLineSegment rt point s.1 s.2 (fin (1 / 2))) := by
  unfold isPointTouchingPolyline
  simp only [Option.getD_some, Option.getD_none]
  rw [touchingLoop_eq rt point _ vertices vertices.length 0 (by omega)]
  rfl

/-- C29, as stated, fails: for the zero-length segment from `(0,0)` to `(0,0)`, the point
`(0,0)` and the tolerance 1, the distance from the point to the segment is 0, which is at
most 1, but `isPointOnLineSegment` returns false. -/
theorem isPointOnLineSegment_rejects_zero_length_segment :
    isPointOnLineSegment refRuntime ⟨0, 0, none⟩ ⟨0, 0, none⟩ ⟨0, 0, none⟩ 1 = false
    ∧ calculateDistance refRuntime ⟨0, 0, none⟩ ⟨0, 0, none⟩ = fin 0
    ∧ (fin 0).le 1 = true := by
  have e0 : exactSqrt (fin 0) = fin 0 := by
    have := exactSqrt_sq 0
    norm_num at this
    exact this
  refine ⟨?_, ?_, by decide⟩
  · have h := isPointOnLineSegment_degenerate refRuntime refRuntime_exactArith 0 0 0 0 none
      none none 1
    simp only [ofNat_eq_fin, Nat.cast_zero]
    exact h
  · simp only [ofNat_eq_fin, Nat.cast_zero, refDistance_planar]
    norm_num
    exact e0

/-- C29, amended: on a host with exact arithmetic, for a point and a segment with finite
coordinates whose end points differ, and for every tolerance, `isPointOnLineSegment`
returns true if and only if the square root of the squared planar distance from the point
to the nearest point of the segment is `<=` the tolerance, where the nearest point is the
foot of the perpendicular with its parameter clamped to `[0, 1]` (no point of the segment
is nearer); for a zero-length segment it returns false; `isPointTouchingPolyline` with no
tolerance argument tests the consecutive segments with tolerance 0.5. -/
theorem isPointOnLineSegment_iff_near (rt : Runtime) (hex : ExactArith rt)
    (px py sx sy ex ey : ℚ) (zp zs ze : Option JSNumber) (tolerance : JSNumber)
    (hseg : ¬ (sx = ex ∧ sy = ey)) :
    (isPointOnLineSegment rt ⟨fin px, fin py, zp⟩ ⟨fin sx, fin sy, zs⟩ ⟨fin ex, fin ey, ze⟩
        tolerance = true
      ↔ (rt.sqrt (fin (sqDistAt px py sx sy ex ey (nearestParam px py sx sy ex ey)))).le
          tolerance = true)
    ∧ 0 ≤ nearestParam px py sx sy ex ey ∧ nearestParam px py sx sy ex ey ≤ 1
    ∧ (∀ s : ℚ, 0 ≤ s → s ≤ 1 →
        sqDistAt px py sx sy ex ey (nearestParam px py sx sy ex ey)
          ≤ sqDistAt px py sx sy ex ey s)
    ∧ isPointOnLineSegment rt ⟨fin px, fin py, zp⟩ ⟨fin sx, fin sy, zs⟩ ⟨fin sx, fin sy, ze⟩
        tolerance = false
    ∧ (∀ (vertices : List Point) (point : Point),
        isPointTouchingPolyline rt constructor (some vertices) point none
          = (segmentsOf vertices).any
              (fun s => isPointOnLineSegment rt point s.1 s.2 (fin (1 / 2)))) := by
  refine ⟨?_, (nearestParam_mem px py sx sy ex ey).1, (nearestParam_mem px py sx sy ex ey).2,
    fun s hs0 hs1 => sqDistAt_nearest_le px py sx sy ex ey hseg s hs0 hs1,
    isPointOnLineSegment_degenerate rt hex px py sx sy zp zs ze tolerance,
    fun vertices point => isPointTouchingPolyline_eq rt vertices point⟩
  rw [isPointOnLineSegment_exact rt hex px py sx sy ex ey zp zs ze tolerance hseg]

end GeometryCalculator

/-! ## Subtypes of block names -/

namespace BlockProcessor

theorem determineFittingType_eq (rt : Runtime) (blockName : JSString) :
    determineFittingType rt constructor blockName = subtypeOfName (rt.toUpperCase blockName) := by
  unfold determineFittingType subtypeOfName
  simp only [constructor, firstKeyword]
  generalize rt.toUpperCase blockName = U
  by_cases h1 : includes U "BEND".toList = true
  · rw [if_pos h1, if_pos h1]
  rw [if_neg h1, if_neg h1]
  by_cases h2 : includes U "BRANCH".toList = true
  · rw [if_pos h2, if_pos h2]
  rw [if_neg h2, if_neg h2]
  by_cases h3 : includes U "COUPLING".toList = true
  · rw [if_pos h3, if_pos h3]
  rw [if_neg h3, if_neg h3]
  by_cases h4 : includes U "REDUCER".toList = true
  · rw [if_pos h4, if_pos h4]
  rw [if_neg h4, if_neg h4]
  by_cases h5 : includes U "TEE".toList = true
  · rw [if_pos h5, if_pos h5]
  rw [if_neg h5, if_neg h5]
  by_cases h6 : includes U "ELBOW".toList = true
  · rw [if_pos h6, if_pos h6]
  rw [if_neg h6, if_neg h6]
  have h5' : includes U "TEE".toList = false := by
    cases h : includes U "TEE".toList
    · rfl
    · exact absurd h h5
  simp only [h5', Bool.or_false, Bool.or_eq_true]

/-- C31: for every block name, with `U` its upper-cased form, `determineFittingType`
returns the subtype of the first keyword, in the order `BEND`, `BRANCH`, `COUPLING`,
`REDUCER`, `TEE`, `ELBOW`, that occurs in `U`; if none occurs it returns `bend` when `U`
contains `45` or `ANGLE`, else `branch` when `U` contains `Y`, else `coupling` when `U`
contains `COUPLE` or `JOINT`, else `null`; a name whose upper-cased form contains `BEND`
is a bend whatever else it contains, as `BEND-TEE` is. -/
theorem determineFittingType_first_keyword (rt : Runtime) (blockName : JSString) :
    determineFittingType rt constructor blockName = subtypeOfName (rt.toUpperCase blockName)
    ∧ (includes (rt.toUpperCase blockName) "BEND".toList = true →
        determineFittingType rt constructor blockName = some "bend".toList)
    ∧ determineFittingType refRuntime constructor "Bend-Tee".toList = some "bend".toList
    ∧ determineFittingType refRuntime constructor "Y-piece".toList = some "branch".toList
    ∧ determineFittingType refRuntime constructor "valve".toList = none := by
  refine ⟨determineFittingType_eq rt blockName, ?_, by decide, by decide, by decide⟩
  intro h
  rw [determineFittingType_eq, subtypeOfName, if_pos h]

end BlockProcessor
/-! ## Shaft numbers of entity lists -/

namespace SelectionFilter

theorem extractShaftNumberOf_ok (entity : Entity) (h : entity.layer ≠ none) :
    extractShaftNumberOf entity = .ok (shaftOf entity) := by
  obtain ⟨layerName, hl⟩ := Option.ne_none_iff_exists'.1 h
  unfold extractShaftNumberOf shaftOf
  rw [hl]

theorem mem_setAdd (shafts : List JSString) (value s : JSString) :
    s ∈ setAdd shafts value ↔ s ∈ shafts ∨ s = value := by
  unfold setAdd
  by_cases h : value ∈ shafts
  · rw [if_pos h]
    constructor
    · exact Or.inl
    · rintro (h1 | h1)
      · exact h1
      · rw [h1]; exact h
  · rw [if_neg h, List.mem_append, List.mem_singleton]

theorem nodup_setAdd (shafts : List JSString) (value : JSString) (h : shafts.Nodup) :
    (setAdd shafts value).Nodup := by
  unfold setAdd
  by_cases hv : value ∈ shafts
  · rw [if_pos hv]; exact h
  · rw [if_neg hv]
    exact List.Nodup.append h (List.nodup_singleton value) (by
      intro a ha hb
      rw [List.mem_singleton] at hb
      subst hb
      exact hv ha)

theorem uniqueShaftsLoop_spec (entities : List Entity) :
    (∀ e ∈ entities, e.layer ≠ none) →
    ∀ shafts : List JSString, shafts.Nodup →
      ∃ out, uniqueShaftsLoop entities shafts = .ok out ∧ out.Nodup
        ∧ ∀ s, s ∈ out ↔ s ∈ shafts ∨ (s ≠ [] ∧ ∃ e ∈ entities, shaftOf e = s) := by
  induction entities with
  | nil =>
    intro _ shafts hnd
    refine ⟨shafts, rfl, hnd, ?_⟩
    intro s
    simp
  | cons entity rest ih =>
    intro hl shafts hnd
    have hrest : ∀ e ∈ rest, e.layer ≠ none := fun e he => hl e (List.mem_cons_of_mem _ he)
    have hok := extractShaftNumberOf_ok entity (hl entity (List.mem_cons_self _ _))
    by_cases hs : shaftOf entity = []
    · obtain ⟨out, hout, hnd', hmem⟩ := ih hrest shafts hnd
      refine ⟨out, ?_, hnd', ?_⟩
      · simp only [uniqueShaftsLoop, hok, hs, ne_eq, not_true_eq_false, if_false]
        exact hout
      · intro s
        rw [hmem s]
        constructor
        · rintro (h | ⟨h1, e, he, h2⟩)
          · exact Or.inl h
          · exact Or.inr ⟨h1, e, List.mem_cons_of_mem _ he, h2⟩
        · rintro (h | ⟨h1, e, he, h2⟩)
          · exact Or.inl h
          · rcases List.mem_cons.1 he with rfl | he'
            · exact absurd (h2.symm.trans hs) h1
            · exact Or.inr ⟨h1, e, he', h2⟩
    · obtain ⟨out, hout, hnd', hmem⟩ :=
        ih hrest (setAdd shafts (shaftOf entity)) (nodup_setAdd _ _ hnd)
      refine ⟨out, ?_, hnd', ?_⟩
      · simp only [uniqueShaftsLoop, hok, ne_eq, hs, not_false_eq_true, if_true]
        exact hout
      · intro s
        rw [hmem s, mem_setAdd]
        constructor
        · rintro ((h | h) | ⟨h1, e, he, h2⟩)
          · exact Or.inl h
          · exact Or.inr ⟨by rw [h]; exact hs, entity, List.mem_cons_self _ _, h.symm⟩
          · exact Or.inr ⟨h1, e, List.mem_cons_of_mem _ he, h2⟩
        · rintro (h | ⟨h1, e, he, h2⟩)
          · exact Or.inl (Or.inl h)
          · rcases List.mem_cons.1 he with rfl | he'
            · exact Or.inl (Or.inr h2.symm)
            · exact Or.inr ⟨h1, e, he', h2⟩

theorem arraySort_sorted (strings : List JSString) : List.Sorted StringLE (arraySort strings) := by
  haveI : IsTotal JSString (fun a b => codeUnits a ≤ codeUnits b) :=
    ⟨fun a b => le_total (codeUnits a) (codeUnits b)⟩
  haveI : IsTrans JSString (fun a b => codeUnits a ≤ codeUnits b) :=
    ⟨fun _ _ _ h1 h2 => le_trans h1 h2⟩
  exact List.sorted_insertionSort (fun a b => codeUnits a ≤ codeUnits b) strings

theorem arraySort_perm (strings : List JSString) : List.Perm (arraySort strings) strings :=
  List.perm_insertionSort (fun a b => codeUnits a ≤ codeUnits b) strings

theorem getUniqueShaftNumbers_spec (entities : List Entity)
    (hl : ∀ e ∈ entities, e.layer ≠ none) :
    ∃ shafts, getUniqueShaftNumbers entities = .ok shafts
      ∧ List.Sorted StringLE shafts ∧ shafts.Nodup
      ∧ ∀ s, s ∈ shafts ↔ (s ≠ [] ∧ ∃ e ∈ entities, shaftOf e = s) := by
  obtain ⟨out, hout, hnd, hmem⟩ := uniqueShaftsLoop_spec entities hl [] List.nodup_nil
  refine ⟨arraySort out, ?_, arraySort_sorted out, ?_, ?_⟩
  · unfold getUniqueShaftNumbers
    rw [hout]
  · exact (arraySort_perm out).nodup_iff.2 hnd
  · intro s
    rw [(arraySort_perm out).mem_iff, hmem s]
    simp

/-- C32: for every list of entities that all have a layer name, `getUniqueShaftNumbers`
returns a list that is sorted in ascending order of the code units, has no duplicates and
no empty string, and whose elements are exactly the non-empty values of
`extractShaftNumber(entity.layer)` over the input entities. -/
theorem getUniqueShaftNumbers_sorted_unique (entities : List Entity)
    (hl : ∀ e ∈ entities, e.layer ≠ none) :
    ∃ shafts, getUniqueShaftNumbers entities = .ok shafts
      ∧ List.Sorted StringLE shafts
      ∧ shafts.Nodup
      ∧ [] ∉ shafts
      ∧ ∀ s, s ∈ shafts ↔
          (s ≠ [] ∧ ∃ e ∈ entities, ∃ layerName, e.layer = some layerName
            ∧ extractShaftNumber layerName = s) := by
  obtain ⟨shafts, hres, hsorted, hnd, hmem⟩ := getUniqueShaftNumbers_spec entities hl
  refine ⟨shafts, hres, hsorted, hnd, fun h => ((hmem []).1 h).1 rfl, ?_⟩
  intro s
  rw [hmem s]
  constructor
  · rintro ⟨h1, e, he, h2⟩
    obtain ⟨layerName, hlayer⟩ := Option.ne_none_iff_exists'.1 (hl e he)
    refine ⟨h1, e, he, layerName, hlayer, ?_⟩
    rw [← h2, shaftOf, hlayer]
  · rintro ⟨h1, e, he, layerName, hlayer, h2⟩
    refine ⟨h1, e, he, ?_⟩
    rw [← h2, shaftOf, hlayer]

theorem filterByShaftNumber_eq (entities : List Entity) (shaftNumber : JSString)
    (hl : ∀ e ∈ entities, e.layer ≠ none) :
    filterByShaftNumber entities shaftNumber = .ok (entitiesOfShaft entities shaftNumber) := by
  induction entities with
  | nil => rfl
  | cons entity rest ih =>
    have hrest : ∀ e ∈ rest, e.layer ≠ none := fun e he => hl e (List.mem_cons_of_mem _ he)
    have hok := extractShaftNumberOf_ok entity (hl entity (List.mem_cons_self _ _))
    simp only [filterByShaftNumber, hok, ih hrest, entitiesOfShaft, List.filter_cons,
      decide_eq_true_eq]

/-- C36: for every list of entities that all have a layer name, `filterByShaftNumber`
returns for a shaft number the entities with that shaft number in input order; for the
shaft numbers of `getUniqueShaftNumbers` these lists are not empty and pairwise disjoint,
and an input entity lies in one of them exactly when its shaft number is not empty. -/
theorem filterByShaftNumber_partitions (entities : List Entity)
    (hl : ∀ e ∈ entities, e.layer ≠ none) :
    ∃ shafts, getUniqueShaftNumbers entities = .ok shafts
      ∧ (∀ s, filterByShaftNumber entities s = .ok (entitiesOfShaft entities s))
      ∧ (∀ s, List.Sublist (entitiesOfShaft entities s) entities)
      ∧ (∀ s ∈ shafts, entitiesOfShaft entities s ≠ [])
      ∧ (∀ s ∈ shafts, ∀ t ∈ shafts, s ≠ t →
          List.Disjoint (entitiesOfShaft entities s) (entitiesOfShaft entities t))
      ∧ (∀ e ∈ entities,
          (∃ s ∈ shafts, e ∈ entitiesOfShaft entities s) ↔ shaftOf e ≠ [])
      ∧ (∀ s e, e ∈ entitiesOfShaft entities s → e ∈ entities ∧ shaftOf e = s) := by
  obtain ⟨shafts, hres, -, -, hmem⟩ := getUniqueShaftNumbers_spec entities hl
  have hin : ∀ s e, e ∈ entitiesOfShaft entities s ↔ e ∈ entities ∧ shaftOf e = s := by
    intro s e
    simp only [entitiesOfShaft, List.mem_filter, decide_eq_true_eq]
  refine ⟨shafts, hres, fun s => filterByShaftNumber_eq entities s hl,
    fun s => List.filter_sublist _, ?_, ?_, ?_, fun s e h => (hin s e).1 h⟩
  · intro s hs hnil
    obtain ⟨-, e, he, hse⟩ := (hmem s).1 hs
    have : e ∈ entitiesOfShaft entities s := (hin s e).2 ⟨he, hse⟩
    rw [hnil] at this
    cases this
  · intro s _ t _ hst e hes het
    exact hst (((hin s e).1 hes).2.symm.trans ((hin t e).1 het).2)
  · intro e he
    constructor
    · rintro ⟨s, hs, hes⟩
      rw [((hin s e).1 hes).2]
      exact ((hmem s).1 hs).1
    · intro hne
      exact ⟨shaftOf e, (hmem _).2 ⟨hne, e, he, rfl⟩, (hin _ e).2 ⟨he, rfl⟩⟩

end SelectionFilter
/-! ## Validation of blocks -/

namespace BlockProcessor

theorem validateBlock_named (rt : Runtime) (self : BlockProcessor) (block : Entity)
    (blockName : JSString) (h : block.blockName = some blockName) :
    ∃ result, validateBlock rt self block = .ok result
      ∧ (result.isValid = true
          ↔ blockName ≠ [] ∧ block.insertionPoint ≠ none ∧ stringTruthy block.layer = true
            ∧ stringTruthy (determineFittingType rt self blockName) = true) := by
  unfold validateBlock
  simp only [h]
  refine ⟨_, rfl, ?_⟩
  simp only [decide_eq_true_eq, List.nil_append]
  have hb : stringTruthy (some blockName) = true ↔ blockName ≠ [] := by
    simp [stringTruthy]
  have hi : block.insertionPoint.isSome = true ↔ block.insertionPoint ≠ none := by
    cases block.insertionPoint <;> simp
  rw [← hb, ← hi]
  cases stringTruthy (some blockName) <;> cases block.insertionPoint.isSome
    <;> cases stringTruthy block.layer
    <;> cases stringTruthy (determineFittingType rt self blockName) <;> simp

/-- C33, the failing input: for a block that has an insertion point and a layer but no
`blockName`, `validateBlock` does not return a validation result: after recording
`Block name is required` it calls `determineFittingType` with the absent name, and
`toUpperCase` throws a `TypeError`.  `processBlock` handles the same block, since it
replaces an absent name with the empty string. -/
theorem validateBlock_throws_without_name (rt : Runtime) (self : BlockProcessor) :
    namelessBlock.blockName = none
    ∧ validateBlock rt self namelessBlock = .error .typeError
    ∧ ∃ fitting, processBlock rt self namelessBlock = .ok fitting := by
  refine ⟨rfl, rfl, ?_⟩
  have hl : ∃ shaftNumber, extractShaftNumber namelessBlock.layer = .ok shaftNumber := by
    simp only [extractShaftNumber, namelessBlock]
    cases RegExp.exec true shaftPattern "GEB-SH-01".toList with
    | none => exact ⟨_, rfl⟩
    | some m => exact ⟨_, rfl⟩
  obtain ⟨shaftNumber, hs⟩ := hl
  unfold processBlock
  simp only [hs]
  cases determineFittingType rt self (namelessBlock.blockName.getD []) with
  | none => exact ⟨_, rfl⟩
  | some t =>
    cases t with
    | nil => exact ⟨_, rfl⟩
    | cons c cs => exact ⟨_, rfl⟩

end BlockProcessor
/-! ## Intersections of segments and polylines -/

theorem someSegment_false (vertices : List Point) :
    someSegment (fun _ _ => false) vertices = false := by
  induction vertices with
  | nil => rfl
  | cons a rest ih =>
    cases rest with
    | nil => rfl
    | cons b rest' =>
      rw [someSegment]
      simp only [Bool.false_eq_true, if_false]
      exact ih

theorem someSegment_iff (test : Point → Point → Bool) (vertices : List Point) :
    someSegment test vertices = true ↔ ∃ s ∈ segmentsOf vertices, test s.1 s.2 = true := by
  induction vertices with
  | nil => simp [someSegment, segmentsOf]
  | cons a rest ih =>
    cases rest with
    | nil => simp [someSegment, segmentsOf]
    | cons b rest' =>
      rw [someSegment, GeometryCalculator.segmentsOf_cons_cons]
      by_cases h : test a b = true
      · rw [if_pos h]
        exact ⟨fun _ => ⟨(a, b), List.mem_cons_self _ _, h⟩, fun _ => rfl⟩
      · rw [if_neg h, ih]
        constructor
        · rintro ⟨s, hs, ht⟩
          exact ⟨s, List.mem_cons_of_mem _ hs, ht⟩
        · rintro ⟨s, hs, ht⟩
          rcases List.mem_cons.1 hs with rfl | hs'
          · exact absurd ht h
          · exact ⟨s, hs', ht⟩

theorem collectSegments_ne_nil_iff {α : Type} (body : Point → Point → List α)
    (vertices : List Point) :
    collectSegments body vertices ≠ [] ↔ ∃ s ∈ segmentsOf vertices, body s.1 s.2 ≠ [] := by
  induction vertices with
  | nil => simp [collectSegments, segmentsOf]
  | cons a rest ih =>
    cases rest with
    | nil => simp [collectSegments, segmentsOf]
    | cons b rest' =>
      rw [collectSegments, GeometryCalculator.segmentsOf_cons_cons]
      rw [Ne, List.append_eq_nil, not_and_or]
      constructor
      · rintro (h | h)
        · exact ⟨(a, b), List.mem_cons_self _ _, h⟩
        · obtain ⟨s, hs, hb⟩ := ih.1 h
          exact ⟨s, List.mem_cons_of_mem _ hs, hb⟩
      · rintro ⟨s, hs, hb⟩
        rcases List.mem_cons.1 hs with rfl | hs'
        · exact Or.inl hb
        · exact Or.inr (ih.2 ⟨s, hs', hb⟩)

theorem mem_segmentsOf (vertices : List Point) (s : Point × Point)
    (h : s ∈ segmentsOf vertices) : s.1 ∈ vertices ∧ s.2 ∈ vertices := by
  unfold segmentsOf at h
  obtain ⟨a, b⟩ := s
  have h' := List.of_mem_zip h
  exact ⟨h'.1, List.mem_of_mem_tail h'.2⟩

theorem abs_lt_epsilon (c : ℚ) : (JSNumber.abs (fin c)).lt epsilon = decide (|c| < epsValue) := by
  simp only [JSNumber.abs, JSNumber.lt, JSNumber.gt, epsilon, epsValue]

theorem fin_lt_zero_or_gt_one (u : ℚ) :
    ((fin u).lt 0 || (fin u).gt 1) = decide (u < 0 ∨ 1 < u) := by
  rw [fin_lt_zero, fin_gt_one]
  by_cases h1 : u < 0 <;> by_cases h2 : 1 < u <;> simp [h1, h2]

namespace GeometryUtils

theorem linesIntersect_false (p1 p2 p3 p4 : Point) : linesIntersect p1 p2 p3 p4 = false := rfl

theorem polylinesIntersect_false (poly1 poly2 : Option (List Point)) :
    polylinesIntersect poly1 poly2 = false := by
  unfold polylinesIntersect
  have h : (fun a b : Point =>
      someSegment (fun c d => linesIntersect a b c d) (getPolylineVertices poly2))
      = fun _ _ => false := by
    funext a b
    exact someSegment_false _
  simp only [h]
  exact someSegment_false _

end GeometryUtils

namespace GeometryCalculator

theorem crossing_diagonals_intersect :
    lineSegmentsIntersect refRuntime ⟨fin 0, fin 0, none⟩ ⟨fin 2, fin 2, none⟩
      ⟨fin 0, fin 2, none⟩ ⟨fin 2, fin 0, none⟩ = true := by
  have hc : crossProduct 0 0 2 2 0 2 2 0 ≠ 0 := by unfold crossProduct; norm_num
  rw [lineSegmentsIntersect_exact refRuntime refRuntime_exactArith 0 0 2 2 0 2 2 0 none none
    none none hc]
  unfold crossProduct
  norm_num

theorem calculateLineIntersection_exact (rt : Runtime) (hex : ExactArith rt)
    (x1 y1 x2 y2 x3 y3 x4 y4 : ℚ) (z1 z2 z3 z4 : Option JSNumber) :
    calculateLineIntersection rt ⟨fin x1, fin y1, z1⟩ ⟨fin x2, fin y2, z2⟩ ⟨fin x3, fin y3, z3⟩
        ⟨fin x4, fin y4, z4⟩
      = if |crossProduct x1 y1 x2 y2 x3 y3 x4 y4| < epsValue then none
        else if paramA x1 y1 x2 y2 x3 y3 x4 y4 < 0 ∨ 1 < paramA x1 y1 x2 y2 x3 y3 x4 y4 then none
        else if paramB x1 y1 x2 y2 x3 y3 x4 y4 < 0 ∨ 1 < paramB x1 y1 x2 y2 x3 y3 x4 y4 then none
        else
          some
            { x := fin (x1 + paramA x1 y1 x2 y2 x3 y3 x4 y4 * (x2 - x1))
              y := fin (y1 + paramA x1 y1 x2 y2 x3 y3 x4 y4 * (y2 - y1))
              z := some (rt.add (orZero z1)
                (rt.mul (fin (paramA x1 y1 x2 y2 x3 y3 x4 y4))
                  (rt.sub (orZero z2) (orZero z1)))) } := by
  have hd := denominatorAt_exact rt hex x1 y1 x2 y2 x3 y3 x4 y4 z1 z2 z3 z4
  obtain ⟨hadd, hsub, hmul, hdiv⟩ := hex
  unfold denominatorAt at hd
  simp only [] at hd
  unfold calculateLineIntersection
  simp only []
  rw [hd, abs_lt_epsilon]
  by_cases h0 : |crossProduct x1 y1 x2 y2 x3 y3 x4 y4| < epsValue
  · simp only [h0, decide_True, if_true]
  · have hne : crossProduct x1 y1 x2 y2 x3 y3 x4 y4 ≠ 0 := by
      intro h
      apply h0
      rw [h, abs_zero]
      unfold epsValue
      norm_num
    have ha : rt.div
        (rt.sub (rt.mul (rt.sub (fin x4) (fin x3)) (rt.sub (fin y1) (fin y3)))
          (rt.mul (rt.sub (fin y4) (fin y3)) (rt.sub (fin x1) (fin x3))))
        (fin (crossProduct x1 y1 x2 y2 x3 y3 x4 y4))
        = fin (paramA x1 y1 x2 y2 x3 y3 x4 y4) := by
      simp only [hsub, hmul, hdiv _ _ hne, paramA]
    have hb : rt.div
        (rt.sub (rt.mul (rt.sub (fin x2) (fin x1)) (rt.sub (fin y1) (fin y3)))
          (rt.mul (rt.sub (fin y2) (fin y1)) (rt.sub (fin x1) (fin x3))))
        (fin (crossProduct x1 y1 x2 y2 x3 y3 x4 y4))
        = fin (paramB x1 y1 x2 y2 x3 y3 x4 y4) := by
      simp only [hsub, hmul, hdiv _ _ hne, paramB]
    rw [ha, hb, fin_lt_zero_or_gt_one, fin_lt_zero_or_gt_one]
    simp only [h0, decide_False, Bool.false_eq_true, if_false, decide_eq_true_eq, hsub, hmul,
      hadd]

theorem params_solve (x1 y1 x2 y2 x3 y3 x4 y4 : ℚ)
    (hden : crossProduct x1 y1 x2 y2 x3 y3 x4 y4 ≠ 0) :
    x1 + paramA x1 y1 x2 y2 x3 y3 x4 y4 * (x2 - x1)
        = x3 + paramB x1 y1 x2 y2 x3 y3 x4 y4 * (x4 - x3)
    ∧ y1 + paramA x1 y1 x2 y2 x3 y3 x4 y4 * (y2 - y1)
        = y3 + paramB x1 y1 x2 y2 x3 y3 x4 y4 * (y4 - y3) := by
  have hc : crossProduct x1 y1 x2 y2 x3 y3 x4 y4
      = (y4 - y3) * (x2 - x1) - (x4 - x3) * (y2 - y1) := rfl
  unfold paramA paramB
  rw [hc] at hden ⊢
  constructor
  · field_simp
    ring
  · field_simp
    ring

theorem params_unique (x1 y1 x2 y2 x3 y3 x4 y4 ua ub : ℚ)
    (hden : crossProduct x1 y1 x2 y2 x3 y3 x4 y4 ≠ 0)
    (hx : x1 + ua * (x2 - x1) = x3 + ub * (x4 - x3))
    (hy : y1 + ua * (y2 - y1) = y3 + ub * (y4 - y3)) :
    paramA x1 y1 x2 y2 x3 y3 x4 y4 = ua ∧ paramB x1 y1 x2 y2 x3 y3 x4 y4 = ub := by
  have hc : crossProduct x1 y1 x2 y2 x3 y3 x4 y4
      = (y4 - y3) * (x2 - x1) - (x4 - x3) * (y2 - y1) := rfl
  unfold paramA paramB
  constructor
  · rw [div_eq_iff hden, hc]
    linear_combination (x4 - x3) * hy - (y4 - y3) * hx
  · rw [div_eq_iff hden, hc]
    linear_combination (x2 - x1) * hy - (y2 - y1) * hx

end GeometryCalculator
namespace GeometryUtils

/-- C34, the failing input: the segments from `(0,0)` to `(2,2)` and from `(0,2)` to `(2,0)`
are not parallel and cross at `(1,1)`.  `GeometryCalculator.lineSegmentsIntersect` returns
true for them, while `GeometryUtils.linesIntersect`, described by its own comment as the
check whether two line segments intersect, has the body `return false` and returns false;
likewise, for the two polylines made of these segments,
`GeometryCalculator.polylinesIntersect` returns true and `GeometryUtils.polylinesIntersect`
returns false. -/
theorem linesIntersect_misses_crossing_segments :
    GeometryCalculator.lineSegmentsIntersect refRuntime ⟨fin 0, fin 0, none⟩
        ⟨fin 2, fin 2, none⟩ ⟨fin 0, fin 2, none⟩ ⟨fin 2, fin 0, none⟩ = true
    ∧ linesIntersect ⟨fin 0, fin 0, none⟩ ⟨fin 2, fin 2, none⟩ ⟨fin 0, fin 2, none⟩
        ⟨fin 2, fin 0, none⟩ = false
    ∧ GeometryCalculator.polylinesIntersect refRuntime (some risingDiagonal)
        (some fallingDiagonal) = true
    ∧ polylinesIntersect (some risingDiagonal) (some fallingDiagonal) = false := by
  refine ⟨GeometryCalculator.crossing_diagonals_intersect, rfl, ?_, rfl⟩
  simp only [GeometryCalculator.polylinesIntersect, risingDiagonal, fallingDiagonal,
    Option.getD_some, someSegment, GeometryCalculator.crossing_diagonals_intersect, if_true]

end GeometryUtils

namespace GeometryCalculator

theorem lineSegmentsIntersect_params (rt : Runtime) (hex : ExactArith rt)
    (x1 y1 x2 y2 x3 y3 x4 y4 : ℚ) (z1 z2 z3 z4 : Option JSNumber)
    (hden : crossProduct x1 y1 x2 y2 x3 y3 x4 y4 ≠ 0) :
    lineSegmentsIntersect rt ⟨fin x1, fin y1, z1⟩ ⟨fin x2, fin y2, z2⟩ ⟨fin x3, fin y3, z3⟩
        ⟨fin x4, fin y4, z4⟩ = true
      ↔ (0 ≤ paramA x1 y1 x2 y2 x3 y3 x4 y4 ∧ paramA x1 y1 x2 y2 x3 y3 x4 y4 ≤ 1)
        ∧ 0 ≤ paramB x1 y1 x2 y2 x3 y3 x4 y4 ∧ paramB x1 y1 x2 y2 x3 y3 x4 y4 ≤ 1 := by
  rw [lineSegmentsIntersect_exact rt hex x1 y1 x2 y2 x3 y3 x4 y4 z1 z2 z3 z4 hden]
  simp only [Bool.and_eq_true, decide_eq_true_eq, paramA, paramB]
  tauto

theorem cross_ne_zero_of_eps (c : ℚ) (h : ¬ |c| < epsValue) : c ≠ 0 := by
  intro h0
  apply h
  rw [h0, abs_zero]
  unfold epsValue
  norm_num

theorem calculateLineIntersection_isSome (rt : Runtime) (hex : ExactArith rt)
    (x1 y1 x2 y2 x3 y3 x4 y4 : ℚ) (z1 z2 z3 z4 : Option JSNumber) :
    (calculateLineIntersection rt ⟨fin x1, fin y1, z1⟩ ⟨fin x2, fin y2, z2⟩
        ⟨fin x3, fin y3, z3⟩ ⟨fin x4, fin y4, z4⟩).isSome = true
      ↔ lineSegmentsIntersect rt ⟨fin x1, fin y1, z1⟩ ⟨fin x2, fin y2, z2⟩
            ⟨fin x3, fin y3, z3⟩ ⟨fin x4, fin y4, z4⟩ = true
          ∧ epsValue ≤ |crossProduct x1 y1 x2 y2 x3 y3 x4 y4| := by
  rw [calculateLineIntersection_exact rt hex]
  by_cases h0 : |crossProduct x1 y1 x2 y2 x3 y3 x4 y4| < epsValue
  · rw [if_pos h0]
    simp only [Option.isSome_none, Bool.false_eq_true, false_iff, not_and, not_le]
    exact fun _ => h0
  · have hne := cross_ne_zero_of_eps _ h0
    rw [if_neg h0, lineSegmentsIntersect_params rt hex x1 y1 x2 y2 x3 y3 x4 y4 z1 z2 z3 z4 hne]
    by_cases ha : paramA x1 y1 x2 y2 x3 y3 x4 y4 < 0 ∨ 1 < paramA x1 y1 x2 y2 x3 y3 x4 y4
    · rw [if_pos ha]
      simp only [Option.isSome_none, Bool.false_eq_true, false_iff]
      rintro ⟨⟨⟨h1, h2⟩, -⟩, -⟩
      rcases ha with ha | ha <;> linarith
    · rw [if_neg ha]
      by_cases hb : paramB x1 y1 x2 y2 x3 y3 x4 y4 < 0 ∨ 1 < paramB x1 y1 x2 y2 x3 y3 x4 y4
      · rw [if_pos hb]
        simp only [Option.isSome_none, Bool.false_eq_true, false_iff]
        rintro ⟨⟨-, h1, h2⟩, -⟩
        rcases hb with hb | hb <;> linarith
      · rw [if_neg hb]
        simp only [Option.isSome_some, true_iff]
        rw [not_or, not_lt, not_lt] at ha hb
        exact ⟨⟨ha, hb⟩, not_lt.1 h0⟩

/-- C35: on a host with exact arithmetic, for segments with finite coordinates,
`calculateLineIntersection` returns `null` whenever the absolute value of the denominator
is below `1e-10`; whenever it returns a point, there are `ua` and `ub` in `[0, 1]` such
that the point's `(x, y)` is `p1 + ua (p2 - p1)` and also `p3 + ub (p4 - p3)`; and it does
return a point when the denominator is not below `1e-10` in absolute value and the two
segments have a point in common. -/
theorem calculateLineIntersection_on_both_segments (rt : Runtime) (hex : ExactArith rt)
    (x1 y1 x2 y2 x3 y3 x4 y4 : ℚ) (z1 z2 z3 z4 : Option JSNumber) :
    (|crossProduct x1 y1 x2 y2 x3 y3 x4 y4| < epsValue →
      calculateLineIntersection rt ⟨fin x1, fin y1, z1⟩ ⟨fin x2, fin y2, z2⟩
        ⟨fin x3, fin y3, z3⟩ ⟨fin x4, fin y4, z4⟩ = none)
    ∧ (∀ point,
        calculateLineIntersection rt ⟨fin x1, fin y1, z1⟩ ⟨fin x2, fin y2, z2⟩
            ⟨fin x3, fin y3, z3⟩ ⟨fin x4, fin y4, z4⟩ = some point →
          ∃ ua ub : ℚ, 0 ≤ ua ∧ ua ≤ 1 ∧ 0 ≤ ub ∧ ub ≤ 1
            ∧ point.x = fin (x1 + ua * (x2 - x1)) ∧ point.y = fin (y1 + ua * (y2 - y1))
            ∧ x1 + ua * (x2 - x1) = x3 + ub * (x4 - x3)
            ∧ y1 + ua * (y2 - y1) = y3 + ub * (y4 - y3))
    ∧ (epsValue ≤ |crossProduct x1 y1 x2 y2 x3 y3 x4 y4| →
        SegmentsMeet x1 y1 x2 y2 x3 y3 x4 y4 →
          ∃ point,
            calculateLineIntersection rt ⟨fin x1, fin y1, z1⟩ ⟨fin x2, fin y2, z2⟩
              ⟨fin x3, fin y3, z3⟩ ⟨fin x4, fin y4, z4⟩ = some point) := by
  refine ⟨?_, ?_, ?_⟩
  · intro h0
    rw [calculateLineIntersection_exact rt hex, if_pos h0]
  · intro point hpt
    rw [calculateLineIntersection_exact rt hex] at hpt
    by_cases h0 : |crossProduct x1 y1 x2 y2 x3 y3 x4 y4| < epsValue
    · rw [if_pos h0] at hpt; cases hpt
    · rw [if_neg h0] at hpt
      by_cases ha : paramA x1 y1 x2 y2 x3 y3 x4 y4 < 0 ∨ 1 < paramA x1 y1 x2 y2 x3 y3 x4 y4
      · rw [if_pos ha] at hpt; cases hpt
      · rw [if_neg ha] at hpt
        by_cases hb : paramB x1 y1 x2 y2 x3 y3 x4 y4 < 0 ∨ 1 < paramB x1 y1 x2 y2 x3 y3 x4 y4
        · rw [if_pos hb] at hpt; cases hpt
        · rw [if_neg hb] at hpt
          rw [not_or, not_lt, not_lt] at ha hb
          have hsol := params_solve x1 y1 x2 y2 x3 y3 x4 y4 (cross_ne_zero_of_eps _ h0)
          have hp := (Option.some.inj hpt).symm
          refine ⟨paramA x1 y1 x2 y2 x3 y3 x4 y4, paramB x1 y1 x2 y2 x3 y3 x4 y4, ha.1, ha.2,
            hb.1, hb.2, ?_, ?_, hsol.1, hsol.2⟩
          · rw [hp]
          · rw [hp]
  · rintro heps ⟨ua, ub, h1, h2, h3, h4, hx, hy⟩
    have h0 : ¬ |crossProduct x1 y1 x2 y2 x3 y3 x4 y4| < epsValue := not_lt.2 heps
    have hne := cross_ne_zero_of_eps _ h0
    obtain ⟨hA, hB⟩ := params_unique x1 y1 x2 y2 x3 y3 x4 y4 ua ub hne hx hy
    have hsome := (calculateLineIntersection_isSome rt hex x1 y1 x2 y2 x3 y3 x4 y4 z1 z2 z3
      z4).2 ⟨(lineSegmentsIntersect_params rt hex x1 y1 x2 y2 x3 y3 x4 y4 z1 z2 z3 z4 hne).2
        ⟨⟨by rw [hA]; exact h1, by rw [hA]; exact h2⟩, by rw [hB]; exact h3,
          by rw [hB]; exact h4⟩, heps⟩
    exact Option.isSome_iff_exists.1 hsome

theorem planarFinite_cases (p : Point) (h : PlanarFinite p) :
    ∃ x y : ℚ, p = ⟨fin x, fin y, p.z⟩ := by
  obtain ⟨⟨x, hx⟩, ⟨y, hy⟩⟩ := h
  refine ⟨x, y, ?_⟩
  cases p
  simp only [Point.mk.injEq] at hx hy ⊢
  exact ⟨hx, hy, trivial⟩

theorem intersection_implies_intersect (rt : Runtime) (hex : ExactArith rt)
    (p1 p2 p3 p4 : Point) (h1 : PlanarFinite p1) (h2 : PlanarFinite p2) (h3 : PlanarFinite p3)
    (h4 : PlanarFinite p4) (h : calculateLineIntersection rt p1 p2 p3 p4 ≠ none) :
    lineSegmentsIntersect rt p1 p2 p3 p4 = true := by
  obtain ⟨x1, y1, e1⟩ := planarFinite_cases p1 h1
  obtain ⟨x2, y2, e2⟩ := planarFinite_cases p2 h2
  obtain ⟨x3, y3, e3⟩ := planarFinite_cases p3 h3
  obtain ⟨x4, y4, e4⟩ := planarFinite_cases p4 h4
  rw [e1, e2, e3, e4] at h ⊢
  exact ((calculateLineIntersection_isSome rt hex x1 y1 x2 y2 x3 y3 x4 y4 _ _ _ _).1
    (Option.isSome_iff_ne_none.2 h)).1

/-- C39, as stated, fails: the segment from `(0,0)` to `(2^-20, 0)` and the segment from
`(2^-21, -2^-20)` to `(2^-21, 2^-20)` cross in their midpoints, and the denominator is
`2^-39`, which is not 0 but below `1e-10`; `lineSegmentsIntersect` returns true and
`calculateLineIntersection` returns `null`, so `polylinesIntersect` is true while
`findIntersectionPoints` is empty. -/
theorem intersection_operations_disagree :
    lineSegmentsIntersect refRuntime ⟨fin 0, fin 0, none⟩ ⟨fin tiny, fin 0, none⟩
        ⟨fin (tiny / 2), fin (-tiny), none⟩ ⟨fin (tiny / 2), fin tiny, none⟩ = true
    ∧ calculateLineIntersection refRuntime ⟨fin 0, fin 0, none⟩ ⟨fin tiny, fin 0, none⟩
        ⟨fin (tiny / 2), fin (-tiny), none⟩ ⟨fin (tiny / 2), fin tiny, none⟩ = none
    ∧ polylinesIntersect refRuntime (some tinyHorizontal) (some tinyVertical) = true
    ∧ findIntersectionPoints refRuntime (some tinyHorizontal) (some tinyVertical) = [] := by
  have hc : crossProduct 0 0 tiny 0 (tiny / 2) (-tiny) (tiny / 2) tiny = 2 * tiny * tiny := by
    unfold crossProduct
    ring
  have hne : crossProduct 0 0 tiny 0 (tiny / 2) (-tiny) (tiny / 2) tiny ≠ 0 := by
    rw [hc]; unfold tiny; norm_num
  have hlt : |crossProduct 0 0 tiny 0 (tiny / 2) (-tiny) (tiny / 2) tiny| < epsValue := by
    rw [hc]; unfold tiny epsValue
    rw [abs_of_pos (by norm_num)]
    norm_num
  have hA : paramA 0 0 tiny 0 (tiny / 2) (-tiny) (tiny / 2) tiny = 1 / 2 := by
    unfold paramA
    rw [hc]; unfold tiny; norm_num
  have hB : paramB 0 0 tiny 0 (tiny / 2) (-tiny) (tiny / 2) tiny = 1 / 2 := by
    unfold paramB
    rw [hc]; unfold tiny; norm_num
  have h1 : lineSegmentsIntersect refRuntime ⟨fin 0, fin 0, none⟩ ⟨fin tiny, fin 0, none⟩
      ⟨fin (tiny / 2), fin (-tiny), none⟩ ⟨fin (tiny / 2), fin tiny, none⟩ = true := by
    rw [lineSegmentsIntersect_params refRuntime refRuntime_exactArith _ _ _ _ _ _ _ _ _ _ _ _
      hne, hA, hB]
    norm_num
  have h2 : calculateLineIntersection refRuntime ⟨fin 0, fin 0, none⟩ ⟨fin tiny, fin 0, none⟩
      ⟨fin (tiny / 2), fin (-tiny), none⟩ ⟨fin (tiny / 2), fin tiny, none⟩ = none := by
    rw [calculateLineIntersection_exact refRuntime refRuntime_exactArith, if_pos hlt]
  refine ⟨h1, h2, ?_, ?_⟩
  · simp only [polylinesIntersect, tinyHorizontal, tinyVertical, Option.getD_some, someSegment,
      h1, if_true]
  · simp only [findIntersectionPoints, tinyHorizontal, tinyVertical, Option.getD_some,
      collectSegments, h2, List.append_nil]

/-- C39, amended: on a host with exact arithmetic, for segments with finite coordinates,
`calculateLineIntersection` returns a point if and only if `lineSegmentsIntersect` returns
true and the absolute value of the denominator is not below `1e-10`; for polylines with
finite coordinates, `polylinesIntersect` returns true whenever `findIntersectionPoints`
returns a non-empty list. -/
theorem intersection_point_iff_intersect_beyond_epsilon (rt : Runtime) (hex : ExactArith rt)
    (x1 y1 x2 y2 x3 y3 x4 y4 : ℚ) (z1 z2 z3 z4 : Option JSNumber)
    (vertices1 vertices2 : List Point) (hf1 : ∀ p ∈ vertices1, PlanarFinite p)
    (hf2 : ∀ p ∈ vertices2, PlanarFinite p) :
    ((calculateLineIntersection rt ⟨fin x1, fin y1, z1⟩ ⟨fin x2, fin y2, z2⟩
          ⟨fin x3, fin y3, z3⟩ ⟨fin x4, fin y4, z4⟩).isSome = true
        ↔ lineSegmentsIntersect rt ⟨fin x1, fin y1, z1⟩ ⟨fin x2, fin y2, z2⟩
              ⟨fin x3, fin y3, z3⟩ ⟨fin x4, fin y4, z4⟩ = true
            ∧ epsValue ≤ |crossProduct x1 y1 x2 y2 x3 y3 x4 y4|)
    ∧ (findIntersectionPoints rt (some vertices1) (some vertices2) ≠ [] →
        polylinesIntersect rt (some vertices1) (some vertices2) = true) := by
  refine ⟨calculateLineIntersection_isSome rt hex x1 y1 x2 y2 x3 y3 x4 y4 z1 z2 z3 z4, ?_⟩
  intro hne
  unfold findIntersectionPoints at hne
  simp only [Option.getD_some] at hne
  obtain ⟨s1, hs1, hin⟩ := (collectSegments_ne_nil_iff _ _).1 hne
  obtain ⟨s2, hs2, hb⟩ := (collectSegments_ne_nil_iff _ _).1 hin
  have hcalc : calculateLineIntersection rt s1.1 s1.2 s2.1 s2.2 ≠ none := by
    intro h
    rw [h] at hb
    exact hb rfl
  have hm1 := mem_segmentsOf vertices1 s1 hs1
  have hm2 := mem_segmentsOf vertices2 s2 hs2
  have hlsi := intersection_implies_intersect rt hex s1.1 s1.2 s2.1 s2.2 (hf1 _ hm1.1)
    (hf1 _ hm1.2) (hf2 _ hm2.1) (hf2 _ hm2.2) hcalc
  unfold polylinesIntersect
  simp only [Option.getD_some]
  exact (someSegment_iff _ _).2 ⟨s1, hs1, (someSegment_iff _ _).2 ⟨s2, hs2, hlsi⟩⟩

end GeometryCalculator
/-! ## Shaft numbers and their validation -/

namespace ValidationUtils

theorem extracted_is_token (layerName : JSString)
    (h : SelectionFilter.extractShaftNumber layerName ≠ []) :
    ∃ a b d ds, SelectionFilter.extractShaftNumber layerName = a :: b :: '-' :: d :: ds
      ∧ (a = 'S' ∨ a = 's') ∧ (b = 'H' ∨ b = 'h') ∧ d.isDigit = true
      ∧ ∀ c ∈ ds, c.isDigit = true := by
  unfold SelectionFilter.extractShaftNumber at h ⊢
  cases he : RegExp.exec true SelectionFilter.shaftPattern layerName with
  | none => rw [he] at h; exact absurd rfl h
  | some m =>
    obtain ⟨pre, suf, -, hm, -⟩ := RegExp.exec_eq_some _ _ _ _ he
    obtain ⟨a, b, d, rest, -, ha, hb, hd, rfl⟩ := (SelectionFilter.shaft_matchHere _ _).1 hm
    exact ⟨a, b, d, rest.takeWhile Char.isDigit, rfl, ha, hb, hd,
      fun c hc => List.mem_takeWhile_imp hc⟩

theorem shaftPatternTest_token (a b d : Char) (ds : List Char) (hd : d.isDigit = true)
    (hds : ∀ c ∈ ds, c.isDigit = true) :
    shaftPatternTest (a :: b :: '-' :: d :: ds) = true
      ↔ a = 'S' ∧ b = 'H' ∧ ds.length ≤ 1 := by
  cases ds with
  | nil => simp [shaftPatternTest, hd]
  | cons e rest =>
    have he : e.isDigit = true := hds e (List.mem_cons_self _ _)
    cases rest with
    | nil => simp [shaftPatternTest, hd, he]
    | cons f rest' => simp [shaftPatternTest]

/-- C37, as stated, fails: the layer `GEB-SH-123-PIPE` yields the shaft number `SH-123`
and the layer `geb-sh-01` yields `sh-01`; `validateShaftNumber` rejects both, the first for
its three digits and the second for its lower-case letters. -/
theorem extracted_shaft_number_rejected :
    SelectionFilter.extractShaftNumber "GEB-SH-123-PIPE".toList = "SH-123".toList
    ∧ validateShaftNumber (some "SH-123".toList) = false
    ∧ SelectionFilter.extractShaftNumber "geb-sh-01".toList = "sh-01".toList
    ∧ validateShaftNumber (some "sh-01".toList) = false := by
  refine ⟨by decide, by decide, by decide, by decide⟩

/-- C37, amended: for every layer name for which `extractShaftNumber` returns a non-empty
string `s`, `validateShaftNumber(s)` is true if and only if `s` is the upper-case `SH-`
followed by at most two characters (which are digits, `s` being a shaft token); shaft
numbers in lower case or with three or more digits are rejected. -/
theorem validateShaftNumber_of_extracted (layerName : JSString)
    (h : SelectionFilter.extractShaftNumber layerName ≠ []) :
    validateShaftNumber (some (SelectionFilter.extractShaftNumber layerName)) = true
      ↔ ∃ ds, SelectionFilter.extractShaftNumber layerName = 'S' :: 'H' :: '-' :: ds
          ∧ ds.length ≤ 2 := by
  obtain ⟨a, b, d, ds, hs, -, -, hd, hds⟩ := extracted_is_token layerName h
  rw [hs]
  have hv : validateShaftNumber (some (a :: b :: '-' :: d :: ds))
      = shaftPatternTest (a :: b :: '-' :: d :: ds) := rfl
  rw [hv, shaftPatternTest_token a b d ds hd hds]
  constructor
  · rintro ⟨rfl, rfl, hlen⟩
    exact ⟨d :: ds, rfl, by simp only [List.length_cons]; omega⟩
  · rintro ⟨ds', he, hlen⟩
    simp only [List.cons.injEq, true_and] at he
    obtain ⟨rfl, rfl, rfl⟩ := he
    simp only [List.length_cons] at hlen
    exact ⟨rfl, rfl, by omega⟩

end ValidationUtils
/-! ## The length of a pipe -/

theorem refRuntime_zeroLaws : ZeroLaws refRuntime where
  sub_self := by
    intro a
    rw [refSub_fin, ofNat_eq_fin]
    simp
  mul_zero_zero := by
    rw [ofNat_eq_fin, refMul_fin]
    simp
  sqrt_zero := by
    have := GeometryCalculator.exactSqrt_sq 0
    rw [refSqrt_eq, ofNat_eq_fin]
    norm_num at this ⊢
    exact this
  add_zero := by
    intro x
    rw [ofNat_eq_fin]
    cases x with
    | fin a =>
      rw [refAdd_fin]
      simp
    | posInf => rfl
    | negInf => rfl
    | nan => rfl

namespace Pipe

theorem calculateDistance_self (rt : Runtime) (laws : ZeroLaws rt) (p : Point)
    (hp : PlanarFinite p) : calculateDistance rt p p = 0 := by
  obtain ⟨⟨x, hx⟩, ⟨y, hy⟩⟩ := hp
  unfold calculateDistance
  simp only [hx, hy, laws.sub_self, laws.mul_zero_zero, laws.add_zero, laws.sqrt_zero]

theorem lengthLoop_eq (rt : Runtime) (vertices : List Point) :
    ∀ (totalLength : JSNumber) (currentPoint : Point),
      lengthLoop rt vertices totalLength currentPoint
        = (GeometryUtils.lengthLoop rt (currentPoint :: vertices) totalLength,
            lastPoint currentPoint vertices) := by
  induction vertices with
  | nil => intro totalLength currentPoint; rfl
  | cons v rest ih =>
    intro totalLength currentPoint
    rw [lengthLoop, ih, GeometryUtils.lengthLoop]
    rfl

theorem lengthLoop_append (rt : Runtime) (vertices : List Point) :
    ∀ (first last : Point) (totalLength : JSNumber),
      GeometryUtils.lengthLoop rt (first :: (vertices ++ [last])) totalLength
        = rt.add (GeometryUtils.lengthLoop rt (first :: vertices) totalLength)
            (calculateDistance rt (lastPoint first vertices) last) := by
  induction vertices with
  | nil => intro first last totalLength; rfl
  | cons v rest ih =>
    intro first last totalLength
    rw [List.cons_append, GeometryUtils.lengthLoop, ih, GeometryUtils.lengthLoop]
    rfl

theorem setGeometry_length (rt : Runtime) (self : Pipe) (startPoint endPoint : Point)
    (vertices : List Point) :
    (setGeometry rt self (some startPoint) (some endPoint) vertices).length
      = rt.add (GeometryUtils.lengthLoop rt (startPoint :: vertices) 0)
          (calculateDistance rt (lastPoint startPoint vertices) endPoint) := by
  unfold setGeometry calculateLength
  simp only [lengthLoop_eq]

/-- C38: on a host whose arithmetic has the zero properties of IEEE arithmetic, for a list
`first :: rest` of at least 2 points with finite planar coordinates, a pipe whose geometry
is set by `setGeometry(first, last, first :: rest)` has a length equal to
`GeometryUtils.calculatePolylineLength` of the list, and the same length as with only the
inner vertices passed: the two zero-length steps at the end points add nothing. -/
theorem setGeometry_length_eq_polyline_length (rt : Runtime) (laws : ZeroLaws rt) (self : Pipe)
    (first : Point) (rest : List Point) (hrest : rest ≠ [])
    (hfin : ∀ p ∈ first :: rest, PlanarFinite p) :
    (setGeometry rt self (some first) (some (lastPoint first rest)) (first :: rest)).length
        = GeometryUtils.calculatePolylineLength rt (some (first :: rest))
    ∧ (setGeometry rt self (some first) (some (lastPoint first rest)) (first :: rest)).length
        = (setGeometry rt self (some first) (some (lastPoint first rest)) rest.dropLast).length := by
  have hfirst : PlanarFinite first := hfin first (List.mem_cons_self _ _)
  have hlast : PlanarFinite (lastPoint first rest) :=
    hfin _ (List.getLast_mem _)
  have hlen : ¬ (first :: rest).length < 2 := by
    cases rest with
    | nil => exact absurd rfl hrest
    | cons b rest' => simp
  have hpoly : GeometryUtils.calculatePolylineLength rt (some (first :: rest))
      = GeometryUtils.lengthLoop rt (first :: rest) 0 := by
    unfold GeometryUtils.calculatePolylineLength GeometryUtils.getPolylineVertices
    simp only [Option.getD_some]
    rw [if_neg hlen]
  have hfull :
      (setGeometry rt self (some first) (some (lastPoint first rest)) (first :: rest)).length
        = GeometryUtils.lengthLoop rt (first :: rest) 0 := by
    rw [setGeometry_length]
    have hl : lastPoint first (first :: rest) = lastPoint first rest := by
      unfold lastPoint
      rw [List.getLast_cons (List.cons_ne_nil _ _)]
    rw [hl, calculateDistance_self rt laws _ hlast, laws.add_zero, GeometryUtils.lengthLoop]
    have hd : GeometryUtils.calculateDistance rt first first = 0 :=
      calculateDistance_self rt laws first hfirst
    rw [hd, laws.add_zero]
  refine ⟨by rw [hfull, hpoly], ?_⟩
  rw [hfull, setGeometry_length]
  have hsplit : rest = rest.dropLast ++ [rest.getLast hrest] :=
    (List.dropLast_append_getLast hrest).symm
  have hlastEq : lastPoint first rest = rest.getLast hrest := by
    unfold lastPoint
    rw [List.getLast_cons hrest]
  have h := lengthLoop_append rt rest.dropLast first (rest.getLast hrest) 0
  rw [← hsplit] at h
  rw [h, hlastEq]

end Pipe
/-! ## The two validators of a pipe sheet -/

namespace ValidationUtils

theorem gt_zero_iff_not_le (v : JSNumber) (h : v ≠ nan) :
    v.gt 0 = true ↔ v.le 0 = false := by
  rw [ofNat_eq_fin]
  cases v with
  | fin a =>
    simp only [JSNumber.gt, JSNumber.le, Nat.cast_zero, decide_eq_true_eq, decide_eq_false_iff_not,
      not_le]
  | posInf => simp [JSNumber.gt, JSNumber.le]
  | negInf => simp [JSNumber.gt, JSNumber.le]
  | nan => exact absurd rfl h

theorem validators_agree_on_complete_sheets (pipeType : JSString) (wc wb mt co : JSNumber)
    (hType : pipeType = "Sunken".toList ∨ pipeType = "Under Slung".toList)
    (hwc : wc ≠ nan) (hwb : wb ≠ nan) (hmt : mt ≠ nan) (hco : co ≠ nan) :
    (validateRequiredSanitaryValues
        { pipeType := some pipeType, wcDia110 := some wc, washbasinDia50 := some wb,
          mtDia110 := some mt, collectorDia110 := some co }).isValid = true
      ↔ (PipeSheet.fromObject
          { pipeType := some pipeType, wcDia110 := some wc, washbasinDia50 := some wb,
            mtDia110 := some mt, collectorDia110 := some co }).isValid = true := by
  have hv : ValidPipeType
      { pipeType := some pipeType, wcDia110 := some wc, washbasinDia50 := some wb,
        mtDia110 := some mt, collectorDia110 := some co } := by
    rcases hType with h | h
    · exact Or.inl (by rw [h])
    · exact Or.inr (by rw [h])
  have ht : stringTruthy (some pipeType) = true := by
    rcases hType with h | h <;> rw [h] <;> rfl
  rw [validateRequiredSanitaryValues_isValid_iff]
  simp only [PipeSheet.isValid, PipeSheet.fromObject, Option.orElse, toNumber, ht,
    Bool.and_eq_true, true_and, hv, gt_zero_iff_not_le wc hwc, gt_zero_iff_not_le wb hwb,
    gt_zero_iff_not_le mt hmt, gt_zero_iff_not_le co hco]
  tauto

/-- C40, the failing inputs: the configuration `{ pipeType: 'Under Slung', wcDia110: 110,
washbasinDia50: 50, mtDia110: 110 }` with no collector diameter is valid for
`validateRequiredSanitaryValues` (`undefined <= 0` is false) but not for
`PipeSheet.fromObject(c).isValid()` (the default 0 is not `> 0`); the configuration with
the unknown pipe type `Round` and four positive diameters is invalid for the first and
valid for the second, which only tests that the pipe type is truthy. -/
theorem validators_disagree :
    (validateRequiredSanitaryValues sheetWithoutCollector).isValid = true
    ∧ (PipeSheet.fromObject sheetWithoutCollector).isValid = false
    ∧ (validateRequiredSanitaryValues roundSheet).isValid = false
    ∧ (PipeSheet.fromObject roundSheet).isValid = true := by
  refine ⟨by decide, by decide, by decide, by decide⟩

end ValidationUtils

/-! ## Instances of the conditional statements -/

theorem calculatePolylineLength_sums_segments_witness :
    0 + 1 < trianglePath.length
    ∧ (GeometryCalculator.segmentDistances refRuntime trianglePath)[0]?
        = some (GeometryCalculator.calculateDistance refRuntime ⟨0, 0, none⟩ ⟨3, 0, none⟩) :=
  ⟨by decide,
    (GeometryCalculator.calculatePolylineLength_sums_segments refRuntime).2.2.2.1
      trianglePath 0 (by decide)⟩

theorem extractShaftNumber_leftmost_token_witness :
    ContainsShaftToken "GEB-SH-03-PIPE".toList
    ∧ IsShaftToken (SelectionFilter.extractShaftNumber "GEB-SH-03-PIPE".toList) :=
  have h : ContainsShaftToken "GEB-SH-03-PIPE".toList :=
    ⟨"GEB-".toList, "SH-03".toList, "-PIPE".toList, by decide, 'S', 'H', "03".toList,
      by decide, Or.inl rfl, Or.inl rfl, by decide, by decide⟩
  ⟨h, by
    obtain ⟨pre, post, -, ht, -⟩ :=
      (SelectionFilter.extractShaftNumber_leftmost_token "GEB-SH-03-PIPE".toList).2.1 h
    exact ht⟩

theorem estimatePipeDiameter_breakpoints_witness :
    (70 : JSNumber).gt 50 = true
    ∧ CADProcessor.estimatePipeDiameter { runOnShaft1 with length := some 70 } = 110 :=
  ⟨by decide, (CADProcessor.estimatePipeDiameter_breakpoints runOnShaft1 70).1 (by decide)⟩

theorem estimators_canonical_or_raw_witness :
    ¬ HasDToken (refRuntime.toUpperCase "ELBOW".toList)
    ∧ BlockProcessor.estimateBlockDiameter refRuntime "ELBOW".toList ∈ canonicalDiameters :=
  have h : ¬ HasDToken (refRuntime.toUpperCase "ELBOW".toList) :=
    BlockProcessor.exec_diameter_none _ (by decide)
  ⟨h, (estimators_canonical_or_raw refRuntime).2.1 "ELBOW".toList h⟩

theorem estimateBlockDiameter_token_or_band_witness :
    HasDToken (refRuntime.toUpperCase "bend-d75".toList)
    ∧ (∃ pre ds post, FirstDToken (refRuntime.toUpperCase "bend-d75".toList) pre ds post
        ∧ BlockProcessor.estimateBlockDiameter refRuntime "bend-d75".toList
            = refRuntime.ofNat (digitsValue ds))
    ∧ ¬ HasDToken (refRuntime.toUpperCase "VALVE-110".toList)
    ∧ BlockProcessor.estimateBlockDiameter refRuntime "VALVE-110".toList
        = diameterBand (refRuntime.toUpperCase "VALVE-110".toList) :=
  have h1 : HasDToken (refRuntime.toUpperCase "bend-d75".toList) :=
    ⟨"BEND-".toList, '7', "5".toList, by decide, by decide⟩
  have h2 : ¬ HasDToken (refRuntime.toUpperCase "VALVE-110".toList) :=
    BlockProcessor.exec_diameter_none _ (by decide)
  ⟨h1, (BlockProcessor.estimateBlockDiameter_token_or_band refRuntime "bend-d75".toList).1 h1,
    h2, (BlockProcessor.estimateBlockDiameter_token_or_band refRuntime "VALVE-110".toList).2.1 h2⟩

theorem processBlockFittings_recognised_only_witness :
    (∀ b ∈ sampleBlocks, recognised refRuntime b = true → b.layer ≠ none)
    ∧ ∃ fs, BlockProcessor.processBlockFittings refRuntime BlockProcessor.constructor
          sampleBlocks = .ok fs
        ∧ fs.length = (sampleBlocks.filter (recognised refRuntime)).length :=
  have h : ∀ b ∈ sampleBlocks, recognised refRuntime b = true → b.layer ≠ none := by
    intro b hb _
    simp only [sampleBlocks, List.mem_cons, List.mem_singleton, List.not_mem_nil,
      or_false] at hb
    rcases hb with rfl | rfl | rfl <;> simp
  ⟨h, by
    obtain ⟨fs, h1, -, h3, -⟩ :=
      BlockProcessor.processBlockFittings_recognised_only refRuntime sampleBlocks h
    exact ⟨fs, h1, h3⟩⟩

theorem subtype_in_code_vocabulary_witness :
    BlockProcessor.determineFittingType refRuntime BlockProcessor.constructor
        "TEE-D50".toList = some "tee".toList
    ∧ "tee".toList ∈ blockSubtypes :=
  have h : BlockProcessor.determineFittingType refRuntime BlockProcessor.constructor
      "TEE-D50".toList = some "tee".toList := by decide
  ⟨h, (subtype_in_code_vocabulary refRuntime).1 _ _ h⟩

theorem fitting_diameter_and_bands_witness :
    (60 : JSNumber).gt 50 = true
    ∧ CADProcessor.determineFittingType { largeCircle with radius := some 60 }
        = "elbow".toList :=
  ⟨by decide,
    (CADProcessor.fitting_diameter_and_bands refRuntime largeCircle 60).2.2.1 (by decide)⟩

theorem articleNo_nonempty_iff_witness :
    ∃ f, BlockProcessor.processBlock refRuntime BlockProcessor.constructor bendBlock
          = .ok (some f)
      ∧ (f.articleNo ≠ [] ↔
          f.fittingType ∈ articleSubtypes ∧ f.diameter ∈ canonicalDiameters) := by
  obtain ⟨f, hf, -, -⟩ :=
    BlockProcessor.processBlock_recognised refRuntime bendBlock "GEB-SH-01".toList
      (by decide) rfl
  exact ⟨f, hf, BlockProcessor.articleNo_nonempty_iff refRuntime bendBlock f hf⟩

theorem pipe_article_is_placeholder_witness :
    Pipe.create "articleNo50".toList "Pipe 50mm".toList 50 10 none
        ∈ MaterialCalculator.processPipes [runOnShaft2]
    ∧ SanitaryObjectsCollections.getDescriptionByArticleNumber
        (Pipe.create "articleNo50".toList "Pipe 50mm".toList 50 10 none).articleNo = [] :=
  ⟨by decide,
    (MaterialCalculator.pipe_article_is_placeholder [runOnShaft2]
      (Pipe.create "articleNo50".toList "Pipe 50mm".toList 50 10 none) (by decide)).2.2.1⟩

theorem description_is_synthesized_witness :
    PrintsCanonical refRuntime
    ∧ ∃ f, BlockProcessor.processBlock refRuntime BlockProcessor.constructor bendBlock
          = .ok (some f)
        ∧ f.description = subtypeText f.fittingType ++ refRuntime.numberToString f.diameter := by
  have hp : PrintsCanonical refRuntime := ⟨by decide, by decide, by decide⟩
  obtain ⟨f, hf, -, -⟩ :=
    BlockProcessor.processBlock_recognised refRuntime bendBlock "GEB-SH-01".toList
      (by decide) rfl
  exact ⟨hp, f, hf, (BlockProcessor.description_is_synthesized refRuntime hp bendBlock f hf).1⟩

theorem article_number_determines_row_witness :
    "361.000.16.0|M|pipe PE-HD d50x3 L5000".toList
        ∈ SanitaryObjectsCollections.getWashBasinCollection
    ∧ "361.000.16.0|M|pipe PE-HD d50x3 L5000".toList
        = "361.000.16.0|M|pipe PE-HD d50x3 L5000".toList :=
  ⟨by decide,
    SanitaryObjectsCollections.article_number_determines_row.1
      "361.000.16.0|M|pipe PE-HD d50x3 L5000".toList (by decide)
      "361.000.16.0|M|pipe PE-HD d50x3 L5000".toList (by decide) rfl⟩

theorem lookup_exact_for_bar_free_witness :
    '|' ∉ "361.045.16.1".toList
    ∧ (SanitaryObjectsCollections.checkFromCollection
          SanitaryObjectsCollections.getWashBasinCollection "361.045.16.1".toList = true
        ↔ ∃ row ∈ SanitaryObjectsCollections.getWashBasinCollection,
            articleNumber row = "361.045.16.1".toList) :=
  ⟨by decide,
    (SanitaryObjectsCollections.lookup_exact_for_bar_free "361.045.16.1".toList
      (by decide)).2.1⟩

theorem groupByShaft_files_items_witness :
    (∀ e ∈ [pipeItemA, pipeItemA], shaftKey e ∉ objectPrototypeKeys)
    ∧ ∃ g, SelectionSetUtil.groupByShaft [pipeItemA, pipeItemA] = .ok g
        ∧ (∀ key, key ∈ keys g →
            g.lookup key = some (itemsOfShaft [pipeItemA, pipeItemA] key)) := by
  have h : ∀ e ∈ [pipeItemA, pipeItemA], shaftKey e ∉ objectPrototypeKeys := by decide
  obtain ⟨g, hg, -, -, hl⟩ := SelectionSetUtil.groupByShaft_files_items _ h
  exact ⟨h, g, hg, hl⟩

theorem groupByShaft_perm_witness :
    List.Perm [pipeItemA, pipeItemB] [pipeItemB, pipeItemA]
    ∧ (∀ e ∈ [pipeItemA, pipeItemB], shaftKey e ∉ objectPrototypeKeys)
    ∧ ∃ g g', SelectionSetUtil.groupByShaft [pipeItemA, pipeItemB] = .ok g
        ∧ SelectionSetUtil.groupByShaft [pipeItemB, pipeItemA] = .ok g'
        ∧ (∀ key, key ∈ keys g ↔ key ∈ keys g') := by
  have hp : List.Perm [pipeItemA, pipeItemB] [pipeItemB, pipeItemA] := List.Perm.swap _ _ _
  have h : ∀ e ∈ [pipeItemA, pipeItemB], shaftKey e ∉ objectPrototypeKeys := by decide
  obtain ⟨g, g', hg, hg', hkeys, -, -⟩ := SelectionSetUtil.groupByShaft_perm _ _ hp h
  exact ⟨hp, h, g, g', hg, hg', hkeys⟩

theorem calculateQuantitiesByShaft_sums_witness :
    ExactAdd refRuntime
    ∧ FiniteQuantities [pipeItemA, pipeItemB]
    ∧ (∀ m ∈ [pipeItemA, pipeItemB], m.shaftNumber ∉ objectPrototypeKeys)
    ∧ ∃ result, SelectionSetUtil.calculateQuantitiesByShaft refRuntime [pipeItemA, pipeItemB]
          = some result
        ∧ (∀ key, key ∈ keys result →
            result.lookup key = some (fin (shaftTotal [pipeItemA, pipeItemB] key))) := by
  have ha : ExactAdd refRuntime := fun _ _ => rfl
  have hq : FiniteQuantities [pipeItemA, pipeItemB] := by
    intro m hm
    simp only [List.mem_cons, List.mem_singleton, List.not_mem_nil, or_false] at hm
    rcases hm with rfl | rfl
    · exact ⟨10, rfl⟩
    · exact ⟨4, rfl⟩
  have hk : ∀ m ∈ [pipeItemA, pipeItemB], m.shaftNumber ∉ objectPrototypeKeys := by decide
  obtain ⟨result, hres, -, -, hl, -⟩ :=
    SelectionSetUtil.calculateQuantitiesByShaft_sums refRuntime ha _ hq hk
  exact ⟨ha, hq, hk, result, hres, hl⟩

theorem validateExtractionInput_lists_all_violations_witness :
    ValidPipeType zeroSunkenSheet
    ∧ (ValidationUtils.validateExtractionInput
          { pipeSheet := none, entities := .array 3, shafts := .array 0 }).errors
        = ["Pipe sheet configuration is required".toList,
           "At least one shaft is required".toList]
    ∧ (ValidationUtils.validateRequiredSanitaryValues zeroSunkenSheet).errors.length = 4 := by
  have h := ValidationUtils.validateExtractionInput_lists_all_violations
    { pipeSheet := none, entities := .array 3, shafts := .array 0 } zeroSunkenSheet
    (Or.inl rfl)
  refine ⟨Or.inl rfl, ?_, ?_⟩
  · rw [h.1]; decide
  · rw [h.2.2.1]; decide
theorem quantitiesByShaft_sum_to_totalQuantity_witness :
    ExactAdd refRuntime
    ∧ FiniteQuantities [pipeItemA, unassignedPipe]
    ∧ (∀ m ∈ [pipeItemA, unassignedPipe], m.shaftNumber ∉ objectPrototypeKeys)
    ∧ ∃ result,
        SelectionSetUtil.calculateQuantitiesByShaft refRuntime [pipeItemA, unassignedPipe]
          = some result
        ∧ Api.totalQuantity refRuntime [pipeItemA, unassignedPipe] = fin (sumOfValues result)
        ∧ sumOfValues result = grandTotal [pipeItemA, unassignedPipe] := by
  have ha : ExactAdd refRuntime := fun _ _ => rfl
  have hq : FiniteQuantities [pipeItemA, unassignedPipe] := by
    intro m hm
    simp only [List.mem_cons, List.mem_singleton, List.not_mem_nil, or_false] at hm
    rcases hm with rfl | rfl
    · exact ⟨10, rfl⟩
    · exact ⟨7, rfl⟩
  have hk : ∀ m ∈ [pipeItemA, unassignedPipe], m.shaftNumber ∉ objectPrototypeKeys := by
    decide
  obtain ⟨result, hres, -, htot, hsum, -⟩ :=
    SelectionSetUtil.quantitiesByShaft_sum_to_totalQuantity refRuntime ha _ hq hk
  exact ⟨ha, hq, hk, result, hres, htot, hsum⟩

theorem empty_shaft_summed_under_empty_key_witness :
    ExactAdd refRuntime
    ∧ FiniteQuantities [unassignedPipe, pipeItemA]
    ∧ (∀ m ∈ [unassignedPipe, pipeItemA], m.shaftNumber ∉ objectPrototypeKeys)
    ∧ (∃ m ∈ [unassignedPipe, pipeItemA], m.shaftNumber = [])
    ∧ ∃ result g,
        SelectionSetUtil.calculateQuantitiesByShaft refRuntime [unassignedPipe, pipeItemA]
          = some result
        ∧ SelectionSetUtil.groupByShaft [unassignedPipe, pipeItemA] = .ok g
        ∧ result.lookup [] = some (fin (shaftTotal [unassignedPipe, pipeItemA] []))
        ∧ g.lookup "UNKNOWN".toList
            = some (itemsOfShaft [unassignedPipe, pipeItemA] "UNKNOWN".toList) := by
  have ha : ExactAdd refRuntime := fun _ _ => rfl
  have hq : FiniteQuantities [unassignedPipe, pipeItemA] := by
    intro m hm
    simp only [List.mem_cons, List.mem_singleton, List.not_mem_nil, or_false] at hm
    rcases hm with rfl | rfl
    · exact ⟨7, rfl⟩
    · exact ⟨10, rfl⟩
  have hk : ∀ m ∈ [unassignedPipe, pipeItemA], m.shaftNumber ∉ objectPrototypeKeys := by
    decide
  have he : ∃ m ∈ [unassignedPipe, pipeItemA], m.shaftNumber = [] :=
    ⟨unassignedPipe, List.mem_cons_self _ _, rfl⟩
  obtain ⟨result, g, hres, hg, hl, hgl, -, -⟩ :=
    SelectionSetUtil.empty_shaft_summed_under_empty_key refRuntime ha _ hq hk he
  exact ⟨ha, hq, hk, he, result, g, hres, hg, hl, hgl⟩

theorem filterAndProcessEntities_keeps_valid_pipes_witness :
    (∀ e ∈ sampleLists.polylines, CADProcessor.isValidPipe e = true → e.layer ≠ none)
    ∧ (∀ e ∈ sampleLists.circles, CADProcessor.isValidFitting e = true → e.layer ≠ none)
    ∧ (∀ e ∈ sampleLists.blocks, CADProcessor.isValidBlock e = true → e.layer ≠ none)
    ∧ ∃ processed, CADProcessor.filterAndProcessEntities refRuntime sampleLists = .ok processed
        ∧ processed.polylines.map EnrichedPipe.source
            = sampleLists.polylines.filter CADProcessor.isValidPipe
        ∧ processed.totalEntities
            = processed.polylines.length + processed.circles.length
              + processed.blocks.length := by
  have hp : ∀ e ∈ sampleLists.polylines, CADProcessor.isValidPipe e = true → e.layer ≠ none := by
    intro e he _
    simp only [sampleLists, List.mem_cons, List.mem_singleton, List.not_mem_nil, or_false] at he
    rcases he with rfl | rfl | rfl <;> exact fun h => by cases h
  have hc : ∀ e ∈ sampleLists.circles, CADProcessor.isValidFitting e = true → e.layer ≠ none := by
    intro e he _
    simp only [sampleLists, List.mem_cons, List.mem_singleton, List.not_mem_nil, or_false] at he
    rcases he with rfl
    exact fun h => by cases h
  have hb : ∀ e ∈ sampleLists.blocks, CADProcessor.isValidBlock e = true → e.layer ≠ none := by
    intro e he _
    simp only [sampleLists, List.mem_cons, List.mem_singleton, List.not_mem_nil, or_false] at he
    rcases he with rfl
    exact fun h => by cases h
  obtain ⟨processed, hres, hmap, -, -, htot⟩ :=
    CADProcessor.filterAndProcessEntities_keeps_valid_pipes refRuntime sampleLists hp hc hb
  exact ⟨hp, hc, hb, processed, hres, hmap, htot⟩

theorem calculateDistance_euclidean_witness :
    SignLaws refRuntime
    ∧ FinitePoint ⟨fin 0, fin 0, none⟩ ∧ FinitePoint ⟨fin 2, fin 3, some (fin 6)⟩
    ∧ (0 : JSNumber).le
        (GeometryCalculator.calculateDistance refRuntime ⟨fin 0, fin 0, none⟩
          ⟨fin 2, fin 3, some (fin 6)⟩) = true
    ∧ GeometryCalculator.calculateDistance refRuntime ⟨fin 0, fin 0, none⟩
          ⟨fin 2, fin 3, some (fin 6)⟩
        = GeometryCalculator.calculateDistance refRuntime ⟨fin 2, fin 3, some (fin 6)⟩
            ⟨fin 0, fin 0, none⟩ := by
  have h0 : FinitePoint ⟨fin 0, fin 0, none⟩ := ⟨⟨0, rfl⟩, ⟨0, rfl⟩, Or.inl rfl⟩
  have h1 : FinitePoint ⟨fin 2, fin 3, some (fin 6)⟩ := ⟨⟨2, rfl⟩, ⟨3, rfl⟩, Or.inr ⟨6, rfl⟩⟩
  have h := GeometryCalculator.calculateDistance_euclidean refRuntime refRuntime_signLaws
    ⟨fin 0, fin 0, none⟩ ⟨fin 2, fin 3, some (fin 6)⟩ h0 h1
  exact ⟨refRuntime_signLaws, h0, h1, h.2.2.2.1, h.2.2.2.2⟩

theorem calculateAngle_range_witness :
    AngleLaws chordRuntime
    ∧ ¬ ((0 : ℚ) = 30 ∧ (0 : ℚ) = 0) ∧ ¬ ((30 : ℚ) = 30 ∧ (40 : ℚ) = 0)
    ∧ ∃ d : ℚ,
        GeometryCalculator.calculateAngle chordRuntime ⟨fin 0, fin 0, none⟩ ⟨fin 30, fin 0, none⟩
          ⟨fin 30, fin 40, none⟩ = fin d
        ∧ 0 ≤ d ∧ d ≤ 180 := by
  have h1 : ¬ ((0 : ℚ) = 30 ∧ (0 : ℚ) = 0) := by norm_num
  have h3 : ¬ ((30 : ℚ) = 30 ∧ (40 : ℚ) = 0) := by norm_num
  obtain ⟨-, -, d, -, -, -, -, -, hd, hd0, hd180⟩ :=
    (GeometryCalculator.calculateAngle_range chordRuntime chordRuntime_angleLaws 0 0 30 0 30 40
      none none none).1 ⟨h1, h3⟩
  exact ⟨chordRuntime_angleLaws, h1, h3, d, hd, hd0, hd180⟩

theorem lineSegmentsIntersect_parallel_witness :
    ExactArith refRuntime
    ∧ crossProduct 0 0 1 1 0 1 1 2 = 0
    ∧ GeometryCalculator.lineSegmentsIntersect refRuntime ⟨fin 0, fin 0, none⟩
        ⟨fin 1, fin 1, none⟩ ⟨fin 0, fin 1, none⟩ ⟨fin 1, fin 2, none⟩ = false := by
  have hc : crossProduct 0 0 1 1 0 1 1 2 = 0 := by unfold crossProduct; norm_num
  exact ⟨refRuntime_exactArith, hc,
    (GeometryCalculator.lineSegmentsIntersect_parallel refRuntime refRuntime_exactArith
      0 0 1 1 0 1 1 2 none none none none hc).2.1⟩

theorem isPointOnLineSegment_iff_near_witness :
    ExactArith refRuntime
    ∧ ¬ ((0 : ℚ) = 2 ∧ (0 : ℚ) = 0)
    ∧ (GeometryCalculator.isPointOnLineSegment refRuntime ⟨fin 1, fin 1, none⟩
          ⟨fin 0, fin 0, none⟩ ⟨fin 2, fin 0, none⟩ (fin 1) = true
        ↔ (refRuntime.sqrt (fin (sqDistAt 1 1 0 0 2 0 (nearestParam 1 1 0 0 2 0)))).le (fin 1)
            = true)
    ∧ nearestParam 1 1 0 0 2 0 = 1 / 2
    ∧ sqDistAt 1 1 0 0 2 0 (1 / 2) = 1 := by
  have hs : ¬ ((0 : ℚ) = 2 ∧ (0 : ℚ) = 0) := by norm_num
  have hn : nearestParam 1 1 0 0 2 0 = 1 / 2 := by
    unfold nearestParam
    norm_num
  have hd : sqDistAt 1 1 0 0 2 0 (1 / 2) = 1 := by
    unfold sqDistAt
    norm_num
  exact ⟨refRuntime_exactArith, hs,
    (GeometryCalculator.isPointOnLineSegment_iff_near refRuntime refRuntime_exactArith
      1 1 0 0 2 0 none none none (fin 1) hs).1, hn, hd⟩

theorem lineSegmentsIntersect_iff_meet_witness :
    ExactArith refRuntime
    ∧ crossProduct 0 0 2 2 0 2 2 0 ≠ 0
    ∧ (GeometryCalculator.lineSegmentsIntersect refRuntime ⟨fin 0, fin 0, none⟩
          ⟨fin 2, fin 2, none⟩ ⟨fin 0, fin 2, none⟩ ⟨fin 2, fin 0, none⟩ = true
        ↔ SegmentsMeet 0 0 2 2 0 2 2 0)
    ∧ SegmentsMeet 0 0 2 2 0 2 2 0 := by
  have hc : crossProduct 0 0 2 2 0 2 2 0 ≠ 0 := by unfold crossProduct; norm_num
  have hm : SegmentsMeet 0 0 2 2 0 2 2 0 :=
    ⟨1 / 2, 1 / 2, by norm_num, by norm_num, by norm_num, by norm_num, by norm_num,
      by norm_num⟩
  exact ⟨refRuntime_exactArith, hc,
    GeometryCalculator.lineSegmentsIntersect_iff_meet refRuntime refRuntime_exactArith
      0 0 2 2 0 2 2 0 none none none none hc, hm⟩

theorem determineFittingType_first_keyword_witness :
    includes (refRuntime.toUpperCase "bend 45 tee".toList) "BEND".toList = true
    ∧ BlockProcessor.determineFittingType refRuntime BlockProcessor.constructor
        "bend 45 tee".toList = some "bend".toList :=
  ⟨by decide,
    (BlockProcessor.determineFittingType_first_keyword refRuntime "bend 45 tee".toList).2.1
      (by decide)⟩
theorem getUniqueShaftNumbers_sorted_unique_witness :
    (∀ e ∈ layeredEntities, e.layer ≠ none)
    ∧ ∃ shafts, SelectionFilter.getUniqueShaftNumbers layeredEntities = .ok shafts
        ∧ shafts = ["SH-01".toList, "SH-02".toList]
        ∧ List.Sorted StringLE shafts ∧ shafts.Nodup ∧ [] ∉ shafts := by
  have hl : ∀ e ∈ layeredEntities, e.layer ≠ none := by decide
  obtain ⟨shafts, hres, hsorted, hnd, hne, -⟩ :=
    SelectionFilter.getUniqueShaftNumbers_sorted_unique layeredEntities hl
  have hval : SelectionFilter.getUniqueShaftNumbers layeredEntities
      = .ok ["SH-01".toList, "SH-02".toList] := by rfl
  have heq : shafts = ["SH-01".toList, "SH-02".toList] := by
    rw [hres] at hval
    exact Except.ok.inj hval
  exact ⟨hl, shafts, hres, heq, hsorted, hnd, hne⟩

theorem filterByShaftNumber_partitions_witness :
    (∀ e ∈ layeredEntities, e.layer ≠ none)
    ∧ SelectionFilter.filterByShaftNumber layeredEntities "SH-01".toList
        = .ok (entitiesOfShaft layeredEntities "SH-01".toList)
    ∧ entitiesOfShaft layeredEntities "SH-01".toList
        = [{ type := "INSERT".toList, layer := some "GEB-SH-01-PIPE".toList }] := by
  have hl : ∀ e ∈ layeredEntities, e.layer ≠ none := by decide
  obtain ⟨shafts, -, hf, -⟩ := SelectionFilter.filterByShaftNumber_partitions layeredEntities hl
  exact ⟨hl, hf _, by decide⟩
theorem calculateLineIntersection_on_both_segments_witness :
    ExactArith refRuntime
    ∧ epsValue ≤ |crossProduct 0 0 2 2 0 2 2 0|
    ∧ SegmentsMeet 0 0 2 2 0 2 2 0
    ∧ ∃ (point : Point) (ua ub : ℚ),
        GeometryCalculator.calculateLineIntersection refRuntime ⟨fin 0, fin 0, none⟩
          ⟨fin 2, fin 2, none⟩ ⟨fin 0, fin 2, none⟩ ⟨fin 2, fin 0, none⟩ = some point
        ∧ 0 ≤ ua ∧ ua ≤ 1 ∧ 0 ≤ ub ∧ ub ≤ 1
        ∧ point.x = fin (0 + ua * (2 - 0)) ∧ point.y = fin (0 + ua * (2 - 0)) := by
  have hc : crossProduct 0 0 2 2 0 2 2 0 = -8 := by unfold crossProduct; norm_num
  have heps : epsValue ≤ |crossProduct 0 0 2 2 0 2 2 0| := by
    rw [hc]; unfold epsValue; norm_num
  have hm : SegmentsMeet 0 0 2 2 0 2 2 0 :=
    ⟨1 / 2, 1 / 2, by norm_num, by norm_num, by norm_num, by norm_num, by norm_num,
      by norm_num⟩
  have h := GeometryCalculator.calculateLineIntersection_on_both_segments refRuntime
    refRuntime_exactArith 0 0 2 2 0 2 2 0 none none none none
  obtain ⟨point, hpt⟩ := h.2.2 heps hm
  obtain ⟨ua, ub, h1, h2, h3, h4, hx, hy, -, -⟩ := h.2.1 point hpt
  exact ⟨refRuntime_exactArith, heps, hm, point, ua, ub, hpt, h1, h2, h3, h4, hx, hy⟩

theorem intersection_point_iff_intersect_beyond_epsilon_witness :
    ExactArith refRuntime
    ∧ (∀ p ∈ risingDiagonal, PlanarFinite p)
    ∧ (∀ p ∈ fallingDiagonal, PlanarFinite p)
    ∧ ((GeometryCalculator.calculateLineIntersection refRuntime ⟨fin 0, fin 0, none⟩
            ⟨fin 2, fin 2, none⟩ ⟨fin 0, fin 2, none⟩ ⟨fin 2, fin 0, none⟩).isSome = true
        ↔ GeometryCalculator.lineSegmentsIntersect refRuntime ⟨fin 0, fin 0, none⟩
              ⟨fin 2, fin 2, none⟩ ⟨fin 0, fin 2, none⟩ ⟨fin 2, fin 0, none⟩ = true
            ∧ epsValue ≤ |crossProduct 0 0 2 2 0 2 2 0|)
    ∧ (GeometryCalculator.findIntersectionPoints refRuntime (some risingDiagonal)
          (some fallingDiagonal) ≠ [] →
        GeometryCalculator.polylinesIntersect refRuntime (some risingDiagonal)
          (some fallingDiagonal) = true) := by
  have hf1 : ∀ p ∈ risingDiagonal, PlanarFinite p := by
    intro p hp
    simp only [risingDiagonal, List.mem_cons, List.mem_singleton, List.not_mem_nil,
      or_false] at hp
    rcases hp with rfl | rfl
    · exact ⟨⟨0, rfl⟩, ⟨0, rfl⟩⟩
    · exact ⟨⟨2, rfl⟩, ⟨2, rfl⟩⟩
  have hf2 : ∀ p ∈ fallingDiagonal, PlanarFinite p := by
    intro p hp
    simp only [fallingDiagonal, List.mem_cons, List.mem_singleton, List.not_mem_nil,
      or_false] at hp
    rcases hp with rfl | rfl
    · exact ⟨⟨0, rfl⟩, ⟨2, rfl⟩⟩
    · exact ⟨⟨2, rfl⟩, ⟨0, rfl⟩⟩
  have h := GeometryCalculator.intersection_point_iff_intersect_beyond_epsilon refRuntime
    refRuntime_exactArith 0 0 2 2 0 2 2 0 none none none none risingDiagonal fallingDiagonal
    hf1 hf2
  exact ⟨refRuntime_exactArith, hf1, hf2, h.1, h.2⟩
theorem validateShaftNumber_of_extracted_witness :
    SelectionFilter.extractShaftNumber "GEB-SH-03-PIPE".toList ≠ []
    ∧ (ValidationUtils.validateShaftNumber
          (some (SelectionFilter.extractShaftNumber "GEB-SH-03-PIPE".toList)) = true
        ↔ ∃ ds, SelectionFilter.extractShaftNumber "GEB-SH-03-PIPE".toList
              = 'S' :: 'H' :: '-' :: ds ∧ ds.length ≤ 2)
    ∧ ValidationUtils.validateShaftNumber
        (some (SelectionFilter.extractShaftNumber "GEB-SH-03-PIPE".toList)) = true :=
  ⟨by decide,
    ValidationUtils.validateShaftNumber_of_extracted "GEB-SH-03-PIPE".toList (by decide),
    by decide⟩
theorem setGeometry_length_eq_polyline_length_witness :
    ZeroLaws refRuntime
    ∧ [(⟨fin 3, fin 0, none⟩ : Point), ⟨fin 3, fin 4, none⟩] ≠ []
    ∧ (∀ p ∈ cornerPath, PlanarFinite p)
    ∧ (Pipe.setGeometry refRuntime Pipe.constructor (some ⟨fin 0, fin 0, none⟩)
          (some (lastPoint ⟨fin 0, fin 0, none⟩ [⟨fin 3, fin 0, none⟩, ⟨fin 3, fin 4, none⟩]))
          cornerPath).length
        = GeometryUtils.calculatePolylineLength refRuntime (some cornerPath) := by
  have hne : [(⟨fin 3, fin 0, none⟩ : Point), ⟨fin 3, fin 4, none⟩] ≠ [] :=
    List.cons_ne_nil _ _
  have hfin : ∀ p ∈ cornerPath, PlanarFinite p := by
    intro p hp
    simp only [cornerPath, List.mem_cons, List.mem_singleton, List.not_mem_nil, or_false] at hp
    rcases hp with rfl | rfl | rfl
    · exact ⟨⟨0, rfl⟩, ⟨0, rfl⟩⟩
    · exact ⟨⟨3, rfl⟩, ⟨0, rfl⟩⟩
    · exact ⟨⟨3, rfl⟩, ⟨4, rfl⟩⟩
  exact ⟨refRuntime_zeroLaws, hne, hfin,
    (Pipe.setGeometry_length_eq_polyline_length refRuntime refRuntime_zeroLaws Pipe.constructor
      ⟨fin 0, fin 0, none⟩ [⟨fin 3, fin 0, none⟩, ⟨fin 3, fin 4, none⟩] hne hfin).1⟩

end MaterialExtractor
